import Mathlib

/-!
# PPSSPP IR JIT front end: a shallow embedding of `Core/MIPS/IR/IRJit.cpp`

The development follows the C++ source function by function.

* Stateful member functions become functions on the record `IRJit`
  (`js`, `ir`, `gpr`, `blocks_`, `mips_`, `logBlocks`, `dontLogBlocks`).
* `u32` values are natural numbers, reduced `% 2 ^ 32` where the source
  does arithmetic on them; `int` counters are integers.
* Code that can abort (`Crash()`) or loop (`while (js.compiling)`, the
  recursion of `Compile`) returns `Except Halt _`; loops take a fuel
  argument and the recursion of `Compile` takes a depth argument.
* Collaborators that live outside this file of the repository (guest memory,
  the opcode tables and rules, the `JitState` prefix helpers, enum constants)
  are fields of the record `Env`.
* Log output (`ILOG`, `WARN_LOG`, `ERROR_LOG`) is not part of the state.
-/

namespace MIPSComp

/-! ## Data model -/

/-- Guest opcode word (`MIPSOpcode`): the 32-bit `encoding`. -/
structure MIPSOpcode where
  encoding : Nat
deriving DecidableEq, Repr

/-- IR operation tags. The five named tags are the ones written by
`IRJit.cpp`; `Other` stands for the remaining tags of the enum, which only
opcode rules outside this file write. -/
inductive IROp where
  | Interpret
  | SetCtrlVFPU
  | RestoreRoundingMode
  | ApplyRoundingMode
  | UpdateRoundingMode
  | Other (tag : Nat)
deriving DecidableEq, Repr

/-- IR instruction: an operation tag and three operand slots. -/
structure IRInst where
  op : IROp
  dest : Nat
  src1 : Nat
  src2 : Nat
deriving DecidableEq, Repr

/-- The IR buffer `ir` (`IRWriter`): instructions and constant pool. -/
structure IRWriter where
  insts_ : List IRInst
  constPool_ : List Nat
deriving DecidableEq, Repr

/-- Compiled block (`IRBlock`): guest start address, IR and constants. -/
structure IRBlock where
  origAddr_ : Nat
  instr_ : List IRInst
  const_ : List Nat
deriving DecidableEq, Repr

/-- The block cache (`IRBlockCache`): the vector `blocks_`. -/
structure IRBlockCache where
  blocks_ : List IRBlock
deriving DecidableEq, Repr

/-- The six prefix fields of `JitState`, as seen by its prefix helpers. -/
structure PrefixRegs where
  prefixS : Nat
  prefixT : Nat
  prefixD : Nat
  prefixSFlag : Nat
  prefixTFlag : Nat
  prefixDFlag : Nat
deriving DecidableEq, Repr

/-- Compiler state `js` (`JitState`): the fields `IRJit.cpp` reads or
writes. `hasSetRounding` and `lastSetRounding` are small unsigned integers
used as flags; `curBlock` is `none` for `nullptr`. -/
structure JitState where
  startDefaultPrefix : Bool
  hasSetRounding : Nat
  lastSetRounding : Nat
  currentRoundingFunc : Nat
  cancel : Bool
  blockStart : Nat
  compilerPC : Nat
  lastContinuedPC : Nat
  initialBlockSize : Int
  nextExit : Int
  downcountAmount : Int
  curBlock : Option Nat
  compiling : Bool
  inDelaySlot : Bool
  numInstructions : Int
  prefixS : Nat
  prefixT : Nat
  prefixD : Nat
  prefixSFlag : Nat
  prefixTFlag : Nat
  prefixDFlag : Nat
deriving DecidableEq, Repr

/-- The fields of the CPU state `mips_` that `IRJit.cpp` reads. -/
structure MIPSState where
  pc : Nat
  fcr31 : Nat
deriving DecidableEq, Repr

/-- The register cache `gpr` (`IRRegCache`). Its class is outside this
file; its contents are kept as an uninterpreted value. -/
structure IRRegCache where
  raw : Nat
deriving DecidableEq, Repr

/-- The translator object `IRJit`. -/
structure IRJit where
  js : JitState
  ir : IRWriter
  gpr : IRRegCache
  blocks_ : IRBlockCache
  mips_ : MIPSState
  logBlocks : Int
  dontLogBlocks : Int
deriving DecidableEq, Repr

/-- Ways a modelled call fails to return: `crash` is `Crash()`, `fuel` is a
loop that ran longer than the fuel given, `depth` is a recursion of `Compile`
nested deeper than the depth given. -/
inductive Halt where
  | crash
  | fuel
  | depth
deriving DecidableEq, Repr

/-- Collaborators and constants declared outside `IRJit.cpp`.

`MIPSCompileOp` is the opcode dispatch: it receives the translator
(`this`) and may change any part of it, or abort. The three prefix helpers
are member functions of `JitState`; they are given the prefix fields (and
`startDefaultPrefix` for `PrefixStart`). `gprStart` is `gpr.Start(&ir)`. -/
structure Env where
  Read_Opcode_JIT : Nat → MIPSOpcode
  Read_Instruction : Nat → MIPSOpcode
  MIPSGetInstructionCycleEstimate : MIPSOpcode → Int
  MIPSGetInfo : MIPSOpcode → Nat
  MIPSCompileOp : MIPSOpcode → IRJit → Except Halt IRJit
  PrefixStart : Bool → PrefixRegs → PrefixRegs
  PrefixUnknown : PrefixRegs → PrefixRegs
  MayHavePrefix : PrefixRegs → Bool
  gprStart : IRRegCache → IRRegCache
  convertS0ToSCRATCH1 : Nat → Nat
  PREFIX_DIRTY : Nat
  VFPU_CTRL_SPREFIX : Nat
  VFPU_CTRL_TPREFIX : Nat
  VFPU_CTRL_DPREFIX : Nat
  IS_VFPU : Nat
  VFPU_NO_PREFIX : Nat
  OUT_EAT_PREFIX : Nat
  DELAYSLOT : Nat

/-! ## IR buffer and block cache -/

/-- Modelled from the spec: `IRWriter::Write` (class `IRWriter` is not in
the sources). An IR instruction is an operation tag plus operand slots,
appended to the ordered sequence and immutable afterwards. Omitted operand
arguments of the C++ call are `0`. -/
def IRWriter.Write (ir : IRWriter) (op : IROp) (dst src1 src2 : Nat) : IRWriter :=
  { ir with insts_ := ir.insts_ ++ [⟨op, dst, src1, src2⟩] }

/-- Modelled from the spec: `IRWriter::AddConstant` (not in the sources).
The constant pool is an ordered, deduplicated sequence whose indices stay
stable: a value already present yields its index, a new value is appended.
Returns the index and the updated buffer. -/
def IRWriter.AddConstant (ir : IRWriter) (value : Nat) : Nat × IRWriter :=
  if value ∈ ir.constPool_ then (ir.constPool_.indexOf value, ir)
  else (ir.constPool_.length, { ir with constPool_ := ir.constPool_ ++ [value] })

/-- Modelled from the spec: `IRWriter::Clear` (not in the sources) empties
the in-progress instruction sequence and constant pool. -/
def IRWriter.Clear (_ir : IRWriter) : IRWriter :=
  ⟨[], []⟩

/-- Accessor `IRWriter::GetInstructions`. -/
def IRWriter.GetInstructions (ir : IRWriter) : List IRInst :=
  ir.insts_

/-- Accessor `IRWriter::GetConstants`. -/
def IRWriter.GetConstants (ir : IRWriter) : List Nat :=
  ir.constPool_

/-- Modelled from the spec: `IRBlock::SetInstructions` (class `IRBlock` is
not in the sources). The block owns its ordered IR sequence and constant
pool; sealing stores both. -/
def IRBlock.SetInstructions (b : IRBlock) (inst : List IRInst) (constants : List Nat) : IRBlock :=
  { b with instr_ := inst, const_ := constants }

/-- Source: `IRBlockCache::Clear` is `blocks_.clear()`. -/
def IRBlockCache.Clear (_c : IRBlockCache) : IRBlockCache :=
  ⟨[]⟩

/-- Source: `IRBlockCache::InvalidateICache(u32 addess, u32 length)` has the
body `// TODO`: it does nothing. -/
def IRBlockCache.InvalidateICache (c : IRBlockCache) (_addess _length : Nat) : IRBlockCache :=
  c

/-- Modelled from the spec: `IRBlockCache::AllocateBlock` (declared in
`IRJit.h`, not in the sources). `allocate(address)` creates and registers a
new block slot for a start address; the handle is the slot's index. -/
def IRBlockCache.AllocateBlock (c : IRBlockCache) (emAddr : Nat) : Nat × IRBlockCache :=
  (c.blocks_.length, ⟨c.blocks_ ++ [⟨emAddr, [], []⟩]⟩)

/-- The slot `GetBlock(i)` points to, when `i` is a valid handle. -/
def IRBlockCache.GetBlock (c : IRBlockCache) (i : Nat) : Option IRBlock :=
  c.blocks_.get? i

/-- Accessor `IRBlockCache::GetNumBlocks`. -/
def IRBlockCache.GetNumBlocks (c : IRBlockCache) : Nat :=
  c.blocks_.length

/-- Modelled from the spec: `lookup(address)` returns the current live block
for a start address, or none. -/
def IRBlockCache.lookup (c : IRBlockCache) (address : Nat) : Option IRBlock :=
  c.blocks_.find? (fun b => b.origAddr_ == address)

/-- Number of live blocks that claim the start address. -/
def IRBlockCache.countAt (c : IRBlockCache) (address : Nat) : Nat :=
  (c.blocks_.filter (fun b => b.origAddr_ == address)).length

/-- Writing through the pointer `b = GetBlock(i)`: `b->SetInstructions`. -/
def IRBlockCache.setInstructionsAt (c : IRBlockCache) (i : Nat)
    (inst : List IRInst) (constants : List Nat) : IRBlockCache :=
  ⟨c.blocks_.modify (fun b => b.SetInstructions inst constants) i⟩

/-! ## Save states -/

/-- Modes of a `PointerWrap`. -/
inductive PointerWrapMode where
  | MODE_READ
  | MODE_WRITE
  | MODE_MEASURE
  | MODE_VERIFY
deriving DecidableEq, Repr

/-- The save-state cursor `PointerWrap` (declared in `Common/ChunkFile.h`,
not in the sources): its mode and the serialized words. In read and verify
mode `data` is what is still to be consumed; in write mode it is what has
been written so far. -/
structure PointerWrap where
  mode : PointerWrapMode
  data : List Nat
deriving DecidableEq, Repr

/-- Modelled from the spec: `PointerWrap::Section(title, minVer, ver)` (not
in the sources). A section starts with its version word. Writing stores
`ver` and returns it; measuring returns `ver`; reading consumes the stored
version and returns it when it lies in `[minVer, ver]`, and `0` (a failed
section, `!s`) otherwise. The title marker is not represented. -/
def PointerWrap.Section (p : PointerWrap) (minVer ver : Nat) : Nat × PointerWrap :=
  match p.mode with
  | .MODE_WRITE => (ver, { p with data := p.data ++ [ver] })
  | .MODE_MEASURE => (ver, p)
  | _ =>
    match p.data with
    | [] => (0, p)
    | w :: ws => (if minVer ≤ w ∧ w ≤ ver then w else 0, { p with data := ws })

/-- Modelled from the spec: `PointerWrap::Do(x)` on one value (not in the
sources). Reading replaces the value by the next stored word; writing
appends the value; measuring and verifying leave the value as it is. -/
def PointerWrap.Do (p : PointerWrap) (x : Nat) : Nat × PointerWrap :=
  match p.mode with
  | .MODE_READ =>
    match p.data with
    | [] => (x, p)
    | w :: ws => (w, { p with data := ws })
  | .MODE_WRITE => (x, { p with data := p.data ++ [x] })
  | .MODE_MEASURE => (x, p)
  | .MODE_VERIFY => (x, { p with data := p.data.drop 1 })

/-- Accessor `PointerWrap::GetMode`. -/
def PointerWrap.GetMode (p : PointerWrap) : PointerWrapMode :=
  p.mode

/-! ## `JitState` helpers -/

/-- The prefix fields of a compiler state. -/
def JitState.prefixRegs (js : JitState) : PrefixRegs :=
  ⟨js.prefixS, js.prefixT, js.prefixD, js.prefixSFlag, js.prefixTFlag, js.prefixDFlag⟩

/-- Store prefix fields back into a compiler state. -/
def JitState.withPrefixRegs (js : JitState) (r : PrefixRegs) : JitState :=
  { js with
    prefixS := r.prefixS, prefixT := r.prefixT, prefixD := r.prefixD,
    prefixSFlag := r.prefixSFlag, prefixTFlag := r.prefixTFlag,
    prefixDFlag := r.prefixDFlag }

/-- Member `js.PrefixStart()`. -/
def JitState.PrefixStart (env : Env) (js : JitState) : JitState :=
  js.withPrefixRegs (env.PrefixStart js.startDefaultPrefix js.prefixRegs)

/-- Member `js.PrefixUnknown()`. -/
def JitState.PrefixUnknown (env : Env) (js : JitState) : JitState :=
  js.withPrefixRegs (env.PrefixUnknown js.prefixRegs)

/-- Member `js.MayHavePrefix()`. -/
def JitState.MayHavePrefix (env : Env) (js : JitState) : Bool :=
  env.MayHavePrefix js.prefixRegs

/-- The C expression `flag & ~PREFIX_DIRTY` on 32-bit values. -/
def clearBits (flag bits : Nat) : Nat :=
  flag &&& (0xFFFFFFFF ^^^ bits)

/-- The value a C `int` holds after an arithmetic result `x`: `x` reduced to
the 32-bit two's-complement range, from `-2 ^ 31` up to `2 ^ 31 - 1`. -/
def wrapInt (x : Int) : Int :=
  (x + 2 ^ 31) % 2 ^ 32 - 2 ^ 31

/-- Modelled from the spec: `Crash()` (a helper declared outside the
sources). An unsupported backend entry point must fail loudly: the operation
is aborted. -/
def Crash : Except Halt Unit :=
  .error .crash

namespace IRJit

/-! ## Member functions of `IRJit`, in source order -/

/-- Source: `IRJit::DoState`. -/
def DoState (env : Env) (j : IRJit) (p : PointerWrap) : IRJit × PointerWrap :=
  let s := (p.Section 1 2).1
  let p1 := (p.Section 1 2).2
  if s = 0 then (j, p1)
  else
    let d1 := p1.Do (if j.js.startDefaultPrefix then 1 else 0)
    let js1 := { j.js with startDefaultPrefix := decide (d1.1 ≠ 0) }
    let p2 := d1.2
    let d2 := p2.Do js1.hasSetRounding
    let js2 : JitState :=
      if 2 ≤ s then { js1 with hasSetRounding := d2.1 % 256, lastSetRounding := 0 }
      else { js1 with hasSetRounding := 1 }
    let p3 := if 2 ≤ s then d2.2 else p2
    let js3 : JitState :=
      if p3.GetMode = .MODE_READ then
        { js2 with currentRoundingFunc := env.convertS0ToSCRATCH1 (j.mips_.fcr31 &&& 3) }
      else js2
    ({ j with js := js3 }, p3)

/-- Source: `IRJit::FlushPrefixV`. -/
def FlushPrefixV (env : Env) (j : IRJit) : IRJit :=
  let j1 : IRJit :=
    if j.js.prefixSFlag &&& env.PREFIX_DIRTY ≠ 0 then
      { j with
        ir := (j.ir.AddConstant j.js.prefixS).2.Write IROp.SetCtrlVFPU
          env.VFPU_CTRL_SPREFIX (j.ir.AddConstant j.js.prefixS).1 0,
        js := { j.js with prefixSFlag := clearBits j.js.prefixSFlag env.PREFIX_DIRTY } }
    else j
  let j2 : IRJit :=
    if j1.js.prefixTFlag &&& env.PREFIX_DIRTY ≠ 0 then
      { j1 with
        ir := (j1.ir.AddConstant j1.js.prefixT).2.Write IROp.SetCtrlVFPU
          env.VFPU_CTRL_TPREFIX (j1.ir.AddConstant j1.js.prefixT).1 0,
        js := { j1.js with prefixTFlag := clearBits j1.js.prefixTFlag env.PREFIX_DIRTY } }
    else j1
  if j2.js.prefixDFlag &&& env.PREFIX_DIRTY ≠ 0 then
    { j2 with
      ir := (j2.ir.AddConstant j2.js.prefixD).2.Write IROp.SetCtrlVFPU
        env.VFPU_CTRL_DPREFIX (j2.ir.AddConstant j2.js.prefixD).1 0,
      js := { j2.js with prefixDFlag := clearBits j2.js.prefixDFlag env.PREFIX_DIRTY } }
  else j2

/-- Source: `IRJit::DoDummyState`, which writes or skips the same words as
`DoState` without touching the translator. -/
def DoDummyState (p : PointerWrap) : PointerWrap :=
  let s := (p.Section 1 2).1
  let p1 := (p.Section 1 2).2
  if s = 0 then p1
  else
    let p2 := (p1.Do 0).2
    if 2 ≤ s then (p2.Do 1).2 else p2

/-- Source: `IRJit::FlushAll`. -/
def FlushAll (env : Env) (j : IRJit) : IRJit :=
  FlushPrefixV env j

/-- Source: `IRJit::ClearCache` (logs, then `blocks_.Clear()`). -/
def ClearCache (j : IRJit) : IRJit :=
  { j with blocks_ := j.blocks_.Clear }

/-- Source: `IRJit::InvalidateCache`. -/
def InvalidateCache (j : IRJit) : IRJit :=
  { j with blocks_ := j.blocks_.Clear }

/-- Source: `IRJit::InvalidateCacheAt(u32 em_address, int length)`; the
`int` length is converted to the `u32` parameter of `InvalidateICache`. -/
def InvalidateCacheAt (j : IRJit) (em_address : Nat) (length : Int) : IRJit :=
  { j with blocks_ := j.blocks_.InvalidateICache em_address (length % 2 ^ 32).toNat }

/-- Source: `IRJit::EatInstruction` (the two reports only log).
`js.numInstructions` and `js.downcountAmount` are `int`: `++` and `+=` are
computed in 32 bits, two's complement; `js.compilerPC` is `u32`. -/
def EatInstruction (env : Env) (j : IRJit) (op : MIPSOpcode) : IRJit :=
  { j with js := { j.js with
      numInstructions := wrapInt (j.js.numInstructions + 1),
      compilerPC := (j.js.compilerPC + 4) % 2 ^ 32,
      downcountAmount :=
        wrapInt (j.js.downcountAmount + env.MIPSGetInstructionCycleEstimate op) } }

/-- Source: `IRJit::GetCompilerPC`. -/
def GetCompilerPC (j : IRJit) : Nat :=
  j.js.compilerPC

/-- Source: `IRJit::GetOffsetInstruction`; the address is computed in
`u32` arithmetic. -/
def GetOffsetInstruction (env : Env) (j : IRJit) (offset : Int) : MIPSOpcode :=
  env.Read_Instruction (((GetCompilerPC j : Int) + 4 * offset) % 2 ^ 32).toNat

/-- Source: `IRJit::CompileDelaySlot`. -/
def CompileDelaySlot (env : Env) (j : IRJit) : Except Halt IRJit :=
  let j1 : IRJit := { j with js := { j.js with inDelaySlot := true } }
  match env.MIPSCompileOp (GetOffsetInstruction env j1 1) j1 with
  | .error e => .error e
  | .ok j2 => .ok { j2 with js := { j2.js with inDelaySlot := false } }

/-- The assignments of `IRJit::DoJit` that precede its `while` loop. -/
def DoJitInit (env : Env) (j : IRJit) : IRJit :=
  let js1 : JitState := { j.js with
    cancel := false,
    blockStart := j.mips_.pc,
    compilerPC := j.mips_.pc,
    lastContinuedPC := 0,
    initialBlockSize := 0,
    nextExit := 0,
    downcountAmount := 0,
    curBlock := none,
    compiling := true,
    inDelaySlot := false }
  let js2 := js1.PrefixStart env
  { j with
    js := { js2 with numInstructions := 0 },
    ir := j.ir.Clear,
    gpr := env.gprStart j.gpr }

/-- One iteration of the `while (js.compiling)` loop of `IRJit::DoJit`. -/
def DoJitStep (env : Env) (j : IRJit) : Except Halt IRJit :=
  let inst := env.Read_Opcode_JIT (GetCompilerPC j)
  let j1 : IRJit := { j with js := { j.js with
    downcountAmount := j.js.downcountAmount + env.MIPSGetInstructionCycleEstimate inst } }
  match env.MIPSCompileOp inst j1 with
  | .error e => .error e
  | .ok j2 =>
    .ok { j2 with js := { j2.js with
      compilerPC := (j2.js.compilerPC + 4) % 2 ^ 32,
      numInstructions := j2.js.numInstructions + 1 } }

/-- The `while (js.compiling)` loop of `IRJit::DoJit`, with fuel. -/
def DoJitLoop (env : Env) : Nat → IRJit → Except Halt IRJit
  | 0, j => if j.js.compiling then .error .fuel else .ok j
  | fuel + 1, j =>
    if j.js.compiling then
      match DoJitStep env j with
      | .error e => .error e
      | .ok j1 => DoJitLoop env fuel j1
    else .ok j

/-- The first dump loop of `IRJit::DoJit`,
`for (u32 cpc = em_address; cpc != GetCompilerPC() + 4; cpc += 4)`, with
fuel. It only prints, so only whether it ends is kept. -/
def DoJitDumpLoop (stop : Nat) : Nat → Nat → Except Halt Unit
  | 0, cpc => if cpc = stop then .ok () else .error .fuel
  | fuel + 1, cpc =>
    if cpc = stop then .ok () else DoJitDumpLoop stop fuel ((cpc + 4) % 2 ^ 32)

/-- The part of `IRJit::DoJit` after the loop: seal the block through the
pointer `b`, dump when block logging is on, and count down the two log
counters. The second dump loop is bounded by `js.numInstructions` and only
prints. -/
def DoJitSeal (fuel : Nat) (em_address : Nat) (b : Nat) (j : IRJit) : Except Halt IRJit :=
  let j1 : IRJit := { j with
    blocks_ := j.blocks_.setInstructionsAt b j.ir.GetInstructions j.ir.GetConstants }
  let j2 : IRJit := { j1 with
    logBlocks := if 0 < j1.logBlocks then j1.logBlocks - 1 else j1.logBlocks,
    dontLogBlocks := if 0 < j1.dontLogBlocks then j1.dontLogBlocks - 1 else j1.dontLogBlocks }
  if 0 < j1.logBlocks ∧ j1.dontLogBlocks = 0 then
    match DoJitDumpLoop ((GetCompilerPC j1 + 4) % 2 ^ 32) fuel em_address with
    | .error e => .error e
    | .ok _ => .ok j2
  else .ok j2

/-- Source: `IRJit::DoJit(u32 em_address, IRBlock *b)`; `b` is the handle of
the block the pointer refers to. -/
def DoJit (env : Env) (fuel : Nat) (em_address : Nat) (b : Nat) (j : IRJit) :
    Except Halt IRJit :=
  match DoJitLoop env fuel (DoJitInit env j) with
  | .error e => .error e
  | .ok j1 => DoJitSeal fuel em_address b j1

/-- The two checks of `IRJit::Compile` that follow `DoJit`: the pair is
the state after them and the value of `cleanSlate`. -/
def CompileChecks (env : Env) (j : IRJit) : IRJit × Bool :=
  let cleanSlate := decide (j.js.hasSetRounding ≠ 0 ∧ j.js.lastSetRounding = 0)
  let j1 : IRJit :=
    if j.js.hasSetRounding ≠ 0 ∧ j.js.lastSetRounding = 0 then
      { j with js := { j.js with lastSetRounding := j.js.hasSetRounding } }
    else j
  let j2 : IRJit :=
    if j1.js.startDefaultPrefix ∧ j1.js.MayHavePrefix env then
      { j1 with js := { j1.js with startDefaultPrefix := false } }
    else j1
  (j2, cleanSlate)

/-- Source: `IRJit::Compile(u32 em_address)`. `depth` bounds how many
invocations may be nested (the call itself counts as one). -/
def Compile (env : Env) (fuel : Nat) : Nat → Nat → IRJit → Except Halt IRJit
  | 0, _, _ => .error .depth
  | depth + 1, em_address, j =>
    let block_num := (j.blocks_.AllocateBlock em_address).1
    let j0 : IRJit := { j with blocks_ := (j.blocks_.AllocateBlock em_address).2 }
    match DoJit env fuel em_address block_num j0 with
    | .error e => .error e
    | .ok j1 =>
      if (CompileChecks env j1).2 then
        Compile env fuel depth em_address (ClearCache (CompileChecks env j1).1)
      else .ok (CompileChecks env j1).1

/-- Source: `IRJit::Comp_RunBlock` (it only logs an error). -/
def Comp_RunBlock (j : IRJit) (_op : MIPSOpcode) : IRJit :=
  j

/-- Source: `IRJit::LinkBlock`. -/
def LinkBlock (j : IRJit) (_exitPoint _checkedEntry : Nat) : Except Halt IRJit :=
  Crash >>= fun _ => pure j

/-- Source: `IRJit::UnlinkBlock`. -/
def UnlinkBlock (j : IRJit) (_checkedEntry _originalAddress : Nat) : Except Halt IRJit :=
  Crash >>= fun _ => pure j

/-- Source: `IRJit::ReplaceJalTo`. -/
def ReplaceJalTo (j : IRJit) (_dest : Nat) : Except Halt (Bool × IRJit) :=
  Crash >>= fun _ => pure (false, j)

/-- Source: `IRJit::Comp_ReplacementFunc`. -/
def Comp_ReplacementFunc (j : IRJit) (_op : MIPSOpcode) : Except Halt IRJit :=
  Crash >>= fun _ => pure j

/-- Source: `IRJit::Comp_Generic`. -/
def Comp_Generic (env : Env) (j : IRJit) (op : MIPSOpcode) : IRJit :=
  let j1 : IRJit := { j with
    ir := (j.ir.AddConstant op.encoding).2.Write IROp.Interpret
      (j.ir.AddConstant op.encoding).1 0 0 }
  let info := env.MIPSGetInfo op
  if info &&& env.IS_VFPU ≠ 0 ∧ info &&& env.VFPU_NO_PREFIX = 0 then
    if info &&& env.OUT_EAT_PREFIX = 0 then
      { j1 with js := j1.js.PrefixUnknown env }
    else j1
  else j1

/-- Source: `IRJit::RestoreRoundingMode`. -/
def RestoreRoundingMode (j : IRJit) (force : Bool) : IRJit :=
  if force = true ∨ j.js.hasSetRounding ≠ 0 then
    { j with ir := j.ir.Write IROp.RestoreRoundingMode 0 0 0 }
  else j

/-- Source: `IRJit::ApplyRoundingMode`. -/
def ApplyRoundingMode (j : IRJit) (force : Bool) : IRJit :=
  if force = true ∨ j.js.hasSetRounding ≠ 0 then
    { j with ir := j.ir.Write IROp.ApplyRoundingMode 0 0 0 }
  else j

/-- Source: `IRJit::UpdateRoundingMode`. -/
def UpdateRoundingMode (j : IRJit) : IRJit :=
  { j with ir := j.ir.Write IROp.UpdateRoundingMode 0 0 0 }

/-- Source: `IRJit::Replace_fabsf`. -/
def Replace_fabsf (j : IRJit) : Except Halt (Int × IRJit) :=
  Crash >>= fun _ => pure (0, j)

/-! ## The passes made by `Compile` -/

/-- The translation pass of one invocation of `Compile`: allocate the
block, then `DoJit` into it. -/
def firstPass (env : Env) (fuel : Nat) (em_address : Nat) (j : IRJit) : Except Halt IRJit :=
  DoJit env fuel em_address (j.blocks_.AllocateBlock em_address).1
    { j with blocks_ := (j.blocks_.AllocateBlock em_address).2 }

/-- The pass of the recursive invocation: it starts from the state the
checks left, after `ClearCache`. -/
def retryPass (env : Env) (fuel : Nat) (em_address : Nat) (j1 : IRJit) : Except Halt IRJit :=
  firstPass env fuel em_address (ClearCache (CompileChecks env j1).1)

/-- Whether an invocation of `Compile` detects a rounding-mode transition
(`js.hasSetRounding && !js.lastSetRounding` after its pass). -/
def roundingTransition (env : Env) (fuel : Nat) (em_address : Nat) (j : IRJit) : Bool :=
  match firstPass env fuel em_address j with
  | .ok j1 => (CompileChecks env j1).2
  | .error _ => false

/-- Opcode rules leave the block cache alone. -/
def RulesKeepCache (env : Env) : Prop :=
  ∀ op s s1, env.MIPSCompileOp op s = .ok s1 → s1.blocks_ = s.blocks_

/-- Opcode rules do not write `js.lastSetRounding`. -/
def RulesKeepLastSetRounding (env : Env) : Prop :=
  ∀ op s s1, env.MIPSCompileOp op s = .ok s1 →
    s1.js.lastSetRounding = s.js.lastSetRounding

/-- Opcode rules do not reset a non-zero `js.lastSetRounding`. -/
def RulesNeverResetLastSetRounding (env : Env) : Prop :=
  ∀ op s s1, env.MIPSCompileOp op s = .ok s1 →
    s.js.lastSetRounding ≠ 0 → s1.js.lastSetRounding ≠ 0

end IRJit

/-! ## Concrete instances -/

/-- A compiler state with every field cleared. -/
def jsZero : JitState :=
  { startDefaultPrefix := false, hasSetRounding := 0, lastSetRounding := 0,
    currentRoundingFunc := 0, cancel := false, blockStart := 0, compilerPC := 0,
    lastContinuedPC := 0, initialBlockSize := 0, nextExit := 0, downcountAmount := 0,
    curBlock := none, compiling := false, inDelaySlot := false, numInstructions := 0,
    prefixS := 0, prefixT := 0, prefixD := 0,
    prefixSFlag := 0, prefixTFlag := 0, prefixDFlag := 0 }

/-- A translator with an empty cache and the CPU at `0x08000000`. -/
def jitEmpty : IRJit :=
  { js := jsZero, ir := ⟨[], []⟩, gpr := ⟨0⟩, blocks_ := ⟨[]⟩,
    mips_ := ⟨0x08000000, 0⟩, logBlocks := 0, dontLogBlocks := 0 }

/-- A block at `0x08000000` holding one `Interpret` of the word `0x03E00008`
(`jr ra`). -/
def blockAt8000000 : IRBlock :=
  ⟨0x08000000, [⟨IROp.Interpret, 0, 0, 0⟩], [0x03E00008]⟩

/-- A translator whose cache holds `blockAt8000000`, with both rounding
flags set. -/
def jitPopulated : IRJit :=
  { jitEmpty with
    js := { jsZero with hasSetRounding := 1, lastSetRounding := 1 },
    blocks_ := ⟨[blockAt8000000]⟩ }

/-- A translator whose cache holds `blockAt8000000`, with both rounding
flags clear. -/
def jitFresh : IRJit :=
  { jitEmpty with blocks_ := ⟨[blockAt8000000]⟩ }

/-- A translator asked about `0x08000000` while the CPU is at
`0x08000100`. -/
def jitElsewhere : IRJit :=
  { jitEmpty with mips_ := ⟨0x08000100, 0⟩ }

/-- A block-ending rule: emit one `Interpret` of the opcode and stop. -/
def ruleEnd (op : MIPSOpcode) (j : IRJit) : Except Halt IRJit :=
  .ok { j with
    ir := (j.ir.AddConstant op.encoding).2.Write IROp.Interpret
      (j.ir.AddConstant op.encoding).1 0 0,
    js := { j.js with compiling := false } }

/-- A block-ending rule for an opcode that sets the rounding mode: as
`ruleEnd`, and `js.hasSetRounding = 1`. -/
def ruleRounding (op : MIPSOpcode) (j : IRJit) : Except Halt IRJit :=
  .ok { j with
    ir := (j.ir.AddConstant op.encoding).2.Write IROp.Interpret
      (j.ir.AddConstant op.encoding).1 0 0,
    js := { j.js with compiling := false, hasSetRounding := 1 } }

/-- An environment whose memory holds, at every address, the address
itself as opcode word, and whose every opcode ends the block. -/
def envEnd : Env :=
  { Read_Opcode_JIT := fun a => ⟨a⟩,
    Read_Instruction := fun a => ⟨a⟩,
    MIPSGetInstructionCycleEstimate := fun _ => 1,
    MIPSGetInfo := fun _ => 0,
    MIPSCompileOp := ruleEnd,
    PrefixStart := fun _ r => r,
    PrefixUnknown := fun r => { r with prefixSFlag := 0, prefixTFlag := 0, prefixDFlag := 0 },
    MayHavePrefix := fun _ => false,
    gprStart := fun g => g,
    convertS0ToSCRATCH1 := fun i => i,
    PREFIX_DIRTY := 0x10,
    VFPU_CTRL_SPREFIX := 128,
    VFPU_CTRL_TPREFIX := 129,
    VFPU_CTRL_DPREFIX := 130,
    IS_VFPU := 0x80000000,
    VFPU_NO_PREFIX := 0x10000000,
    OUT_EAT_PREFIX := 0x00000100,
    DELAYSLOT := 0x00000010 }

/-- As `envEnd`, with every opcode setting the rounding mode. -/
def envRounding : Env :=
  { envEnd with MIPSCompileOp := ruleRounding }

/-- The state after `Compile(0x08000000)` on `jitEmpty` under `envEnd`. -/
def jitOnce : IRJit :=
  (IRJit.Compile envEnd 1 1 0x08000000 jitEmpty).toOption.getD jitEmpty

/-- The state after a second `Compile(0x08000000)`, run on `jitOnce`. -/
def jitTwice : IRJit :=
  (IRJit.Compile envEnd 1 1 0x08000000 jitOnce).toOption.getD jitEmpty

/-- The state after the first pass of `Compile(0x08000000)` on `jitFresh`
under `envRounding`. -/
def jitPassOne : IRJit :=
  (IRJit.firstPass envRounding 1 0x08000000 jitFresh).toOption.getD jitEmpty

/-- The state after the pass that follows the clear. -/
def jitPassTwo : IRJit :=
  (IRJit.retryPass envRounding 1 0x08000000 jitPassOne).toOption.getD jitEmpty

/-- The state after the pass of `Compile(0x08000000)` on `jitPopulated`
under `envRounding`. -/
def jitPassKept : IRJit :=
  (IRJit.firstPass envRounding 1 0x08000000 jitPopulated).toOption.getD jitEmpty

/-- The state after `Compile(0x08000000)` on `jitElsewhere` under
`envEnd`. -/
def jitElsewhereDone : IRJit :=
  (IRJit.Compile envEnd 1 1 0x08000000 jitElsewhere).toOption.getD jitEmpty

namespace IRJit

/-- Opcode rules set `js.inDelaySlot` only through `CompileDelaySlot`, which
clears it before it returns: a rule entered with the flag clear returns with
the flag clear. -/
def RulesLeaveDelaySlotClear (env : Env) : Prop :=
  ∀ op s s1, env.MIPSCompileOp op s = .ok s1 →
    s.js.inDelaySlot = false → s1.js.inDelaySlot = false

end IRJit

/-- A block-ending rule for an opcode that sets the S prefix: it records the
value `0x1B`, marks the S flag known and dirty (`0x11`) and stops, without
flushing. -/
def ruleDirty (_op : MIPSOpcode) (j : IRJit) : Except Halt IRJit :=
  .ok { j with js := { j.js with prefixS := 0x1B, prefixSFlag := 0x11, compiling := false } }

/-- As `envEnd`, with every opcode behaving as `ruleDirty`. -/
def envDirty : Env :=
  { envEnd with MIPSCompileOp := ruleDirty }

/-- The state after `DoJit` sealed block 0 of a one-slot cache under
`envDirty`. -/
def jitDirtySealed : IRJit :=
  (IRJit.firstPass envDirty 1 0x08000000 jitEmpty).toOption.getD jitEmpty

/-- A translator in mid-block: one instruction and the constant `0xE4` are
in the IR buffer; the S and D flags are known and dirty (`0x11`), the T flag
is known and clean (`0x01`). -/
def jitDirty : IRJit :=
  { jitEmpty with
    js := { jsZero with
      prefixS := 0xE4, prefixT := 0x1B, prefixD := 0,
      prefixSFlag := 0x11, prefixTFlag := 0x01, prefixDFlag := 0x11 },
    ir := ⟨[⟨IROp.Interpret, 0, 0, 0⟩], [0xE4]⟩ }

/-- As `envEnd`, with `js.MayHavePrefix()` always true. -/
def envMayHave : Env :=
  { envEnd with MayHavePrefix := fun _ => true }

/-- As `jitPopulated`, with `js.startDefaultPrefix` set and the CPU at
`0x08000100`. -/
def jitDefaultPrefix : IRJit :=
  { jitPopulated with
    js := { jitPopulated.js with startDefaultPrefix := true },
    mips_ := ⟨0x08000100, 0⟩ }

/-- The state after `Compile(0x08000100)` on `jitDefaultPrefix` under
`envMayHave`. -/
def jitDefaultPrefixDone : IRJit :=
  (IRJit.Compile envMayHave 1 1 0x08000100 jitDefaultPrefix).toOption.getD jitEmpty

namespace IRJit

/-- The first `if` block of `FlushPrefixV` (S prefix). -/
def FlushPrefixV_S (env : Env) (j : IRJit) : IRJit :=
  if j.js.prefixSFlag &&& env.PREFIX_DIRTY ≠ 0 then
    { j with
      ir := (j.ir.AddConstant j.js.prefixS).2.Write IROp.SetCtrlVFPU
        env.VFPU_CTRL_SPREFIX (j.ir.AddConstant j.js.prefixS).1 0,
      js := { j.js with prefixSFlag := clearBits j.js.prefixSFlag env.PREFIX_DIRTY } }
  else j

/-- The second `if` block of `FlushPrefixV` (T prefix). -/
def FlushPrefixV_T (env : Env) (j : IRJit) : IRJit :=
  if j.js.prefixTFlag &&& env.PREFIX_DIRTY ≠ 0 then
    { j with
      ir := (j.ir.AddConstant j.js.prefixT).2.Write IROp.SetCtrlVFPU
        env.VFPU_CTRL_TPREFIX (j.ir.AddConstant j.js.prefixT).1 0,
      js := { j.js with prefixTFlag := clearBits j.js.prefixTFlag env.PREFIX_DIRTY } }
  else j

/-- The third `if` block of `FlushPrefixV` (D prefix). -/
def FlushPrefixV_D (env : Env) (j : IRJit) : IRJit :=
  if j.js.prefixDFlag &&& env.PREFIX_DIRTY ≠ 0 then
    { j with
      ir := (j.ir.AddConstant j.js.prefixD).2.Write IROp.SetCtrlVFPU
        env.VFPU_CTRL_DPREFIX (j.ir.AddConstant j.js.prefixD).1 0,
      js := { j.js with prefixDFlag := clearBits j.js.prefixDFlag env.PREFIX_DIRTY } }
  else j

end IRJit

namespace IRJit

end IRJit

/-- As `envEnd`, with the `DELAYSLOT` info bit set for every opcode: every
opcode is a branch. -/
def envBranch : Env :=
  { envEnd with MIPSGetInfo := fun _ => 0x00000010 }

/-- As `jitEmpty`, inside a delay slot, with 5 instructions counted so far,
a downcount of 7 and the translation position at `0x08000014`. -/
def jitInDelaySlot : IRJit :=
  { jitEmpty with
    js := { jsZero with
      inDelaySlot := true, compiling := true, numInstructions := 5, downcountAmount := 7,
      compilerPC := 0x08000014 } }

/-- As `jitEmpty`, with `js.numInstructions` at `INT_MAX`. -/
def jitCounterMax : IRJit :=
  { jitEmpty with js := { jsZero with numInstructions := 2147483647 } }

end MIPSComp

/-!
# Message pipes: a shallow embedding of `Core/HLE/sceKernelMsgPipe.cpp`

* 32-bit fields (`u32`, `s32_le`) are kept as their bit patterns, natural
  numbers below `2 ^ 32`; arithmetic on them is reduced `% 2 ^ 32`, and a
  signed comparison reads the pattern through `s32`.
* Guest memory, the wait state of the threads, the timer events and the
  kernel-object table live outside this file of the repository; the record
  `KernelState` holds what the pipe code reads and writes of them.
* Functions that index a vector or loop return `Except Fault _`:
  `outOfRange` is an access outside the vector, `fuel` a loop or recursion
  that ran longer than the fuel given.
-/

namespace HLE

/-! ## Constants of the file -/

/-- Source: `#define SCE_KERNEL_MPA_THFIFO_S 0x0000`. -/
def SCE_KERNEL_MPA_THFIFO_S : Nat := 0x0000

/-- Source: `#define SCE_KERNEL_MPA_THPRI_S 0x0100`. -/
def SCE_KERNEL_MPA_THPRI_S : Nat := 0x0100

/-- Source: `#define SCE_KERNEL_MPA_THFIFO_R 0x0000`. -/
def SCE_KERNEL_MPA_THFIFO_R : Nat := 0x0000

/-- Source: `#define SCE_KERNEL_MPA_THPRI_R 0x1000`. -/
def SCE_KERNEL_MPA_THPRI_R : Nat := 0x1000

/-- Source: `#define SCE_KERNEL_MPA_HIGHMEM 0x4000`. -/
def SCE_KERNEL_MPA_HIGHMEM : Nat := 0x4000

/-- Source: `#define SCE_KERNEL_MPA_KNOWN (... | ... | ...)`. -/
def SCE_KERNEL_MPA_KNOWN : Nat :=
  SCE_KERNEL_MPA_THPRI_S ||| SCE_KERNEL_MPA_THPRI_R ||| SCE_KERNEL_MPA_HIGHMEM

/-- Source: `#define SCE_KERNEL_MPW_FULL 0`. -/
def SCE_KERNEL_MPW_FULL : Nat := 0

/-- Source: `#define SCE_KERNEL_MPW_ASAP 1`. -/
def SCE_KERNEL_MPW_ASAP : Nat := 1

/-- The value `(u32)-1`. -/
def U32_MINUS_ONE : Nat := 0xFFFFFFFF

/-- The signed reading of a 32-bit pattern. -/
def s32 (x : Nat) : Int :=
  if x < 2 ^ 31 then (x : Int) else (x : Int) - 2 ^ 32

/-! ## Data model -/

/-- Source: `struct NativeMsgPipe`. -/
structure NativeMsgPipe where
  size : Nat
  name : String
  attr : Nat
  bufSize : Nat
  freeSize : Nat
  numSendWaitThreads : Nat
  numReceiveWaitThreads : Nat
deriving DecidableEq, Repr

/-- Source: `struct MsgPipeWaitingThread`; `transferredBytes` is the guest
address behind the `PSPPointer`. -/
structure MsgPipeWaitingThread where
  id : Nat
  bufAddr : Nat
  bufSize : Nat
  freeSize : Nat
  waitMode : Nat
  transferredBytes : Nat
deriving DecidableEq, Repr

/-- Source: `struct MsgPipe`; `uid` is what `GetUID()` returns. -/
structure MsgPipe where
  uid : Nat
  nmp : NativeMsgPipe
  sendWaitingThreads : List MsgPipeWaitingThread
  receiveWaitingThreads : List MsgPipeWaitingThread
  buffer : Nat
deriving DecidableEq, Repr

/-- Ways a modelled call fails to return a result. -/
inductive Fault where
  | outOfRange
  | fuel
deriving DecidableEq, Repr

/-- What the pipe code reads and writes outside its own objects: guest
memory as bytes, for every thread the id it waits on with
`WAITTYPE_MSGPIPE` (`0` when it does not wait), its wait timeout pointer and
the result it was resumed with, the current thread, the return register set
by `RETURN`, the file-level `waitTimer`, the timer events scheduled (cycles
and thread), whether a reschedule was requested, the blocks allocated from
`userMemory` (address and size) and the ids handed out by `kernelObjects`. -/
structure KernelState where
  mem : Nat → Nat
  waitID : Nat → Nat
  waitTimeoutPtr : Nat → Nat
  waitResult : Nat → Nat
  curThread : Nat
  v0 : Nat
  waitTimer : Int
  scheduled : List (Nat × Nat)
  rescheduled : Bool
  userBlocks : List (Nat × Nat)
  objects : List Nat

/-- Collaborators and constants declared outside `sceKernelMsgPipe.cpp`:
address validity, the thread priority order, the clock conversions, the
allocator of `userMemory` (it returns `(u32)-1` when it fails), the id
`kernelObjects.Create` hands out, and the error codes. -/
structure HleEnv where
  IsValidAddress : Nat → Bool
  KernelThreadSortPriority : Nat → Nat → Bool
  usToCycles : Nat → Nat
  unscheduledUs : Nat → Nat
  userMemoryAlloc : List (Nat × Nat) → Nat → Bool → Nat
  kernelObjectsCreate : List Nat → Nat
  KERNELOBJECT_MAX_NAME_LENGTH : Nat
  SCE_KERNEL_ERROR_NO_MEMORY : Nat
  SCE_KERNEL_ERROR_ILLEGAL_ARGUMENT : Nat
  SCE_KERNEL_ERROR_ILLEGAL_PERM : Nat
  SCE_KERNEL_ERROR_ILLEGAL_ATTR : Nat
  SCE_KERNEL_ERROR_ILLEGAL_ADDR : Nat
  SCE_KERNEL_ERROR_ILLEGAL_SIZE : Nat
  SCE_KERNEL_ERROR_MPP_FULL : Nat
  SCE_KERNEL_ERROR_MPP_EMPTY : Nat
  SCE_KERNEL_ERROR_WAIT_TIMEOUT : Nat
  SCE_KERNEL_ERROR_WAIT_CANCEL : Nat

/-! ## Guest memory and threads -/

/-- Modelled from the spec: `Memory::Read_U32` (Core/MemMap, not in the
sources; the spec names guest memory as an external read/write primitive).
Four bytes, little endian. -/
def Read_U32 (mem : Nat → Nat) (a : Nat) : Nat :=
  mem a % 256 + 256 * (mem (a + 1) % 256) + 65536 * (mem (a + 2) % 256)
    + 16777216 * (mem (a + 3) % 256)

/-- Modelled from the spec: `Memory::Write_U32` (not in the sources). Four
bytes, little endian. -/
def Write_U32 (mem : Nat → Nat) (v a : Nat) : Nat → Nat :=
  fun x =>
    if x = a then v % 256
    else if x = a + 1 then v / 256 % 256
    else if x = a + 2 then v / 65536 % 256
    else if x = a + 3 then v / 16777216 % 256
    else mem x

/-- Modelled from the spec: `Memory::Memcpy` and `memmove` between guest
addresses (not in the sources): `len` bytes at `dst` become the bytes that
were at `src`. -/
def Memcpy (mem : Nat → Nat) (dst src len : Nat) : Nat → Nat :=
  fun x => if dst ≤ x ∧ x < dst + len then mem (src + (x - dst)) else mem x

/-- Modelled from the spec: `__KernelGetWaitID(id, WAITTYPE_MSGPIPE, error)`
(sceKernelThread, not in the sources; the spec names wait queues as an
external collaborator): the id the thread waits on. -/
def KernelGetWaitID (k : KernelState) (id : Nat) : Nat :=
  k.waitID id

/-- Modelled from the spec: `__KernelGetWaitTimeoutPtr` (not in the
sources). -/
def KernelGetWaitTimeoutPtr (k : KernelState) (id : Nat) : Nat :=
  k.waitTimeoutPtr id

/-- Modelled from the spec: `__KernelResumeThreadFromWait(id, result)` (not
in the sources): the thread stops waiting and is given `result`. -/
def KernelResumeThreadFromWait (k : KernelState) (id result : Nat) : KernelState :=
  { k with
    waitID := fun t => if t = id then 0 else k.waitID t,
    waitResult := fun t => if t = id then result else k.waitResult t }

/-- Modelled from the spec: `__KernelWaitCurThread(WAITTYPE_MSGPIPE, uid, 0,
timeoutPtr, ...)` (not in the sources): the current thread starts waiting on
`uid`. -/
def KernelWaitCurThread (k : KernelState) (uid timeoutPtr : Nat) : KernelState :=
  { k with
    waitID := fun t => if t = k.curThread then uid else k.waitID t,
    waitTimeoutPtr := fun t => if t = k.curThread then timeoutPtr else k.waitTimeoutPtr t }

/-- Modelled from the spec: `__KernelGetCurThread` (not in the sources). -/
def KernelGetCurThread (k : KernelState) : Nat :=
  k.curThread

/-- Modelled from the spec: `hleReSchedule` (not in the sources): a
reschedule is requested. -/
def hleReSchedule (k : KernelState) : KernelState :=
  { k with rescheduled := true }

/-- The macro `RETURN(x)`: the return register of the call. -/
def RETURN (k : KernelState) (x : Nat) : KernelState :=
  { k with v0 := x }

namespace MsgPipeWaitingThread

/-- Source: `MsgPipeWaitingThread::IsStillWaiting`. -/
def IsStillWaiting (k : KernelState) (t : MsgPipeWaitingThread) (waitID : Nat) : Bool :=
  KernelGetWaitID k t.id == waitID

/-- Source: `MsgPipeWaitingThread::WriteCurrentTimeout`; unscheduling
removes the events of the thread and yields the time left. -/
def WriteCurrentTimeout (env : HleEnv) (k : KernelState) (t : MsgPipeWaitingThread)
    (waitID : Nat) : KernelState :=
  if IsStillWaiting k t waitID then
    if KernelGetWaitTimeoutPtr k t.id ≠ 0 ∧ k.waitTimer ≠ -1 then
      { k with
        scheduled := k.scheduled.filter (fun e => e.2 != t.id),
        mem := Write_U32 k.mem (env.unscheduledUs t.id % 2 ^ 32)
          (KernelGetWaitTimeoutPtr k t.id) }
    else k
  else k

/-- Source: `MsgPipeWaitingThread::Complete(waitID, result, transferred)`;
the default of `transferred` is `(u32)-1`. -/
def Complete (env : HleEnv) (k : KernelState) (t : MsgPipeWaitingThread)
    (waitID result transferred : Nat) : KernelState :=
  if IsStillWaiting k t waitID then
    let k1 := WriteCurrentTimeout env k t waitID
    let k2 : KernelState :=
      if transferred ≠ U32_MINUS_ONE ∧ env.IsValidAddress t.transferredBytes then
        { k1 with mem := Write_U32 k1.mem transferred t.transferredBytes }
      else k1
    KernelResumeThreadFromWait k2 t.id result
  else k

/-- Source: `MsgPipeWaitingThread::Cancel`. -/
def Cancel (env : HleEnv) (k : KernelState) (t : MsgPipeWaitingThread)
    (waitID result : Nat) : KernelState :=
  Complete env k t waitID result 0

/-- Source: `MsgPipeWaitingThread::ReadBuffer(dest, len)`; `dest` is the
guest address the pointer refers to. -/
def ReadBuffer (env : HleEnv) (k : KernelState) (t : MsgPipeWaitingThread)
    (dest len : Nat) : KernelState :=
  let mem1 := Memcpy k.mem dest t.bufAddr len
  if env.IsValidAddress t.transferredBytes then
    { k with
      mem := Write_U32 mem1
        ((Read_U32 mem1 t.transferredBytes + len) % 2 ^ 32) t.transferredBytes }
  else { k with mem := mem1 }

/-- Source: `MsgPipeWaitingThread::WriteBuffer(src, len)`; `src` is the guest
address the pointer refers to. Returns the thread entry, whose `freeSize`
changes, and the state. -/
def WriteBuffer (env : HleEnv) (k : KernelState) (t : MsgPipeWaitingThread)
    (src len : Nat) : MsgPipeWaitingThread × KernelState :=
  let mem1 := Memcpy k.mem
    ((t.bufAddr + (t.bufSize + 2 ^ 32 - t.freeSize) % 2 ^ 32) % 2 ^ 32) src len
  let t1 : MsgPipeWaitingThread := { t with freeSize := (t.freeSize + 2 ^ 32 - len) % 2 ^ 32 }
  if env.IsValidAddress t.transferredBytes then
    (t1, { k with
      mem := Write_U32 mem1
        ((Read_U32 mem1 t.transferredBytes + len) % 2 ^ 32) t.transferredBytes })
  else (t1, { k with mem := mem1 })

end MsgPipeWaitingThread

namespace MsgPipe

/-! ## Member functions of `MsgPipe` -/

/-- Source: `MsgPipe::GetUsedSize`, `(u32)(nmp.bufSize - nmp.freeSize)`. -/
def GetUsedSize (m : MsgPipe) : Nat :=
  (m.nmp.bufSize + 2 ^ 32 - m.nmp.freeSize) % 2 ^ 32

/-- Source: `MsgPipe::AddWaitingThread`: returns the list with the new entry
pushed at the back and the state. -/
def AddWaitingThread (env : HleEnv) (k : KernelState) (list : List MsgPipeWaitingThread)
    (id addr size waitMode transferredBytesAddr : Nat) :
    List MsgPipeWaitingThread × KernelState :=
  let thread : MsgPipeWaitingThread := ⟨id, addr, size, size, waitMode, transferredBytesAddr⟩
  let k1 : KernelState :=
    if env.IsValidAddress thread.transferredBytes then
      { k with mem := Write_U32 k.mem 0 thread.transferredBytes }
    else k
  (list ++ [thread], k1)

/-- Source: `MsgPipe::AddSendWaitingThread`. -/
def AddSendWaitingThread (env : HleEnv) (k : KernelState) (m : MsgPipe)
    (id addr size waitMode transferredBytesAddr : Nat) : KernelState × MsgPipe :=
  let r := AddWaitingThread env k m.sendWaitingThreads id addr size waitMode
    transferredBytesAddr
  (r.2, { m with sendWaitingThreads := r.1 })

/-- Source: `MsgPipe::AddReceiveWaitingThread`. -/
def AddReceiveWaitingThread (env : HleEnv) (k : KernelState) (m : MsgPipe)
    (id addr size waitMode transferredBytesAddr : Nat) : KernelState × MsgPipe :=
  let r := AddWaitingThread env k m.receiveWaitingThreads id addr size waitMode
    transferredBytesAddr
  (r.2, { m with receiveWaitingThreads := r.1 })

/-- The cleanup loop shared by `SortReceiveThreads` and `SortSendThreads`,
`for (size_t i = 0; i < size; ++i)`, with fuel. `size_t` is taken as 64
bits wide: `--size`, `--i` and `++i` are computed modulo `2 ^ 64`. Every
`v[..]` is checked: an index outside the vector is the fault `outOfRange`.
Returns the vector and the final `size`. -/
def CleanupLoop (waiting : MsgPipeWaitingThread → Bool) :
    Nat → List MsgPipeWaitingThread → Nat → Nat →
      Except Fault (List MsgPipeWaitingThread × Nat)
  | 0, v, i, size => if i < size then .error .fuel else .ok (v, size)
  | fuel + 1, v, i, size =>
    if i < size then
      match v.get? i with
      | none => .error .outOfRange
      | some x =>
        if waiting x then CleanupLoop waiting fuel v ((i + 1) % 2 ^ 64) size
        else
          match v.get? ((size + 2 ^ 64 - 1) % 2 ^ 64) with
          | none => .error .outOfRange
          | some y =>
            CleanupLoop waiting fuel
              ((v.set i y).set ((size + 2 ^ 64 - 1) % 2 ^ 64) x)
              (((i + 2 ^ 64 - 1) % 2 ^ 64 + 1) % 2 ^ 64)
              ((size + 2 ^ 64 - 1) % 2 ^ 64)
    else .ok (v, size)

/-- The body shared by `SortReceiveThreads` and `SortSendThreads`: the
cleanup loop, `resize(size)`, and `std::stable_sort` by thread priority when
`usePrio`. A stable sort by the strict order `comp` is the merge sort by
`not (comp b a)`. -/
def SortThreads (env : HleEnv) (k : KernelState) (uid : Nat) (usePrio : Bool)
    (v : List MsgPipeWaitingThread) : Except Fault (List MsgPipeWaitingThread) :=
  match CleanupLoop (fun t => t.IsStillWaiting k uid) v.length v 0 v.length with
  | .error e => .error e
  | .ok r =>
    let v1 := r.1.take r.2
    .ok (if usePrio then
        v1.mergeSort (fun a b => !(env.KernelThreadSortPriority b.id a.id))
      else v1)

/-- Source: `MsgPipe::SortReceiveThreads`. -/
def SortReceiveThreads (env : HleEnv) (k : KernelState) (m : MsgPipe) : Except Fault MsgPipe :=
  match SortThreads env k m.uid (decide (m.nmp.attr &&& SCE_KERNEL_MPA_THPRI_R ≠ 0))
      m.receiveWaitingThreads with
  | .error e => .error e
  | .ok v => .ok { m with receiveWaitingThreads := v }

/-- Source: `MsgPipe::SortSendThreads`. -/
def SortSendThreads (env : HleEnv) (k : KernelState) (m : MsgPipe) : Except Fault MsgPipe :=
  match SortThreads env k m.uid (decide (m.nmp.attr &&& SCE_KERNEL_MPA_THPRI_S ≠ 0))
      m.sendWaitingThreads with
  | .error e => .error e
  | .ok v => .ok { m with sendWaitingThreads := v }

/-- The `while` loop of `MsgPipe::CheckSendThreads`, by recursion on the
send list (an iteration erases the front entry or breaks). The loop does not
write `nmp`. Returns `filledSpace`, the remaining list and the state. -/
def CheckSendLoop (env : HleEnv) (m : MsgPipe) :
    List MsgPipeWaitingThread → KernelState → Bool × List MsgPipeWaitingThread × KernelState
  | [], k => (false, [], k)
  | thread :: rest, k =>
    if 0 < s32 m.nmp.freeSize then
      let bytesToSend : Nat :=
        if thread.bufSize ≤ m.nmp.freeSize then thread.bufSize
        else if thread.waitMode = SCE_KERNEL_MPW_ASAP ∧ m.nmp.freeSize ≠ 0 then m.nmp.freeSize
        else 0
      if bytesToSend ≠ 0 then
        let k1 := thread.ReadBuffer env k ((m.buffer + GetUsedSize m) % 2 ^ 32) bytesToSend
        let k2 := thread.Complete env k1 m.uid 0 U32_MINUS_ONE
        (true, (CheckSendLoop env m rest k2).2)
      else (false, thread :: rest, k)
    else (false, thread :: rest, k)

/-- The `while` loop of `MsgPipe::CheckReceiveThreads`, by recursion on the
receive list; `freeSize` is `nmp.freeSize`, which the loop updates. Returns
`freedSpace`, `wokeThreads`, the remaining list, `nmp.freeSize` and the
state. -/
def CheckReceiveLoop (env : HleEnv) (m : MsgPipe) :
    List MsgPipeWaitingThread → Nat → KernelState →
      Bool × Bool × List MsgPipeWaitingThread × Nat × KernelState
  | [], freeSize, k => (false, false, [], freeSize, k)
  | thread :: rest, freeSize, k =>
    if 0 < (m.nmp.bufSize + 2 ^ 32 - freeSize) % 2 ^ 32 then
      let bytesToSend := min thread.freeSize ((m.nmp.bufSize + 2 ^ 32 - freeSize) % 2 ^ 32)
      let w := thread.WriteBuffer env k m.buffer bytesToSend
      let freeSize1 := (freeSize + bytesToSend) % 2 ^ 32
      let k2 : KernelState := { w.2 with
        mem := Memcpy w.2.mem m.buffer (m.buffer + bytesToSend)
          ((m.nmp.bufSize + 2 ^ 32 - freeSize1) % 2 ^ 32) }
      if w.1.waitMode = SCE_KERNEL_MPW_ASAP ∨ w.1.freeSize = 0 then
        let k3 := w.1.Complete env k2 m.uid 0 w.1.bufSize
        (true, true, (CheckReceiveLoop env m rest freeSize1 k3).2.2)
      else (true, false, w.1 :: rest, freeSize1, k2)
    else (false, false, thread :: rest, freeSize, k)

mutual

/-- Source: `MsgPipe::CheckSendThreads`; the fuel bounds the calls between
it and `CheckReceiveThreads`. Returns `wokeThreads`, the state and the
pipe. -/
def CheckSendThreads (env : HleEnv) :
    Nat → KernelState → MsgPipe → Except Fault (Bool × KernelState × MsgPipe)
  | fuel, k, m =>
    match SortSendThreads env k m with
    | .error e => .error e
    | .ok m1 =>
      if (CheckSendLoop env m1 m1.sendWaitingThreads k).1 then
        match fuel with
        | 0 => .error .fuel
        | f + 1 =>
          match CheckReceiveThreads env f (CheckSendLoop env m1 m1.sendWaitingThreads k).2.2
              { m1 with
                sendWaitingThreads := (CheckSendLoop env m1 m1.sendWaitingThreads k).2.1 } with
          | .error e => .error e
          | .ok r => .ok (true, r.2)
      else
        .ok (false, (CheckSendLoop env m1 m1.sendWaitingThreads k).2.2,
          { m1 with sendWaitingThreads := (CheckSendLoop env m1 m1.sendWaitingThreads k).2.1 })

/-- Source: `MsgPipe::CheckReceiveThreads`. -/
def CheckReceiveThreads (env : HleEnv) :
    Nat → KernelState → MsgPipe → Except Fault (Bool × KernelState × MsgPipe)
  | fuel, k, m =>
    match SortReceiveThreads env k m with
    | .error e => .error e
    | .ok m1 =>
      if (CheckReceiveLoop env m1 m1.receiveWaitingThreads m1.nmp.freeSize k).1 then
        match fuel with
        | 0 => .error .fuel
        | f + 1 =>
          match CheckSendThreads env f
              (CheckReceiveLoop env m1 m1.receiveWaitingThreads m1.nmp.freeSize k).2.2.2.2
              { m1 with
                receiveWaitingThreads :=
                  (CheckReceiveLoop env m1 m1.receiveWaitingThreads m1.nmp.freeSize k).2.2.1,
                nmp := { m1.nmp with
                  freeSize :=
                    (CheckReceiveLoop env m1 m1.receiveWaitingThreads
                      m1.nmp.freeSize k).2.2.2.1 } } with
          | .error e => .error e
          | .ok r =>
            .ok ((CheckReceiveLoop env m1 m1.receiveWaitingThreads m1.nmp.freeSize k).2.1
              || r.1, r.2)
      else .ok (false, k, m1)

end

end MsgPipe

/-! ## The system calls -/

/-- Source: `__KernelSetMsgPipeTimeout`. Returns its result and the state
(an event may be scheduled). -/
def __KernelSetMsgPipeTimeout (env : HleEnv) (k : KernelState) (timeoutPtr : Nat) :
    Bool × KernelState :=
  if timeoutPtr = 0 ∨ k.waitTimer = -1 then (true, k)
  else if s32 (Read_U32 k.mem timeoutPtr) ≤ 2 then (false, k)
  else
    let micro : Nat :=
      if s32 (Read_U32 k.mem timeoutPtr) ≤ 210 then 250 else Read_U32 k.mem timeoutPtr
    (true, { k with
      scheduled := k.scheduled ++ [(env.usToCycles micro, KernelGetCurThread k)] })

/-- Source: `sceKernelCreateMsgPipe`; `name` is `none` for a null pointer.
Returns the result, the state and the pipe created, if any.
`sizeof(NativeMsgPipe)` is 56 (seven 4-byte fields and `char name[32]`). -/
def sceKernelCreateMsgPipe (env : HleEnv) (k : KernelState) (name : Option String)
    (partition : Int) (attr size _optionsPtr : Nat) : Nat × KernelState × Option MsgPipe :=
  match name with
  | none => (env.SCE_KERNEL_ERROR_NO_MEMORY, k, none)
  | some nm =>
    if partition < 1 ∨ partition > 9 ∨ partition = 7 then
      (env.SCE_KERNEL_ERROR_ILLEGAL_ARGUMENT, k, none)
    else if partition ≠ 2 ∧ partition ≠ 6 then
      (env.SCE_KERNEL_ERROR_ILLEGAL_PERM, k, none)
    else if 0x100 ≤ attr &&& (0xFFFFFFFF ^^^ SCE_KERNEL_MPA_KNOWN) then
      (env.SCE_KERNEL_ERROR_ILLEGAL_ATTR, k, none)
    else
      let memBlockPtr : Nat :=
        if size ≠ 0 then
          env.userMemoryAlloc k.userBlocks size (decide (attr &&& SCE_KERNEL_MPA_HIGHMEM ≠ 0))
        else 0
      if size ≠ 0 ∧ memBlockPtr = U32_MINUS_ONE then
        (env.SCE_KERNEL_ERROR_NO_MEMORY, k, none)
      else
        let id := env.kernelObjectsCreate k.objects
        let k1 : KernelState := { k with
          userBlocks := if size ≠ 0 then k.userBlocks ++ [(memBlockPtr, size)] else k.userBlocks,
          objects := k.objects ++ [id] }
        (id, k1, some
          { uid := id,
            nmp :=
              { size := 56,
                name := nm.take env.KERNELOBJECT_MAX_NAME_LENGTH,
                attr := attr,
                bufSize := size,
                freeSize := size,
                numSendWaitThreads := 0,
                numReceiveWaitThreads := 0 },
            sendWaitingThreads := [],
            receiveWaitingThreads := [],
            buffer := memBlockPtr })

/-- The `while` loop of `__KernelSendMsgPipe` for a pipe without buffer,
with fuel (an iteration that sends nothing repeats). Returns the receive
list, `sendSize`, `curSendAddr` and the state. -/
def SendDirectLoop (env : HleEnv) (uid : Nat) :
    Nat → List MsgPipeWaitingThread → Nat → Nat → KernelState →
      Except Fault (List MsgPipeWaitingThread × Nat × Nat × KernelState)
  | _, [], sendSize, curSendAddr, k => .ok ([], sendSize, curSendAddr, k)
  | 0, thread :: rest, sendSize, curSendAddr, k =>
    if sendSize ≠ 0 then .error .fuel else .ok (thread :: rest, sendSize, curSendAddr, k)
  | fuel + 1, thread :: rest, sendSize, curSendAddr, k =>
    if sendSize ≠ 0 then
      if 0 < min thread.freeSize sendSize then
        let w := thread.WriteBuffer env k curSendAddr (min thread.freeSize sendSize)
        let sendSize1 := (sendSize + 2 ^ 32 - min thread.freeSize sendSize) % 2 ^ 32
        let curSendAddr1 := (curSendAddr + min thread.freeSize sendSize) % 2 ^ 32
        if w.1.freeSize = 0 ∨ w.1.waitMode = SCE_KERNEL_MPW_ASAP then
          SendDirectLoop env uid fuel rest sendSize1 curSendAddr1
            (hleReSchedule (w.1.Complete env w.2 uid 0 U32_MINUS_ONE))
        else SendDirectLoop env uid fuel (w.1 :: rest) sendSize1 curSendAddr1 w.2
      else SendDirectLoop env uid fuel (thread :: rest) sendSize curSendAddr k
    else .ok (thread :: rest, sendSize, curSendAddr, k)

/-- The part of `__KernelSendMsgPipe` that queues the caller: the two
identical `else` blocks after `if (poll)`. -/
def SendWait (env : HleEnv) (k : KernelState) (m : MsgPipe)
    (curSendAddr sendSize waitMode resultAddr timeoutPtr : Nat) : Nat × KernelState × MsgPipe :=
  let a := m.AddSendWaitingThread env k (KernelGetCurThread k) curSendAddr sendSize waitMode
    resultAddr
  let t := __KernelSetMsgPipeTimeout env a.1 timeoutPtr
  if t.1 then (0, KernelWaitCurThread t.2 m.uid timeoutPtr, a.2)
  else (env.SCE_KERNEL_ERROR_WAIT_TIMEOUT, t.2, a.2)

/-- The end of `__KernelSendMsgPipe`: the caller did not wait, the number of
bytes transferred is written to `resultAddr`. -/
def SendFinish (env : HleEnv) (k : KernelState) (m : MsgPipe)
    (curSendAddr sendBufAddr resultAddr : Nat) : Nat × KernelState × MsgPipe :=
  if env.IsValidAddress resultAddr then
    (0, { k with
      mem := Write_U32 k.mem ((curSendAddr + 2 ^ 32 - sendBufAddr) % 2 ^ 32) resultAddr }, m)
  else (0, k, m)

/-- Source: `__KernelSendMsgPipe`. Returns the result, the state and the
pipe. -/
def __KernelSendMsgPipe (env : HleEnv) (fuel : Nat) (k : KernelState) (m : MsgPipe)
    (sendBufAddr sendSize waitMode resultAddr timeoutPtr : Nat) (_cbEnabled poll : Bool) :
    Except Fault (Nat × KernelState × MsgPipe) :=
  if sendSize &&& 0x80000000 ≠ 0 then .ok (env.SCE_KERNEL_ERROR_ILLEGAL_ADDR, k, m)
  else if m.nmp.bufSize = 0 then
    match m.SortReceiveThreads env k with
    | .error e => .error e
    | .ok m1 =>
      match SendDirectLoop env m1.uid fuel m1.receiveWaitingThreads sendSize sendBufAddr k with
      | .error e => .error e
      | .ok r =>
        if r.2.1 ≠ 0 ∧ (waitMode ≠ SCE_KERNEL_MPW_ASAP ∨ r.2.2.1 = sendBufAddr) then
          if poll then
            .ok (env.SCE_KERNEL_ERROR_MPP_FULL, r.2.2.2, { m1 with receiveWaitingThreads := r.1 })
          else
            .ok (SendWait env r.2.2.2 { m1 with receiveWaitingThreads := r.1 }
              r.2.2.1 r.2.1 waitMode resultAddr timeoutPtr)
        else
          .ok (SendFinish env r.2.2.2 { m1 with receiveWaitingThreads := r.1 }
            r.2.2.1 sendBufAddr resultAddr)
  else if m.nmp.bufSize < sendSize then .ok (env.SCE_KERNEL_ERROR_ILLEGAL_SIZE, k, m)
  else
    match m.SortSendThreads env k with
    | .error e => .error e
    | .ok m1 =>
      let bytesToSend : Nat :=
        if m1.sendWaitingThreads.isEmpty then
          if sendSize ≤ m1.nmp.freeSize then sendSize
          else if waitMode = SCE_KERNEL_MPW_ASAP ∧ m1.nmp.freeSize ≠ 0 then m1.nmp.freeSize
          else 0
        else 0
      if bytesToSend ≠ 0 then
        let k1 : KernelState := { k with
          mem := Memcpy k.mem ((m1.buffer + m1.GetUsedSize) % 2 ^ 32) sendBufAddr bytesToSend }
        let m2 : MsgPipe := { m1 with
          nmp := { m1.nmp with freeSize := (m1.nmp.freeSize + 2 ^ 32 - bytesToSend) % 2 ^ 32 } }
        match m2.CheckReceiveThreads env fuel k1 with
        | .error e => .error e
        | .ok c =>
          .ok (SendFinish env (if c.1 then hleReSchedule c.2.1 else c.2.1) c.2.2
            ((sendBufAddr + bytesToSend) % 2 ^ 32) sendBufAddr resultAddr)
      else if poll then .ok (env.SCE_KERNEL_ERROR_MPP_FULL, k, m1)
      else .ok (SendWait env k m1 sendBufAddr sendSize waitMode resultAddr timeoutPtr)

/-- The `while` loop of `__KernelReceiveMsgPipe` for a pipe without buffer,
by recursion on the send list (an iteration erases the front entry or
breaks). Returns the send list, `receiveSize`, `curReceiveAddr` and the
state. -/
def ReceiveDirectLoop (env : HleEnv) (uid : Nat) :
    List MsgPipeWaitingThread → Nat → Nat → KernelState →
      List MsgPipeWaitingThread × Nat × Nat × KernelState
  | [], receiveSize, curReceiveAddr, k => ([], receiveSize, curReceiveAddr, k)
  | thread :: rest, receiveSize, curReceiveAddr, k =>
    if receiveSize < (thread.bufSize + 2 ^ 32 - thread.freeSize) % 2 ^ 32 then
      let mem1 := Memcpy k.mem curReceiveAddr thread.bufAddr receiveSize
      let thread1 : MsgPipeWaitingThread := { thread with
        freeSize := (thread.freeSize + receiveSize) % 2 ^ 32 }
      let mem2 := Memcpy mem1 thread1.bufAddr ((thread1.bufAddr + receiveSize) % 2 ^ 32)
        ((thread1.bufSize + 2 ^ 32 - thread1.freeSize) % 2 ^ 32)
      let k2 : KernelState := { k with mem := mem2 }
      if thread1.waitMode = SCE_KERNEL_MPW_ASAP then
        (rest, 0, (curReceiveAddr + receiveSize) % 2 ^ 32,
          thread1.Complete env k2 uid 0
            ((thread1.bufSize + 2 ^ 32 - thread1.freeSize) % 2 ^ 32))
      else (thread1 :: rest, 0, (curReceiveAddr + receiveSize) % 2 ^ 32, k2)
    else if (thread.bufSize + 2 ^ 32 - thread.freeSize) % 2 ^ 32 = receiveSize then
      let k1 : KernelState := { k with
        mem := Memcpy k.mem curReceiveAddr thread.bufAddr receiveSize }
      (rest, 0, (curReceiveAddr + receiveSize) % 2 ^ 32,
        thread.Complete env k1 uid 0 thread.bufSize)
    else
      let avail := (thread.bufSize + 2 ^ 32 - thread.freeSize) % 2 ^ 32
      let k1 : KernelState := { k with
        mem := Memcpy k.mem curReceiveAddr thread.bufAddr avail }
      ReceiveDirectLoop env uid rest ((receiveSize + 2 ^ 32 - avail) % 2 ^ 32)
        ((curReceiveAddr + avail) % 2 ^ 32) (thread.Complete env k1 uid 0 thread.bufSize)

/-- The part of `__KernelReceiveMsgPipe` that queues the caller: the two
identical `else` blocks after `if (poll)`. -/
def ReceiveWait (env : HleEnv) (k : KernelState) (m : MsgPipe)
    (curReceiveAddr receiveSize waitMode resultAddr timeoutPtr : Nat) : KernelState × MsgPipe :=
  let a := m.AddReceiveWaitingThread env k (KernelGetCurThread k) curReceiveAddr receiveSize
    waitMode resultAddr
  let k1 := RETURN a.1 0
  let t := __KernelSetMsgPipeTimeout env k1 timeoutPtr
  if t.1 then (KernelWaitCurThread t.2 m.uid timeoutPtr, a.2)
  else (RETURN t.2 env.SCE_KERNEL_ERROR_WAIT_TIMEOUT, a.2)

/-- The end of `__KernelReceiveMsgPipe`: the number of bytes received is
written to `resultAddr` and the call returns 0. -/
def ReceiveFinish (k : KernelState) (m : MsgPipe)
    (curReceiveAddr receiveBufAddr resultAddr : Nat) : KernelState × MsgPipe :=
  (RETURN { k with
    mem := Write_U32 k.mem ((curReceiveAddr + 2 ^ 32 - receiveBufAddr) % 2 ^ 32) resultAddr } 0,
    m)

/-- Source: `__KernelReceiveMsgPipe`. Returns the state (the result is in
the return register) and the pipe. -/
def __KernelReceiveMsgPipe (env : HleEnv) (fuel : Nat) (k : KernelState) (m : MsgPipe)
    (receiveBufAddr receiveSize waitMode resultAddr timeoutPtr : Nat) (_cbEnabled poll : Bool) :
    Except Fault (KernelState × MsgPipe) :=
  if m.nmp.bufSize = 0 then
    let r := ReceiveDirectLoop env m.uid m.sendWaitingThreads receiveSize receiveBufAddr k
    let m1 : MsgPipe := { m with sendWaitingThreads := r.1 }
    if r.2.1 ≠ 0 ∧ (waitMode ≠ SCE_KERNEL_MPW_ASAP ∨ r.2.2.1 = receiveBufAddr) then
      if poll then .ok (RETURN r.2.2.2 env.SCE_KERNEL_ERROR_MPP_EMPTY, m1)
      else .ok (ReceiveWait env r.2.2.2 m1 r.2.2.1 r.2.1 waitMode resultAddr timeoutPtr)
    else .ok (ReceiveFinish r.2.2.2 m1 r.2.2.1 receiveBufAddr resultAddr)
  else if receiveSize ≤ m.GetUsedSize then
    let freeSize1 := (m.nmp.freeSize + receiveSize) % 2 ^ 32
    let k1 : KernelState := { k with
      mem := Memcpy (Memcpy k.mem receiveBufAddr m.buffer receiveSize) m.buffer
        (m.buffer + receiveSize) ((m.nmp.bufSize + 2 ^ 32 - freeSize1) % 2 ^ 32) }
    let m1 : MsgPipe := { m with nmp := { m.nmp with freeSize := freeSize1 } }
    let curReceiveAddr := (receiveBufAddr + receiveSize) % 2 ^ 32
    if curReceiveAddr ≠ receiveBufAddr then
      match m1.CheckSendThreads env fuel k1 with
      | .error e => .error e
      | .ok c => .ok (ReceiveFinish c.2.1 c.2.2 curReceiveAddr receiveBufAddr resultAddr)
    else .ok (ReceiveFinish k1 m1 curReceiveAddr receiveBufAddr resultAddr)
  else if waitMode = SCE_KERNEL_MPW_ASAP ∧ m.nmp.freeSize ≠ m.nmp.bufSize then
    let k1 : KernelState := { k with
      mem := Memcpy k.mem receiveBufAddr m.buffer m.GetUsedSize }
    let m1 : MsgPipe := { m with nmp := { m.nmp with freeSize := m.nmp.bufSize } }
    let curReceiveAddr := (receiveBufAddr + m.GetUsedSize) % 2 ^ 32
    if curReceiveAddr ≠ receiveBufAddr then
      match m1.CheckSendThreads env fuel k1 with
      | .error e => .error e
      | .ok c => .ok (ReceiveFinish c.2.1 c.2.2 curReceiveAddr receiveBufAddr resultAddr)
    else .ok (ReceiveFinish k1 m1 curReceiveAddr receiveBufAddr resultAddr)
  else if poll then .ok (RETURN k env.SCE_KERNEL_ERROR_MPP_EMPTY, m)
  else .ok (ReceiveWait env k m receiveBufAddr receiveSize waitMode resultAddr timeoutPtr)

/-- Source: `sceKernelCancelMsgPipe`; `found` is what
`kernelObjects.Get<MsgPipe>(uid, error)` returned, the pipe or the error.
Returns the result, the state and the pipe. -/
def sceKernelCancelMsgPipe (env : HleEnv) (k : KernelState) (found : Except Nat MsgPipe)
    (uid numSendThreadsAddr numReceiveThreadsAddr : Nat) : Nat × KernelState × Option MsgPipe :=
  match found with
  | .error error => (error, k, none)
  | .ok m =>
    let k1 : KernelState :=
      if env.IsValidAddress numSendThreadsAddr then
        { k with
          mem := Write_U32 k.mem (m.sendWaitingThreads.length % 2 ^ 32) numSendThreadsAddr }
      else k
    let k2 : KernelState :=
      if env.IsValidAddress numReceiveThreadsAddr then
        { k1 with
          mem := Write_U32 k1.mem (m.receiveWaitingThreads.length % 2 ^ 32)
            numReceiveThreadsAddr }
      else k1
    let k3 := m.sendWaitingThreads.foldl
      (fun s t => t.Cancel env s uid env.SCE_KERNEL_ERROR_WAIT_CANCEL) k2
    let k4 := m.receiveWaitingThreads.foldl
      (fun s t => t.Cancel env s uid env.SCE_KERNEL_ERROR_WAIT_CANCEL) k3
    (0, k4, some { m with
      sendWaitingThreads := [],
      receiveWaitingThreads := [],
      nmp := { m.nmp with freeSize := m.nmp.bufSize } })

/-! ## Concrete instances -/

/-- An environment: user memory is valid from `0x08000000` up to
`0x0A000000`, threads with a smaller id come first in priority order, the
allocator hands out `0x08800000`, ids are counted from 1. -/
def envHle : HleEnv :=
  { IsValidAddress := fun a => decide (0x08000000 ≤ a ∧ a < 0x0A000000),
    KernelThreadSortPriority := fun a b => decide (a < b),
    usToCycles := fun u => 222 * u,
    unscheduledUs := fun _ => 0,
    userMemoryAlloc := fun _ _ _ => 0x08800000,
    kernelObjectsCreate := fun l => l.length + 1,
    KERNELOBJECT_MAX_NAME_LENGTH := 31,
    SCE_KERNEL_ERROR_NO_MEMORY := 0x80020190,
    SCE_KERNEL_ERROR_ILLEGAL_ARGUMENT := 0x800200D2,
    SCE_KERNEL_ERROR_ILLEGAL_PERM := 0x800200D1,
    SCE_KERNEL_ERROR_ILLEGAL_ATTR := 0x80020191,
    SCE_KERNEL_ERROR_ILLEGAL_ADDR := 0x800200D3,
    SCE_KERNEL_ERROR_ILLEGAL_SIZE := 0x800200D4,
    SCE_KERNEL_ERROR_MPP_FULL := 0x800201B7,
    SCE_KERNEL_ERROR_MPP_EMPTY := 0x800201B8,
    SCE_KERNEL_ERROR_WAIT_TIMEOUT := 0x800201A8,
    SCE_KERNEL_ERROR_WAIT_CANCEL := 0x800201A9 }

/-- A state with zeroed memory, no waiting thread, no timer event, no
allocation and no kernel object; thread 3 is running. -/
def kernelIdle : KernelState :=
  { mem := fun _ => 0,
    waitID := fun _ => 0,
    waitTimeoutPtr := fun _ => 0,
    waitResult := fun _ => 0,
    curThread := 3,
    v0 := 0,
    waitTimer := 0,
    scheduled := [],
    rescheduled := false,
    userBlocks := [],
    objects := [] }

/-- The pipe of id 7: a buffer of 8 bytes at `0x08800000`, all of it free,
FIFO attribute, no waiting thread. -/
def pipeEight : MsgPipe :=
  { uid := 7,
    nmp := { size := 56, name := "pipe", attr := 0, bufSize := 8, freeSize := 8,
             numSendWaitThreads := 0, numReceiveWaitThreads := 0 },
    sendWaitingThreads := [],
    receiveWaitingThreads := [],
    buffer := 0x08800000 }

/-- The entry of thread 1, queued to send the 4 bytes at `0x08900000`. -/
def senderOne : MsgPipeWaitingThread :=
  ⟨1, 0x08900000, 4, 4, SCE_KERNEL_MPW_FULL, 0x08900100⟩

/-- The entry of thread 2, queued to send the 4 bytes at `0x08900010`. -/
def senderTwo : MsgPipeWaitingThread :=
  ⟨2, 0x08900010, 4, 4, SCE_KERNEL_MPW_FULL, 0x08900110⟩

/-- The entry of thread 4, queued to send the 4 bytes at `0x08900020`. -/
def senderFour : MsgPipeWaitingThread :=
  ⟨4, 0x08900020, 4, 4, SCE_KERNEL_MPW_FULL, 0x08900120⟩

/-- `pipeEight` with threads 1 and 2 queued to send, in this order. -/
def pipeTwoSenders : MsgPipe :=
  { pipeEight with sendWaitingThreads := [senderOne, senderTwo] }

/-- Threads 1 and 2 wait on pipe 7; the bytes thread 1 sends are `0x11`, the
bytes thread 2 sends are `0x22`. -/
def kernelTwoSenders : KernelState :=
  { kernelIdle with
    waitID := fun t => if t = 1 ∨ t = 2 then 7 else 0,
    mem := fun a =>
      if 0x08900000 ≤ a ∧ a < 0x08900004 then 0x11
      else if 0x08900010 ≤ a ∧ a < 0x08900014 then 0x22
      else 0 }

/-- `pipeEight` with threads 1, 2 and 4 queued to send, in this order of
arrival. -/
def pipeThreeSenders : MsgPipe :=
  { pipeEight with sendWaitingThreads := [senderOne, senderTwo, senderFour] }

/-- Threads 2 and 4 wait on pipe 7; thread 1 no longer waits (its wait timed
out). -/
def kernelOneTimedOut : KernelState :=
  { kernelIdle with waitID := fun t => if t = 2 ∨ t = 4 then 7 else 0 }

/-- The buffer invariant of a pipe: `bufSize` and `freeSize` are 32-bit
fields and, read as signed, `0 <= freeSize <= bufSize`. -/
def MsgPipe.BufferInv (m : MsgPipe) : Prop :=
  m.nmp.bufSize < 2 ^ 32 ∧ m.nmp.freeSize < 2 ^ 32 ∧
    0 ≤ s32 m.nmp.freeSize ∧ s32 m.nmp.freeSize ≤ s32 m.nmp.bufSize

/-- The quantity that bounds the calls between `CheckSendThreads` and
`CheckReceiveThreads`: the threads in the two wait lists and the used
size. -/
def MsgPipe.checkMeasure (m : MsgPipe) : Nat :=
  m.sendWaitingThreads.length + m.receiveWaitingThreads.length + m.GetUsedSize

/-- `pipeTwoSenders` with a full buffer: the state in which threads 1 and 2
had to queue. -/
def pipeFullTwoSenders : MsgPipe :=
  { pipeTwoSenders with nmp := { pipeTwoSenders.nmp with freeSize := 0 } }

/-- The pipe of id 7 without buffer (`bufSize = 0`), no waiting thread. -/
def pipeZero : MsgPipe :=
  { uid := 7,
    nmp := { size := 56, name := "pipe", attr := 0, bufSize := 0, freeSize := 0,
             numSendWaitThreads := 0, numReceiveWaitThreads := 0 },
    sendWaitingThreads := [],
    receiveWaitingThreads := [],
    buffer := 0 }

/-- Thread 1 is running and no thread waits; the 4 bytes at `0x08900000`
are `0x11`. -/
def kernelSenderRuns : KernelState :=
  { kernelIdle with
    curThread := 1,
    mem := fun a => if 0x08900000 ≤ a ∧ a < 0x08900004 then 0x11 else 0 }

/-- What `__KernelSendMsgPipe` leaves when thread 1 sends the 4 bytes at
`0x08900000` to `pipeZero` in mode `SCE_KERNEL_MPW_FULL`, with its result
word at `0x08900100` and no timeout. -/
def handOverSent : Nat × KernelState × MsgPipe :=
  (__KernelSendMsgPipe envHle 1 kernelSenderRuns pipeZero 0x08900000 4 SCE_KERNEL_MPW_FULL
    0x08900100 0 false false).toOption.getD (0, kernelIdle, pipeZero)

/-- What `__KernelReceiveMsgPipe` leaves when, after `handOverSent`, thread 2
runs and asks for 4 bytes at `0x08A00000` in mode `SCE_KERNEL_MPW_FULL`, with
its result word at `0x08A00100` and no timeout. -/
def handOverReceived : KernelState × MsgPipe :=
  (__KernelReceiveMsgPipe envHle 1 { handOverSent.2.1 with curThread := 2 } handOverSent.2.2
    0x08A00000 4 SCE_KERNEL_MPW_FULL 0x08A00100 0 false false).toOption.getD
    (kernelIdle, pipeZero)

end HLE

/-! # Theorems -/

namespace MIPSComp

open IRJit

/-! ## Shape of one loop iteration, the loop and the seal -/

/-- A successful iteration is the opcode rule, run after the cycle estimate
was added, followed by the two counter updates. -/
theorem DoJitStep_ok {env : Env} {s s1 : IRJit} (h : DoJitStep env s = .ok s1) :
    ∃ s2, env.MIPSCompileOp (env.Read_Opcode_JIT (GetCompilerPC s))
        { s with js := { s.js with downcountAmount := s.js.downcountAmount +
          env.MIPSGetInstructionCycleEstimate (env.Read_Opcode_JIT (GetCompilerPC s)) } }
        = .ok s2 ∧
      s1 = { s2 with js := { s2.js with
        compilerPC := (s2.js.compilerPC + 4) % 2 ^ 32,
        numInstructions := s2.js.numInstructions + 1 } } := by
  unfold DoJitStep at h
  simp only at h
  split at h
  · exact absurd h (by simp)
  · rename_i s2 hs2
    refine ⟨s2, hs2, ?_⟩
    injection h with h
    exact h.symm

/-- A property kept by every successful iteration is kept by the loop. -/
theorem DoJitLoop_invariant {env : Env} (P : IRJit → Prop)
    (hstep : ∀ s s1, P s → DoJitStep env s = .ok s1 → P s1) :
    ∀ (fuel : Nat) (s s1 : IRJit), P s → DoJitLoop env fuel s = .ok s1 → P s1 := by
  intro fuel
  induction fuel with
  | zero =>
    intro s s1 hP h
    unfold DoJitLoop at h
    split at h
    · exact absurd h (by simp)
    · injection h with h
      exact h ▸ hP
  | succ n ih =>
    intro s s1 hP h
    unfold DoJitLoop at h
    split at h
    · split at h
      · exact absurd h (by simp)
      · rename_i s2 hs2
        exact ih s2 s1 (hstep s s2 hP hs2) h
    · injection h with h
      exact h ▸ hP

/-- What a successful seal changes: the block behind the handle and the two
log counters. -/
theorem DoJitSeal_ok {fuel a b : Nat} {j j1 : IRJit} (h : DoJitSeal fuel a b j = .ok j1) :
    j1.js = j.js ∧ j1.ir = j.ir ∧ j1.gpr = j.gpr ∧ j1.mips_ = j.mips_ ∧
      j1.blocks_ = j.blocks_.setInstructionsAt b j.ir.insts_ j.ir.constPool_ := by
  unfold DoJitSeal at h
  simp only at h
  split at h
  · split at h
    · exact absurd h (by simp)
    · injection h with h
      subst h
      simp [IRWriter.GetInstructions, IRWriter.GetConstants]
  · injection h with h
    subst h
    simp [IRWriter.GetInstructions, IRWriter.GetConstants]

/-- A successful `DoJit` is a successful loop from the initial assignments
followed by a successful seal. -/
theorem DoJit_ok {env : Env} {fuel a b : Nat} {j j1 : IRJit}
    (h : DoJit env fuel a b j = .ok j1) :
    ∃ jl, DoJitLoop env fuel (DoJitInit env j) = .ok jl ∧ DoJitSeal fuel a b jl = .ok j1 := by
  unfold DoJit at h
  split at h
  · exact absurd h (by simp)
  · rename_i jl hjl
    exact ⟨jl, hjl, h⟩

/-! ## What a translation pass leaves alone -/

/-- Sealing the last slot of the vector rewrites that slot only. -/
theorem modify_append_singleton {α : Type} (f : α → α) (l : List α) (x : α) :
    (l ++ [x]).modify f l.length = l ++ [f x] := by
  induction l with
  | nil => rfl
  | cons y ys ih => simpa [List.modify_succ_cons] using ih

/-- The initial assignments of `DoJit` touch neither the cache nor the CPU
state nor the two rounding flags. -/
theorem DoJitInit_frame (env : Env) (j : IRJit) :
    (DoJitInit env j).blocks_ = j.blocks_ ∧ (DoJitInit env j).mips_ = j.mips_ ∧
      (DoJitInit env j).js.lastSetRounding = j.js.lastSetRounding ∧
      (DoJitInit env j).js.hasSetRounding = j.js.hasSetRounding ∧
      (DoJitInit env j).js.startDefaultPrefix = j.js.startDefaultPrefix := by
  simp [DoJitInit, JitState.PrefixStart, JitState.withPrefixRegs]

/-- When rules keep the cache, so does the loop. -/
theorem DoJitLoop_blocks {env : Env} (hc : RulesKeepCache env) {fuel : Nat} {s s1 : IRJit}
    (h : DoJitLoop env fuel s = .ok s1) : s1.blocks_ = s.blocks_ := by
  refine DoJitLoop_invariant (fun t => t.blocks_ = s.blocks_) ?_ fuel s s1 rfl h
  intro t t1 ht hstep
  obtain ⟨t2, hrule, rfl⟩ := DoJitStep_ok hstep
  have := hc _ _ _ hrule
  simp_all

/-- When rules do not write `js.lastSetRounding`, neither does the loop. -/
theorem DoJitLoop_lastSetRounding {env : Env} (hl : RulesKeepLastSetRounding env)
    {fuel : Nat} {s s1 : IRJit} (h : DoJitLoop env fuel s = .ok s1) :
    s1.js.lastSetRounding = s.js.lastSetRounding := by
  refine DoJitLoop_invariant (fun t => t.js.lastSetRounding = s.js.lastSetRounding)
    ?_ fuel s s1 rfl h
  intro t t1 ht hstep
  obtain ⟨t2, hrule, rfl⟩ := DoJitStep_ok hstep
  have := hl _ _ _ hrule
  simp_all

/-- When rules do not reset a non-zero `js.lastSetRounding`, neither does the
loop. -/
theorem DoJitLoop_lastSetRounding_ne_zero {env : Env}
    (hl : RulesNeverResetLastSetRounding env) {fuel : Nat} {s s1 : IRJit}
    (hs : s.js.lastSetRounding ≠ 0) (h : DoJitLoop env fuel s = .ok s1) :
    s1.js.lastSetRounding ≠ 0 := by
  refine DoJitLoop_invariant (fun t => t.js.lastSetRounding ≠ 0) ?_ fuel s s1 hs h
  intro t t1 ht hstep
  obtain ⟨t2, hrule, rfl⟩ := DoJitStep_ok hstep
  have := hl _ _ _ hrule (by simpa using ht)
  simpa using this

/-- A pass whose rules keep the cache appends exactly one block: the old
blocks are untouched and the new one holds the start address asked for and
the IR and constants of the pass. -/
theorem firstPass_blocks {env : Env} (hc : RulesKeepCache env) {fuel a : Nat} {j j1 : IRJit}
    (h : firstPass env fuel a j = .ok j1) :
    j1.blocks_.blocks_ = j.blocks_.blocks_ ++ [⟨a, j1.ir.insts_, j1.ir.constPool_⟩] := by
  obtain ⟨jl, hloop, hseal⟩ := DoJit_ok h
  obtain ⟨-, hir, -, -, hb⟩ := DoJitSeal_ok hseal
  have hlb := DoJitLoop_blocks hc hloop
  rw [(DoJitInit_frame env _).1] at hlb
  rw [hb, hir, hlb]
  simp [IRBlockCache.setInstructionsAt, IRBlockCache.AllocateBlock,
    modify_append_singleton, IRBlock.SetInstructions]

/-- A pass whose rules do not write `js.lastSetRounding` returns it as it
was. -/
theorem firstPass_lastSetRounding {env : Env} (hl : RulesKeepLastSetRounding env)
    {fuel a : Nat} {j j1 : IRJit} (h : firstPass env fuel a j = .ok j1) :
    j1.js.lastSetRounding = j.js.lastSetRounding := by
  obtain ⟨jl, hloop, hseal⟩ := DoJit_ok h
  obtain ⟨hjs, -⟩ := DoJitSeal_ok hseal
  have := DoJitLoop_lastSetRounding hl hloop
  rw [(DoJitInit_frame env _).2.2.1] at this
  rw [hjs, this]

/-- A pass whose rules do not reset `js.lastSetRounding` returns it
non-zero when it was non-zero. -/
theorem firstPass_lastSetRounding_ne_zero {env : Env}
    (hl : RulesNeverResetLastSetRounding env) {fuel a : Nat} {j j1 : IRJit}
    (hj : j.js.lastSetRounding ≠ 0) (h : firstPass env fuel a j = .ok j1) :
    j1.js.lastSetRounding ≠ 0 := by
  obtain ⟨jl, hloop, hseal⟩ := DoJit_ok h
  obtain ⟨hjs, -⟩ := DoJitSeal_ok hseal
  have := DoJitLoop_lastSetRounding_ne_zero hl
    (by rw [(DoJitInit_frame env _).2.2.1]; exact hj) hloop
  rw [hjs]
  exact this

/-! ## The checks and the recursion of `Compile` -/

/-- One invocation of `Compile`, by cases on its pass and on `cleanSlate`. -/
theorem Compile_succ (env : Env) (fuel depth a : Nat) (j : IRJit) :
    Compile env fuel (depth + 1) a j =
      match firstPass env fuel a j with
      | .error e => .error e
      | .ok j1 =>
        if (CompileChecks env j1).2 then
          Compile env fuel depth a (ClearCache (CompileChecks env j1).1)
        else .ok (CompileChecks env j1).1 := rfl

/-- The checks change `js.lastSetRounding` and `js.startDefaultPrefix`
only. -/
theorem CompileChecks_frame (env : Env) (j : IRJit) :
    (CompileChecks env j).1.blocks_ = j.blocks_ ∧ (CompileChecks env j).1.ir = j.ir ∧
      (CompileChecks env j).1.mips_ = j.mips_ ∧
      (CompileChecks env j).1.js.hasSetRounding = j.js.hasSetRounding := by
  unfold CompileChecks
  simp only
  split_ifs <;> simp

/-- The value of `cleanSlate`. -/
theorem CompileChecks_cleanSlate (env : Env) (j : IRJit) :
    (CompileChecks env j).2 = true ↔ j.js.hasSetRounding ≠ 0 ∧ j.js.lastSetRounding = 0 := by
  simp [CompileChecks]

/-- After a detected transition `js.lastSetRounding` is the value of
`js.hasSetRounding`. -/
theorem CompileChecks_lastSetRounding_of_transition (env : Env) (j : IRJit)
    (h : j.js.hasSetRounding ≠ 0 ∧ j.js.lastSetRounding = 0) :
    (CompileChecks env j).1.js.lastSetRounding = j.js.hasSetRounding := by
  unfold CompileChecks
  simp only
  split_ifs <;> simp

/-- Without a detected transition the checks leave `js.lastSetRounding`. -/
theorem CompileChecks_lastSetRounding_of_no_transition (env : Env) (j : IRJit)
    (h : ¬ (j.js.hasSetRounding ≠ 0 ∧ j.js.lastSetRounding = 0)) :
    (CompileChecks env j).1.js.lastSetRounding = j.js.lastSetRounding := by
  unfold CompileChecks
  simp only
  split_ifs <;> simp

/-- Without a detected transition, a returning `Compile` is its pass
followed by the checks: no clear and no second pass. -/
theorem Compile_of_no_transition {env : Env} {fuel depth a : Nat} {j r : IRJit}
    (h : Compile env fuel depth a j = .ok r) (hno : roundingTransition env fuel a j = false) :
    ∃ j1, firstPass env fuel a j = .ok j1 ∧ r = (CompileChecks env j1).1 := by
  cases depth with
  | zero => exact absurd h (by simp [Compile])
  | succ d =>
    rw [Compile_succ] at h
    unfold roundingTransition at hno
    cases hp : firstPass env fuel a j with
    | error e => rw [hp] at h; exact absurd h (by simp)
    | ok j1 =>
      rw [hp] at h hno
      simp only at h hno
      rw [hno] at h
      simp only [Bool.false_eq_true, if_false] at h
      injection h with h
      exact ⟨j1, rfl, h.symm⟩

/-- The rule of `envEnd` keeps the cache. -/
theorem envEnd_keeps_cache : RulesKeepCache envEnd := by
  intro op s s1 h
  simp only [envEnd, ruleEnd] at h
  injection h with h
  subst h
  rfl

/-- The rule of `envRounding` keeps the cache. -/
theorem envRounding_keeps_cache : RulesKeepCache envRounding := by
  intro op s s1 h
  simp only [envRounding, ruleRounding] at h
  injection h with h
  subst h
  rfl

/-- The rule of `envRounding` does not write `js.lastSetRounding`. -/
theorem envRounding_keeps_lastSetRounding : RulesKeepLastSetRounding envRounding := by
  intro op s s1 h
  simp only [envRounding, ruleRounding] at h
  injection h with h
  subst h
  rfl

/-- The rule of `envRounding` does not reset `js.lastSetRounding`. -/
theorem envRounding_never_resets : RulesNeverResetLastSetRounding envRounding := by
  intro op s s1 h hs
  rw [envRounding_keeps_lastSetRounding op s s1 h]
  exact hs

/-! ## Block cache: invalidation, clearing, allocation -/

/-- C1, the code at the failing input: the cache of `jitPopulated` holds a
block that starts at `0x08000000`; after `InvalidateCacheAt(0x08000000, 4)`,
whose range contains that start address, the block is still in the cache and
a lookup of `0x08000000` still returns it. -/
theorem InvalidateCacheAt_keeps_intersecting_block :
    (InvalidateCacheAt jitPopulated 0x08000000 4).blocks_.lookup 0x08000000
        = some blockAt8000000 ∧
      (InvalidateCacheAt jitPopulated 0x08000000 4).blocks_.GetNumBlocks = 1 := by
  decide

/-- C2, refuted as stated: under `envEnd` neither call of
`Compile(0x08000000)` sees a rounding-mode transition, yet the cache holds
one block after the first call and two after the second, both claiming the
start address `0x08000000`. -/
theorem Compile_twice_second_block :
    Compile envEnd 1 1 0x08000000 jitEmpty = .ok jitOnce ∧
      Compile envEnd 1 1 0x08000000 jitOnce = .ok jitTwice ∧
      roundingTransition envEnd 1 0x08000000 jitEmpty = false ∧
      roundingTransition envEnd 1 0x08000000 jitOnce = false ∧
      jitOnce.blocks_.GetNumBlocks = 1 ∧
      jitTwice.blocks_.GetNumBlocks = 2 ∧
      jitTwice.blocks_.countAt 0x08000000 = 2 := by
  refine ⟨rfl, rfl, rfl, rfl, ?_, ?_, ?_⟩ <;> decide

/-- C2, amended: when opcode rules keep the cache, every call of
`Compile(a)` that returns without seeing a rounding-mode transition appends
one new block for `a` and keeps the earlier blocks. After two such calls the
cache has grown by one block per call and at least two blocks claim `a`. -/
theorem Compile_twice_allocates_twice (env : Env) (fuel d1 d2 a : Nat) (j j1 j2 : IRJit)
    (hc : RulesKeepCache env)
    (h1 : Compile env fuel d1 a j = .ok j1)
    (hno1 : roundingTransition env fuel a j = false)
    (h2 : Compile env fuel d2 a j1 = .ok j2)
    (hno2 : roundingTransition env fuel a j1 = false) :
    j1.blocks_.GetNumBlocks = j.blocks_.GetNumBlocks + 1 ∧
      j2.blocks_.GetNumBlocks = j1.blocks_.GetNumBlocks + 1 ∧
      (∃ b1 b2, b1.origAddr_ = a ∧ b2.origAddr_ = a ∧
        j2.blocks_.blocks_ = j.blocks_.blocks_ ++ [b1, b2]) ∧
      2 ≤ j2.blocks_.countAt a := by
  obtain ⟨p1, hp1, rfl⟩ := Compile_of_no_transition h1 hno1
  obtain ⟨p2, hp2, rfl⟩ := Compile_of_no_transition h2 hno2
  have e1 := firstPass_blocks hc hp1
  have e2 := firstPass_blocks hc hp2
  rw [(CompileChecks_frame env p1).1] at e2
  have e3 : (CompileChecks env p2).1.blocks_.blocks_ =
      j.blocks_.blocks_ ++ [⟨a, p1.ir.insts_, p1.ir.constPool_⟩,
        ⟨a, p2.ir.insts_, p2.ir.constPool_⟩] := by
    rw [(CompileChecks_frame env p2).1, e2, e1]
    simp
  refine ⟨?_, ?_, ⟨_, _, rfl, rfl, e3⟩, ?_⟩
  · simp [IRBlockCache.GetNumBlocks, (CompileChecks_frame env p1).1, e1]
  · simp [IRBlockCache.GetNumBlocks, (CompileChecks_frame env p2).1,
      (CompileChecks_frame env p1).1, e2]
  · simp [IRBlockCache.countAt, e3, List.filter_append]

/-- Witness of `Compile_twice_allocates_twice`: the two calls under
`envEnd`, starting from the empty cache. -/
theorem Compile_twice_allocates_twice_witness :
    jitOnce.blocks_.GetNumBlocks = jitEmpty.blocks_.GetNumBlocks + 1 ∧
      jitTwice.blocks_.GetNumBlocks = jitOnce.blocks_.GetNumBlocks + 1 ∧
      (∃ b1 b2, b1.origAddr_ = 0x08000000 ∧ b2.origAddr_ = 0x08000000 ∧
        jitTwice.blocks_.blocks_ = jitEmpty.blocks_.blocks_ ++ [b1, b2]) ∧
      2 ≤ jitTwice.blocks_.countAt 0x08000000 :=
  Compile_twice_allocates_twice envEnd 1 1 1 0x08000000 jitEmpty jitOnce jitTwice
    envEnd_keeps_cache rfl rfl rfl rfl

/-- C7: after `ClearCache` and after `InvalidateCache` the cache contains no
blocks, whatever it held before; every lookup then returns none. -/
theorem ClearCache_InvalidateCache_empty (j : IRJit) :
    (ClearCache j).blocks_.blocks_ = [] ∧ (ClearCache j).blocks_.GetNumBlocks = 0 ∧
      (InvalidateCache j).blocks_.blocks_ = [] ∧
      (InvalidateCache j).blocks_.GetNumBlocks = 0 ∧
      (∀ a, (ClearCache j).blocks_.lookup a = none) ∧
      (∀ a, (InvalidateCache j).blocks_.lookup a = none) := by
  simp [ClearCache, InvalidateCache, IRBlockCache.Clear, IRBlockCache.GetNumBlocks,
    IRBlockCache.lookup]

/-! ## The recompilation supervisor -/

/-- C3: let `Compile(a)` be entered with `js.lastSetRounding = 0`, let its
pass return with `js.hasSetRounding` non-zero, and let the pass made after
the clear return with the same value of `js.hasSetRounding` (rules keep the
cache and do not write `js.lastSetRounding`). Then one nested invocation is
needed and enough (depth 1 fails, every depth from 2 on returns), the result
is the state of the pass made after the single `ClearCache`, followed by the
checks; it has `js.lastSetRounding = js.hasSetRounding`, and its cache holds
exactly the block allocated after the clear, sealed with the IR of that
pass. -/
theorem Compile_rounding_transition (env : Env) (fuel a : Nat) (j j1 j2 : IRJit)
    (hc : RulesKeepCache env) (hl : RulesKeepLastSetRounding env)
    (hentry : j.js.lastSetRounding = 0)
    (h1 : firstPass env fuel a j = .ok j1)
    (hset : j1.js.hasSetRounding ≠ 0)
    (h2 : retryPass env fuel a j1 = .ok j2)
    (hstable : j2.js.hasSetRounding = j1.js.hasSetRounding) :
    Compile env fuel 1 a j = .error .depth ∧
      (∀ d, Compile env fuel (d + 2) a j = .ok (CompileChecks env j2).1) ∧
      (CompileChecks env j2).1.js.lastSetRounding
        = (CompileChecks env j2).1.js.hasSetRounding ∧
      (CompileChecks env j2).1.ir = j2.ir ∧
      (CompileChecks env j2).1.blocks_.blocks_ = [⟨a, j2.ir.insts_, j2.ir.constPool_⟩] := by
  have hl1 : j1.js.lastSetRounding = 0 := by
    rw [firstPass_lastSetRounding hl h1]; exact hentry
  have ht : (CompileChecks env j1).2 = true :=
    (CompileChecks_cleanSlate env j1).2 ⟨hset, hl1⟩
  have hmid : (ClearCache (CompileChecks env j1).1).js.lastSetRounding
      = j1.js.hasSetRounding :=
    CompileChecks_lastSetRounding_of_transition env j1 ⟨hset, hl1⟩
  have h2f : firstPass env fuel a (ClearCache (CompileChecks env j1).1) = .ok j2 := h2
  have hl2 : j2.js.lastSetRounding = j1.js.hasSetRounding := by
    rw [firstPass_lastSetRounding hl h2f]; exact hmid
  have hno2 : ¬ (j2.js.hasSetRounding ≠ 0 ∧ j2.js.lastSetRounding = 0) := by
    intro h
    exact hset (hl2 ▸ h.2)
  have hf : (CompileChecks env j2).2 = false := by
    cases hx : (CompileChecks env j2).2 with
    | false => rfl
    | true => exact absurd ((CompileChecks_cleanSlate env j2).1 hx) hno2
  refine ⟨?_, ?_, ?_, (CompileChecks_frame env j2).2.1, ?_⟩
  · rw [Compile_succ, h1]
    simp [ht, Compile]
  · intro d
    rw [Compile_succ, h1]
    simp only [ht, if_true]
    rw [Compile_succ, h2f]
    simp [hf]
  · rw [CompileChecks_lastSetRounding_of_no_transition env j2 hno2,
      (CompileChecks_frame env j2).2.2.2, hl2, hstable]
  · rw [(CompileChecks_frame env j2).1, firstPass_blocks hc h2f]
    simp [ClearCache, IRBlockCache.Clear]

/-- Witness of `Compile_rounding_transition`: `Compile(0x08000000)` under
`envRounding` on the populated cache of `jitFresh`. -/
theorem Compile_rounding_transition_witness :
    Compile envRounding 1 1 0x08000000 jitFresh = .error .depth ∧
      (∀ d, Compile envRounding 1 (d + 2) 0x08000000 jitFresh
        = .ok (CompileChecks envRounding jitPassTwo).1) ∧
      (CompileChecks envRounding jitPassTwo).1.js.lastSetRounding
        = (CompileChecks envRounding jitPassTwo).1.js.hasSetRounding ∧
      (CompileChecks envRounding jitPassTwo).1.ir = jitPassTwo.ir ∧
      (CompileChecks envRounding jitPassTwo).1.blocks_.blocks_
        = [⟨0x08000000, jitPassTwo.ir.insts_, jitPassTwo.ir.constPool_⟩] :=
  Compile_rounding_transition envRounding 1 0x08000000 jitFresh jitPassOne jitPassTwo
    envRounding_keeps_cache envRounding_keeps_lastSetRounding rfl rfl (by decide) rfl rfl

/-- C4: let the pass of `Compile(a)` return, let the pass made after a
clear (if `cleanSlate` is set) return too, and let rules never reset a
non-zero `js.lastSetRounding`. Then `Compile` returns with at most one nested
invocation: either `cleanSlate` is false and already depth 1 returns the
state of the first pass after the checks (no clear, no second pass), or
`cleanSlate` is true and every depth from 2 on returns the state of the one
pass made after the one `ClearCache`. When `js.lastSetRounding` is non-zero
at entry the first case applies, and it is still non-zero at return. -/
theorem Compile_converges (env : Env) (fuel a : Nat) (j j1 : IRJit)
    (hl : RulesNeverResetLastSetRounding env)
    (h1 : firstPass env fuel a j = .ok j1)
    (h2 : (CompileChecks env j1).2 = true → ∃ j2, retryPass env fuel a j1 = .ok j2) :
    (((CompileChecks env j1).2 = false ∧
        ∀ d, Compile env fuel (d + 1) a j = .ok (CompileChecks env j1).1) ∨
      ((CompileChecks env j1).2 = true ∧
        ∃ j2, retryPass env fuel a j1 = .ok j2 ∧ (CompileChecks env j2).2 = false ∧
          ∀ d, Compile env fuel (d + 2) a j = .ok (CompileChecks env j2).1)) ∧
      (j.js.lastSetRounding ≠ 0 →
        (CompileChecks env j1).2 = false ∧
        (∀ d, Compile env fuel (d + 1) a j = .ok (CompileChecks env j1).1) ∧
        (CompileChecks env j1).1.js.lastSetRounding ≠ 0) := by
  have hcase : (CompileChecks env j1).2 = false →
      ∀ d, Compile env fuel (d + 1) a j = .ok (CompileChecks env j1).1 := by
    intro hf d
    rw [Compile_succ, h1]
    simp [hf]
  constructor
  · cases hx : (CompileChecks env j1).2 with
    | false => exact Or.inl ⟨rfl, hcase hx⟩
    | true =>
      right
      obtain ⟨j2, hp2⟩ := h2 hx
      have hp2f : firstPass env fuel a (ClearCache (CompileChecks env j1).1) = .ok j2 := hp2
      have htr := (CompileChecks_cleanSlate env j1).1 hx
      have hmid : (ClearCache (CompileChecks env j1).1).js.lastSetRounding ≠ 0 := by
        have := CompileChecks_lastSetRounding_of_transition env j1 htr
        simp only [ClearCache]
        rw [this]
        exact htr.1
      have hl2 := firstPass_lastSetRounding_ne_zero hl hmid hp2f
      have hf : (CompileChecks env j2).2 = false := by
        cases hy : (CompileChecks env j2).2 with
        | false => rfl
        | true => exact absurd ((CompileChecks_cleanSlate env j2).1 hy).2 hl2
      refine ⟨rfl, j2, hp2, hf, ?_⟩
      intro d
      rw [Compile_succ, h1]
      simp only [hx, if_true]
      rw [Compile_succ, hp2f]
      simp [hf]
  · intro hj
    have hl1 := firstPass_lastSetRounding_ne_zero hl hj h1
    have hno : ¬ (j1.js.hasSetRounding ≠ 0 ∧ j1.js.lastSetRounding = 0) :=
      fun h => hl1 h.2
    have hf : (CompileChecks env j1).2 = false := by
      cases hy : (CompileChecks env j1).2 with
      | false => rfl
      | true => exact absurd ((CompileChecks_cleanSlate env j1).1 hy) hno
    refine ⟨hf, hcase hf, ?_⟩
    rw [CompileChecks_lastSetRounding_of_no_transition env j1 hno]
    exact hl1

/-- Witness of `Compile_converges`, at two inputs under `envRounding`. On
`jitFresh` (flags clear at entry) the first pass sets the rounding flag: the
second case applies and every depth from 2 on returns the state of the pass
made after the clear. On `jitPopulated` (`js.lastSetRounding = 1` at entry)
depth 1 already returns the state of the first pass. -/
theorem Compile_converges_witness :
    (∀ d, Compile envRounding 1 (d + 2) 0x08000000 jitFresh
        = .ok (CompileChecks envRounding jitPassTwo).1) ∧
      (∀ d, Compile envRounding 1 (d + 1) 0x08000000 jitPopulated
        = .ok (CompileChecks envRounding jitPassKept).1) ∧
      (CompileChecks envRounding jitPassKept).1.js.lastSetRounding ≠ 0 := by
  have hFresh := (Compile_converges envRounding 1 0x08000000 jitFresh jitPassOne
    envRounding_never_resets rfl (fun _ => ⟨jitPassTwo, rfl⟩)).1
  have hKept := (Compile_converges envRounding 1 0x08000000 jitPopulated jitPassKept
    envRounding_never_resets rfl (fun h => absurd h (by decide))).2 (by decide)
  refine ⟨?_, hKept.2.1, hKept.2.2⟩
  rcases hFresh with ⟨hfalse, -⟩ | ⟨-, j2, hp2, -, hall⟩
  · exact absurd hfalse (by decide)
  · have hj2 : j2 = jitPassTwo := by
      have hp : retryPass envRounding 1 0x08000000 jitPassOne = .ok jitPassTwo := rfl
      rw [hp] at hp2
      injection hp2 with hp2
      exact hp2.symm
    rw [← hj2]
    exact hall

/-- A returning `Compile` keeps a non-zero `js.lastSetRounding` non-zero,
when rules never reset it. -/
theorem Compile_lastSetRounding_ne_zero {env : Env} (hl : RulesNeverResetLastSetRounding env)
    {fuel depth a : Nat} {j r : IRJit} (hj : j.js.lastSetRounding ≠ 0)
    (h : Compile env fuel depth a j = .ok r) : r.js.lastSetRounding ≠ 0 := by
  cases depth with
  | zero => exact absurd h (by simp [Compile])
  | succ d =>
    rw [Compile_succ] at h
    cases hp : firstPass env fuel a j with
    | error e => rw [hp] at h; exact absurd h (by simp)
    | ok j1 =>
      have hl1 := firstPass_lastSetRounding_ne_zero hl hj hp
      have hno : ¬ (j1.js.hasSetRounding ≠ 0 ∧ j1.js.lastSetRounding = 0) :=
        fun hx => hl1 hx.2
      have hf : (CompileChecks env j1).2 = false := by
        cases hy : (CompileChecks env j1).2 with
        | false => rfl
        | true => exact absurd ((CompileChecks_cleanSlate env j1).1 hy) hno
      rw [hp] at h
      simp only [hf, Bool.false_eq_true, if_false] at h
      injection h with h
      rw [← h, CompileChecks_lastSetRounding_of_no_transition env j1 hno]
      exact hl1

/-- The cache operations and `FlushAll` do not write `js.lastSetRounding`. -/
theorem lastSetRounding_kept_by_cache_ops (env : Env) (j : IRJit) (a : Nat) (len : Int) :
    (ClearCache j).js.lastSetRounding = j.js.lastSetRounding ∧
      (InvalidateCache j).js.lastSetRounding = j.js.lastSetRounding ∧
      (InvalidateCacheAt j a len).js.lastSetRounding = j.js.lastSetRounding ∧
      (FlushAll env j).js.lastSetRounding = j.js.lastSetRounding := by
  refine ⟨rfl, rfl, rfl, ?_⟩
  unfold FlushAll FlushPrefixV
  simp only
  split_ifs <;> rfl

/-! ## Save states -/

/-- C5, the code at the failing input: `jitPopulated` has
`js.lastSetRounding = 1`; `DoState` in write mode writes a version-2 section
(the words `2`, `startDefaultPrefix`, `hasSetRounding`) and returns with
`js.lastSetRounding = 0`. -/
theorem DoState_write_resets_lastSetRounding :
    jitPopulated.js.lastSetRounding = 1 ∧
      (DoState envEnd jitPopulated ⟨.MODE_WRITE, []⟩).2.data = [2, 0, 1] ∧
      (DoState envEnd jitPopulated ⟨.MODE_WRITE, []⟩).1.js.lastSetRounding = 0 := by
  decide

/-- C6, refuted as stated: `DoState` in read mode on a version-2 section,
run on the cache of `jitPopulated`, returns with the block still in the
cache. -/
theorem DoState_read_cache_not_empty :
    (DoState envEnd jitPopulated ⟨.MODE_READ, [2, 1, 1]⟩).1.blocks_.GetNumBlocks = 1 ∧
      (DoState envEnd jitPopulated ⟨.MODE_READ, [2, 1, 1]⟩).1.blocks_.lookup 0x08000000
        = some blockAt8000000 := by
  decide

/-- C6, amended: `DoState` leaves the block cache exactly as it was, in
every mode and for every stored section; it leaves the IR buffer and the CPU
state as they were too. -/
theorem DoState_keeps_cache (env : Env) (j : IRJit) (p : PointerWrap) :
    (DoState env j p).1.blocks_ = j.blocks_ ∧ (DoState env j p).1.ir = j.ir ∧
      (DoState env j p).1.mips_ = j.mips_ := by
  unfold DoState
  simp only
  split_ifs <;> simp

/-! ## Where a block is translated from -/

/-- C8, the code at the failing input: `Compile(0x08000000)` while the CPU
program counter is `0x08000100`. The loop is entered at `0x08000100`, the
recorded `js.blockStart` is `0x08000100`, and the block registered for
`0x08000000` holds the translation of the word fetched at `0x08000100` (in
the memory of `envEnd` the word at an address is the address). -/
theorem Compile_translates_from_pc :
    Compile envEnd 1 1 0x08000000 jitElsewhere = .ok jitElsewhereDone ∧
      GetCompilerPC (DoJitInit envEnd
        { jitElsewhere with
          blocks_ := (jitElsewhere.blocks_.AllocateBlock 0x08000000).2 }) = 0x08000100 ∧
      jitElsewhereDone.js.blockStart = 0x08000100 ∧
      jitElsewhereDone.blocks_.lookup 0x08000000
        = some ⟨0x08000000, [⟨IROp.Interpret, 0, 0, 0⟩], [0x08000100]⟩ := by
  refine ⟨rfl, ?_, ?_, ?_⟩ <;> decide

/-! ## Backend-only entry points and the generic fallback -/

/-- C9: for every argument and every state, `LinkBlock`, `UnlinkBlock`,
`ReplaceJalTo`, `Comp_ReplacementFunc` and `Replace_fabsf` abort through
`Crash()`: none of them returns, so none returns a changed state or
completes as a no-op. -/
theorem backend_entry_points_crash (j : IRJit) (x y : Nat) (op : MIPSOpcode) :
    LinkBlock j x y = .error .crash ∧ UnlinkBlock j x y = .error .crash ∧
      ReplaceJalTo j x = .error .crash ∧ Comp_ReplacementFunc j op = .error .crash ∧
      Replace_fabsf j = .error .crash ∧
      (∀ r, LinkBlock j x y ≠ .ok r) ∧ (∀ r, UnlinkBlock j x y ≠ .ok r) ∧
      (∀ r, ReplaceJalTo j x ≠ .ok r) ∧ (∀ r, Comp_ReplacementFunc j op ≠ .ok r) ∧
      (∀ r, Replace_fabsf j ≠ .ok r) := by
  have e1 : LinkBlock j x y = .error .crash := rfl
  have e2 : UnlinkBlock j x y = .error .crash := rfl
  have e3 : ReplaceJalTo j x = .error .crash := rfl
  have e4 : Comp_ReplacementFunc j op = .error .crash := rfl
  have e5 : Replace_fabsf j = .error .crash := rfl
  refine ⟨e1, e2, e3, e4, e5, ?_, ?_, ?_, ?_, ?_⟩ <;> intro r
  · rw [e1]; simp
  · rw [e2]; simp
  · rw [e3]; simp
  · rw [e4]; simp
  · rw [e5]; simp

/-- Adding a constant leaves the instructions, returns an index at which
the pool holds the value, and only extends the pool. -/
theorem AddConstant_spec (ir : IRWriter) (v : Nat) :
    (ir.AddConstant v).2.insts_ = ir.insts_ ∧
      (ir.AddConstant v).2.constPool_.get? (ir.AddConstant v).1 = some v ∧
      ∃ t, (ir.AddConstant v).2.constPool_ = ir.constPool_ ++ t := by
  unfold IRWriter.AddConstant
  split_ifs with hmem
  · refine ⟨rfl, ?_, [], by simp⟩
    have hlt : ir.constPool_.indexOf v < ir.constPool_.length :=
      List.indexOf_lt_length.2 hmem
    simp only
    rw [List.get?_eq_get hlt]
    exact congrArg some (List.indexOf_get hlt)
  · exact ⟨rfl, by simp, [v], rfl⟩

/-- C10: for every opcode and every IR buffer, `Comp_Generic(op)` appends
exactly one IR instruction to the instructions already written, which stay
as they were; it is an `Interpret` whose first operand is an index at which
the constant pool holds `op.encoding`; constants already in the pool keep
their indices. -/
theorem Comp_Generic_appends_Interpret (env : Env) (j : IRJit) (op : MIPSOpcode) :
    ∃ k, (Comp_Generic env j op).ir.insts_ = j.ir.insts_ ++ [⟨IROp.Interpret, k, 0, 0⟩] ∧
      (Comp_Generic env j op).ir.constPool_.get? k = some op.encoding ∧
      (Comp_Generic env j op).ir.insts_.length = j.ir.insts_.length + 1 ∧
      ∃ t, (Comp_Generic env j op).ir.constPool_ = j.ir.constPool_ ++ t := by
  obtain ⟨hi, hk, t, ht⟩ := AddConstant_spec j.ir op.encoding
  have hir : (Comp_Generic env j op).ir =
      (j.ir.AddConstant op.encoding).2.Write IROp.Interpret
        (j.ir.AddConstant op.encoding).1 0 0 := by
    unfold Comp_Generic
    simp only
    split_ifs <;> rfl
  refine ⟨(j.ir.AddConstant op.encoding).1, ?_, ?_, ?_, t, ?_⟩
  · rw [hir]; simp [IRWriter.Write, hi]
  · rw [hir]; simpa [IRWriter.Write] using hk
  · rw [hir]; simp [IRWriter.Write, hi]
  · rw [hir]; simpa [IRWriter.Write] using ht

/-! ## The generic fallback and the prefix state -/

/-- C11: for every opcode, `Comp_Generic(op)` leaves the compiler state with
the prefixes marked unknown (`js.PrefixUnknown()`) exactly when the info of
`op` has `IS_VFPU` set, `VFPU_NO_PREFIX` clear and `OUT_EAT_PREFIX` clear, and
with the compiler state exactly as it was in every other case; the fields
other than the six prefix fields are as they were in all cases. -/
theorem Comp_Generic_prefix_unknown (env : Env) (j : IRJit) (op : MIPSOpcode) :
    (Comp_Generic env j op).js =
        (if env.MIPSGetInfo op &&& env.IS_VFPU ≠ 0 ∧
            env.MIPSGetInfo op &&& env.VFPU_NO_PREFIX = 0 ∧
            env.MIPSGetInfo op &&& env.OUT_EAT_PREFIX = 0
          then j.js.PrefixUnknown env else j.js) ∧
      (Comp_Generic env j op).js.withPrefixRegs j.js.prefixRegs = j.js := by
  unfold Comp_Generic
  simp only
  split_ifs <;>
    simp_all [JitState.PrefixUnknown, JitState.withPrefixRegs, JitState.prefixRegs]

/-! ## Range invalidation and eaten instructions -/

/-- C17: for every cache state and every range, `InvalidateCacheAt(a, len)`
returns the translator as it was. Every block, and so every block whose
footprint does not meet the range, keeps its slot, start address, IR and
constants, and every lookup returns what it returned before. -/
theorem InvalidateCacheAt_frame (j : IRJit) (a : Nat) (len : Int) :
    InvalidateCacheAt j a len = j ∧
      (InvalidateCacheAt j a len).blocks_.blocks_ = j.blocks_.blocks_ ∧
      (∀ i, (InvalidateCacheAt j a len).blocks_.GetBlock i = j.blocks_.GetBlock i) ∧
      (∀ x, (InvalidateCacheAt j a len).blocks_.lookup x = j.blocks_.lookup x) :=
  ⟨rfl, rfl, fun _ => rfl, fun _ => rfl⟩

/-- An `int` result inside the 32-bit range is stored as it is. -/
theorem wrapInt_of_range (x : Int) (h : -2 ^ 31 ≤ x ∧ x < 2 ^ 31) : wrapInt x = x := by
  unfold wrapInt
  omega

/-- At `INT_MAX` the increment of `js.numInstructions` in `EatInstruction`
wraps to `INT_MIN`, as the 32-bit `int` of the source does. -/
theorem EatInstruction_counter_wraps :
    jitCounterMax.js.numInstructions = 2 ^ 31 - 1 ∧
      (EatInstruction envEnd jitCounterMax ⟨0⟩).js.numInstructions = -2 ^ 31 := by
  refine ⟨by decide, by decide⟩

/-- C20: for every opcode and every compiler state, whatever the info bits
of the opcode (`DELAYSLOT` included) and whatever `js.inDelaySlot`,
`EatInstruction(op)` returns (it has no failing path) with
`js.numInstructions` incremented and `js.downcountAmount` increased by the
cycle estimate of `op`, both as 32-bit `int`s, and `js.compilerPC` four
larger modulo `2 ^ 32`. Whenever the `int` increment does not overflow,
`js.numInstructions` is exactly one larger, and whenever the `int` addition
does not overflow, `js.downcountAmount` is exactly larger by the estimate.
The IR buffer, `js.inDelaySlot`, `js.compiling`, the block cache, the CPU
state and the prefix fields are as they were. -/
theorem EatInstruction_advances (env : Env) (j : IRJit) (op : MIPSOpcode) :
    (EatInstruction env j op).js.numInstructions = wrapInt (j.js.numInstructions + 1) ∧
      (EatInstruction env j op).js.compilerPC = (j.js.compilerPC + 4) % 2 ^ 32 ∧
      (EatInstruction env j op).js.downcountAmount
        = wrapInt (j.js.downcountAmount + env.MIPSGetInstructionCycleEstimate op) ∧
      (-2 ^ 31 ≤ j.js.numInstructions ∧ j.js.numInstructions < 2 ^ 31 - 1 →
        (EatInstruction env j op).js.numInstructions = j.js.numInstructions + 1) ∧
      (-2 ^ 31 ≤ j.js.downcountAmount + env.MIPSGetInstructionCycleEstimate op ∧
          j.js.downcountAmount + env.MIPSGetInstructionCycleEstimate op < 2 ^ 31 →
        (EatInstruction env j op).js.downcountAmount
          = j.js.downcountAmount + env.MIPSGetInstructionCycleEstimate op) ∧
      (EatInstruction env j op).ir = j.ir ∧
      (EatInstruction env j op).js.inDelaySlot = j.js.inDelaySlot ∧
      (EatInstruction env j op).js.compiling = j.js.compiling ∧
      (EatInstruction env j op).blocks_ = j.blocks_ ∧
      (EatInstruction env j op).mips_ = j.mips_ ∧
      (EatInstruction env j op).js.prefixRegs = j.js.prefixRegs :=
  ⟨rfl, rfl, rfl,
    fun h => wrapInt_of_range (j.js.numInstructions + 1) ⟨by omega, by omega⟩,
    fun h => wrapInt_of_range _ h,
    rfl, rfl, rfl, rfl, rfl, rfl⟩

/-- Witness of `EatInstruction_advances`: a branch opcode eaten inside a
delay slot, both policy violations at once, with 5 instructions counted and
a downcount of 7. The counter becomes 6, the position `0x08000018`, the
downcount 8; `js.inDelaySlot` stays set and no IR is written. -/
theorem EatInstruction_advances_witness :
    envBranch.MIPSGetInfo ⟨0x1000FFFF⟩ &&& envBranch.DELAYSLOT ≠ 0 ∧
      jitInDelaySlot.js.inDelaySlot = true ∧
      (-2 ^ 31 ≤ jitInDelaySlot.js.numInstructions ∧
        jitInDelaySlot.js.numInstructions < 2 ^ 31 - 1) ∧
      (-2 ^ 31 ≤ jitInDelaySlot.js.downcountAmount
          + envBranch.MIPSGetInstructionCycleEstimate ⟨0x1000FFFF⟩ ∧
        jitInDelaySlot.js.downcountAmount
          + envBranch.MIPSGetInstructionCycleEstimate ⟨0x1000FFFF⟩ < 2 ^ 31) ∧
      (EatInstruction envBranch jitInDelaySlot ⟨0x1000FFFF⟩).js.numInstructions = 6 ∧
      (EatInstruction envBranch jitInDelaySlot ⟨0x1000FFFF⟩).js.compilerPC = 0x08000018 ∧
      (EatInstruction envBranch jitInDelaySlot ⟨0x1000FFFF⟩).js.downcountAmount = 8 ∧
      (EatInstruction envBranch jitInDelaySlot ⟨0x1000FFFF⟩).js.inDelaySlot = true ∧
      (EatInstruction envBranch jitInDelaySlot ⟨0x1000FFFF⟩).ir = jitInDelaySlot.ir :=
  ⟨by decide, rfl, by decide, by decide,
    (EatInstruction_advances envBranch jitInDelaySlot ⟨0x1000FFFF⟩).2.2.2.1 (by decide),
    (EatInstruction_advances envBranch jitInDelaySlot ⟨0x1000FFFF⟩).2.1,
    (EatInstruction_advances envBranch jitInDelaySlot ⟨0x1000FFFF⟩).2.2.2.2.1 (by decide),
    (EatInstruction_advances envBranch jitInDelaySlot ⟨0x1000FFFF⟩).2.2.2.2.2.2.1,
    (EatInstruction_advances envBranch jitInDelaySlot ⟨0x1000FFFF⟩).2.2.2.2.2.1⟩

/-! ## Flushing the prefixes -/

/-- Clearing the dirty bits leaves none of them set. -/
theorem clearBits_land (flag bits : Nat) (hb : bits < 2 ^ 32) :
    clearBits flag bits &&& bits = 0 := by
  apply Nat.eq_of_testBit_eq
  intro i
  have hm : (0xFFFFFFFF : Nat) = 2 ^ 32 - 1 := by norm_num
  simp only [clearBits, hm, Nat.testBit_and, Nat.testBit_xor, Nat.testBit_two_pow_sub_one,
    Nat.zero_testBit]
  by_cases hi : i < 32
  · cases bits.testBit i <;> simp [hi]
  · have hbi : bits.testBit i = false :=
      Nat.testBit_lt_two_pow (lt_of_lt_of_le hb
        (Nat.pow_le_pow_right (by norm_num) (Nat.le_of_not_lt hi)))
    simp [hbi]

/-- Clearing the dirty bits keeps every other bit of a 32-bit flag. -/
theorem clearBits_testBit (flag bits i : Nat) (hi : i < 32) (hb : bits.testBit i = false) :
    (clearBits flag bits).testBit i = flag.testBit i := by
  have hm : (0xFFFFFFFF : Nat) = 2 ^ 32 - 1 := by norm_num
  unfold clearBits
  rw [hm, Nat.testBit_and, Nat.testBit_xor, Nat.testBit_two_pow_sub_one, hb]
  simp [hi]

/-- An entry of the pool keeps its index when the pool is extended. -/
theorem get?_append_some {α : Type} (l t : List α) (k : Nat) (v : α)
    (h : l.get? k = some v) : (l ++ t).get? k = some v := by
  have hk : k < l.length := by
    by_contra hn
    rw [List.get?_eq_none.2 (Nat.le_of_not_lt hn)] at h
    exact absurd h (by simp)
  rw [List.get?_eq_getElem?] at h ⊢
  rw [List.getElem?_append_left hk]
  exact h

/-- `FlushPrefixV` is its three blocks, in the order S, T, D. -/
theorem FlushPrefixV_stages (env : Env) (j : IRJit) :
    FlushPrefixV env j = FlushPrefixV_D env (FlushPrefixV_T env (FlushPrefixV_S env j)) := rfl

/-- The S block: one `SetCtrlVFPU` naming `VFPU_CTRL_SPREFIX` when the S flag
is dirty, nothing otherwise; only the S flag changes in the compiler
state. -/
theorem FlushPrefixV_S_spec (env : Env) (j : IRJit) :
    ∃ k, (FlushPrefixV_S env j).ir.insts_ = j.ir.insts_ ++
        (if j.js.prefixSFlag &&& env.PREFIX_DIRTY ≠ 0
          then [⟨IROp.SetCtrlVFPU, env.VFPU_CTRL_SPREFIX, k, 0⟩] else []) ∧
      (j.js.prefixSFlag &&& env.PREFIX_DIRTY ≠ 0 →
        (FlushPrefixV_S env j).ir.constPool_.get? k = some j.js.prefixS) ∧
      (∃ t, (FlushPrefixV_S env j).ir.constPool_ = j.ir.constPool_ ++ t) ∧
      (FlushPrefixV_S env j).js = { j.js with
        prefixSFlag := if j.js.prefixSFlag &&& env.PREFIX_DIRTY ≠ 0
          then clearBits j.js.prefixSFlag env.PREFIX_DIRTY else j.js.prefixSFlag } := by
  obtain ⟨hi, hk, t, ht⟩ := AddConstant_spec j.ir j.js.prefixS
  by_cases hd : j.js.prefixSFlag &&& env.PREFIX_DIRTY ≠ 0
  · refine ⟨(j.ir.AddConstant j.js.prefixS).1, ?_, ?_, ⟨t, ?_⟩, ?_⟩
    · simp [FlushPrefixV_S, hd, IRWriter.Write, hi]
    · intro _
      simpa [FlushPrefixV_S, hd, IRWriter.Write] using hk
    · simpa [FlushPrefixV_S, hd, IRWriter.Write] using ht
    · simp [FlushPrefixV_S, hd]
  · refine ⟨0, ?_, fun h => absurd h hd, ⟨[], ?_⟩, ?_⟩
    · simp [FlushPrefixV_S, hd]
    · simp [FlushPrefixV_S, hd]
    · simp [FlushPrefixV_S, hd]

/-- The T block, as `FlushPrefixV_S_spec`. -/
theorem FlushPrefixV_T_spec (env : Env) (j : IRJit) :
    ∃ k, (FlushPrefixV_T env j).ir.insts_ = j.ir.insts_ ++
        (if j.js.prefixTFlag &&& env.PREFIX_DIRTY ≠ 0
          then [⟨IROp.SetCtrlVFPU, env.VFPU_CTRL_TPREFIX, k, 0⟩] else []) ∧
      (j.js.prefixTFlag &&& env.PREFIX_DIRTY ≠ 0 →
        (FlushPrefixV_T env j).ir.constPool_.get? k = some j.js.prefixT) ∧
      (∃ t, (FlushPrefixV_T env j).ir.constPool_ = j.ir.constPool_ ++ t) ∧
      (FlushPrefixV_T env j).js = { j.js with
        prefixTFlag := if j.js.prefixTFlag &&& env.PREFIX_DIRTY ≠ 0
          then clearBits j.js.prefixTFlag env.PREFIX_DIRTY else j.js.prefixTFlag } := by
  obtain ⟨hi, hk, t, ht⟩ := AddConstant_spec j.ir j.js.prefixT
  by_cases hd : j.js.prefixTFlag &&& env.PREFIX_DIRTY ≠ 0
  · refine ⟨(j.ir.AddConstant j.js.prefixT).1, ?_, ?_, ⟨t, ?_⟩, ?_⟩
    · simp [FlushPrefixV_T, hd, IRWriter.Write, hi]
    · intro _
      simpa [FlushPrefixV_T, hd, IRWriter.Write] using hk
    · simpa [FlushPrefixV_T, hd, IRWriter.Write] using ht
    · simp [FlushPrefixV_T, hd]
  · refine ⟨0, ?_, fun h => absurd h hd, ⟨[], ?_⟩, ?_⟩
    · simp [FlushPrefixV_T, hd]
    · simp [FlushPrefixV_T, hd]
    · simp [FlushPrefixV_T, hd]

/-- The D block, as `FlushPrefixV_S_spec`. -/
theorem FlushPrefixV_D_spec (env : Env) (j : IRJit) :
    ∃ k, (FlushPrefixV_D env j).ir.insts_ = j.ir.insts_ ++
        (if j.js.prefixDFlag &&& env.PREFIX_DIRTY ≠ 0
          then [⟨IROp.SetCtrlVFPU, env.VFPU_CTRL_DPREFIX, k, 0⟩] else []) ∧
      (j.js.prefixDFlag &&& env.PREFIX_DIRTY ≠ 0 →
        (FlushPrefixV_D env j).ir.constPool_.get? k = some j.js.prefixD) ∧
      (∃ t, (FlushPrefixV_D env j).ir.constPool_ = j.ir.constPool_ ++ t) ∧
      (FlushPrefixV_D env j).js = { j.js with
        prefixDFlag := if j.js.prefixDFlag &&& env.PREFIX_DIRTY ≠ 0
          then clearBits j.js.prefixDFlag env.PREFIX_DIRTY else j.js.prefixDFlag } := by
  obtain ⟨hi, hk, t, ht⟩ := AddConstant_spec j.ir j.js.prefixD
  by_cases hd : j.js.prefixDFlag &&& env.PREFIX_DIRTY ≠ 0
  · refine ⟨(j.ir.AddConstant j.js.prefixD).1, ?_, ?_, ⟨t, ?_⟩, ?_⟩
    · simp [FlushPrefixV_D, hd, IRWriter.Write, hi]
    · intro _
      simpa [FlushPrefixV_D, hd, IRWriter.Write] using hk
    · simpa [FlushPrefixV_D, hd, IRWriter.Write] using ht
    · simp [FlushPrefixV_D, hd]
  · refine ⟨0, ?_, fun h => absurd h hd, ⟨[], ?_⟩, ?_⟩
    · simp [FlushPrefixV_D, hd]
    · simp [FlushPrefixV_D, hd]
    · simp [FlushPrefixV_D, hd]

/-- The compiler state after `FlushPrefixV`: each flag has its dirty bits
cleared when it was dirty and is as it was otherwise; nothing else
changes. -/
theorem FlushPrefixV_js (env : Env) (j : IRJit) :
    (FlushPrefixV env j).js = { j.js with
      prefixSFlag := if j.js.prefixSFlag &&& env.PREFIX_DIRTY ≠ 0
        then clearBits j.js.prefixSFlag env.PREFIX_DIRTY else j.js.prefixSFlag,
      prefixTFlag := if j.js.prefixTFlag &&& env.PREFIX_DIRTY ≠ 0
        then clearBits j.js.prefixTFlag env.PREFIX_DIRTY else j.js.prefixTFlag,
      prefixDFlag := if j.js.prefixDFlag &&& env.PREFIX_DIRTY ≠ 0
        then clearBits j.js.prefixDFlag env.PREFIX_DIRTY else j.js.prefixDFlag } := by
  obtain ⟨-, -, -, -, hS⟩ := FlushPrefixV_S_spec env j
  obtain ⟨-, -, -, -, hT⟩ := FlushPrefixV_T_spec env (FlushPrefixV_S env j)
  obtain ⟨-, -, -, -, hD⟩ := FlushPrefixV_D_spec env (FlushPrefixV_T env (FlushPrefixV_S env j))
  rw [FlushPrefixV_stages, hD, hT, hS]

/-- After `FlushPrefixV` no flag has a dirty bit. -/
theorem FlushPrefixV_clean (env : Env) (j : IRJit) (hb : env.PREFIX_DIRTY < 2 ^ 32) :
    (FlushPrefixV env j).js.prefixSFlag &&& env.PREFIX_DIRTY = 0 ∧
      (FlushPrefixV env j).js.prefixTFlag &&& env.PREFIX_DIRTY = 0 ∧
      (FlushPrefixV env j).js.prefixDFlag &&& env.PREFIX_DIRTY = 0 := by
  rw [FlushPrefixV_js]
  refine ⟨?_, ?_, ?_⟩
  · by_cases hd : j.js.prefixSFlag &&& env.PREFIX_DIRTY ≠ 0
    · simp [hd, clearBits_land _ _ hb]
    · have h0 : j.js.prefixSFlag &&& env.PREFIX_DIRTY = 0 := not_not.mp hd
      simp [h0]
  · by_cases hd : j.js.prefixTFlag &&& env.PREFIX_DIRTY ≠ 0
    · simp [hd, clearBits_land _ _ hb]
    · have h0 : j.js.prefixTFlag &&& env.PREFIX_DIRTY = 0 := not_not.mp hd
      simp [h0]
  · by_cases hd : j.js.prefixDFlag &&& env.PREFIX_DIRTY ≠ 0
    · simp [hd, clearBits_land _ _ hb]
    · have h0 : j.js.prefixDFlag &&& env.PREFIX_DIRTY = 0 := not_not.mp hd
      simp [h0]

/-- With no flag dirty `FlushPrefixV` does nothing. -/
theorem FlushPrefixV_of_clean (env : Env) (j : IRJit)
    (hS : j.js.prefixSFlag &&& env.PREFIX_DIRTY = 0)
    (hT : j.js.prefixTFlag &&& env.PREFIX_DIRTY = 0)
    (hD : j.js.prefixDFlag &&& env.PREFIX_DIRTY = 0) :
    FlushPrefixV env j = j := by
  simp [FlushPrefixV, hS, hT, hD]

/-- C12: let `PREFIX_DIRTY` be a 32-bit constant. For every compiler state,
`FlushPrefixV` appends to the IR already written one `SetCtrlVFPU` for each
of the S, T and D categories whose flag has `PREFIX_DIRTY` set and nothing
else, in the order S, T, D; each names the control register of its category
and an index at which the constant pool holds the prefix value of that
category; the pool is only extended. On return no flag has `PREFIX_DIRTY`
set, every other bit of the three 32-bit flags is as it was, and the three
prefix values are as they were. -/
theorem FlushPrefixV_flushes (env : Env) (j : IRJit) (hb : env.PREFIX_DIRTY < 2 ^ 32) :
    ∃ kS kT kD,
      (FlushPrefixV env j).ir.insts_ = j.ir.insts_ ++
          (if j.js.prefixSFlag &&& env.PREFIX_DIRTY ≠ 0
            then [⟨IROp.SetCtrlVFPU, env.VFPU_CTRL_SPREFIX, kS, 0⟩] else []) ++
          (if j.js.prefixTFlag &&& env.PREFIX_DIRTY ≠ 0
            then [⟨IROp.SetCtrlVFPU, env.VFPU_CTRL_TPREFIX, kT, 0⟩] else []) ++
          (if j.js.prefixDFlag &&& env.PREFIX_DIRTY ≠ 0
            then [⟨IROp.SetCtrlVFPU, env.VFPU_CTRL_DPREFIX, kD, 0⟩] else []) ∧
        (j.js.prefixSFlag &&& env.PREFIX_DIRTY ≠ 0 →
          (FlushPrefixV env j).ir.constPool_.get? kS = some j.js.prefixS) ∧
        (j.js.prefixTFlag &&& env.PREFIX_DIRTY ≠ 0 →
          (FlushPrefixV env j).ir.constPool_.get? kT = some j.js.prefixT) ∧
        (j.js.prefixDFlag &&& env.PREFIX_DIRTY ≠ 0 →
          (FlushPrefixV env j).ir.constPool_.get? kD = some j.js.prefixD) ∧
        (∃ t, (FlushPrefixV env j).ir.constPool_ = j.ir.constPool_ ++ t) ∧
        (FlushPrefixV env j).js.prefixSFlag &&& env.PREFIX_DIRTY = 0 ∧
        (FlushPrefixV env j).js.prefixTFlag &&& env.PREFIX_DIRTY = 0 ∧
        (FlushPrefixV env j).js.prefixDFlag &&& env.PREFIX_DIRTY = 0 ∧
        (∀ i, i < 32 → env.PREFIX_DIRTY.testBit i = false →
          (FlushPrefixV env j).js.prefixSFlag.testBit i = j.js.prefixSFlag.testBit i ∧
          (FlushPrefixV env j).js.prefixTFlag.testBit i = j.js.prefixTFlag.testBit i ∧
          (FlushPrefixV env j).js.prefixDFlag.testBit i = j.js.prefixDFlag.testBit i) ∧
        (FlushPrefixV env j).js.prefixS = j.js.prefixS ∧
        (FlushPrefixV env j).js.prefixT = j.js.prefixT ∧
        (FlushPrefixV env j).js.prefixD = j.js.prefixD := by
  obtain ⟨kS, hiS, hkS, ⟨tS, htS⟩, hjsS⟩ := FlushPrefixV_S_spec env j
  obtain ⟨kT, hiT, hkT, ⟨tT, htT⟩, hjsT⟩ := FlushPrefixV_T_spec env (FlushPrefixV_S env j)
  obtain ⟨kD, hiD, hkD, ⟨tD, htD⟩, hjsD⟩ :=
    FlushPrefixV_D_spec env (FlushPrefixV_T env (FlushPrefixV_S env j))
  have eT : (FlushPrefixV_S env j).js.prefixTFlag = j.js.prefixTFlag := by rw [hjsS]
  have eTv : (FlushPrefixV_S env j).js.prefixT = j.js.prefixT := by rw [hjsS]
  have eD : (FlushPrefixV_T env (FlushPrefixV_S env j)).js.prefixDFlag = j.js.prefixDFlag := by
    rw [hjsT, hjsS]
  have eDv : (FlushPrefixV_T env (FlushPrefixV_S env j)).js.prefixD = j.js.prefixD := by
    rw [hjsT, hjsS]
  rw [eT] at hiT hkT
  rw [eTv] at hkT
  rw [eD] at hiD hkD
  rw [eDv] at hkD
  obtain ⟨cS, cT, cD⟩ := FlushPrefixV_clean env j hb
  refine ⟨kS, kT, kD, ?_, ?_, ?_, hkD, ⟨tS ++ tT ++ tD, ?_⟩, cS, cT, cD, ?_, ?_, ?_, ?_⟩
  · rw [FlushPrefixV_stages, hiD, hiT, hiS]
  · intro hd
    rw [FlushPrefixV_stages, htD, htT]
    exact get?_append_some _ _ _ _ (get?_append_some _ _ _ _ (hkS hd))
  · intro hd
    rw [FlushPrefixV_stages, htD]
    exact get?_append_some _ _ _ _ (hkT hd)
  · rw [FlushPrefixV_stages, htD, htT, htS]
    simp
  · intro i hi hbit
    rw [FlushPrefixV_js]
    refine ⟨?_, ?_, ?_⟩
    · by_cases hd : j.js.prefixSFlag &&& env.PREFIX_DIRTY ≠ 0
      · simp [hd, clearBits_testBit _ _ _ hi hbit]
      · simp [not_not.mp hd]
    · by_cases hd : j.js.prefixTFlag &&& env.PREFIX_DIRTY ≠ 0
      · simp [hd, clearBits_testBit _ _ _ hi hbit]
      · simp [not_not.mp hd]
    · by_cases hd : j.js.prefixDFlag &&& env.PREFIX_DIRTY ≠ 0
      · simp [hd, clearBits_testBit _ _ _ hi hbit]
      · simp [not_not.mp hd]
  · rw [FlushPrefixV_js]
  · rw [FlushPrefixV_js]
  · rw [FlushPrefixV_js]

/-- Witness of `FlushPrefixV_flushes`: `jitDirty` under `envEnd`, where the
S and D flags are dirty and the T flag is clean. -/
theorem FlushPrefixV_flushes_witness :
    ∃ kS kT kD,
      (FlushPrefixV envEnd jitDirty).ir.insts_ = jitDirty.ir.insts_ ++
          (if jitDirty.js.prefixSFlag &&& envEnd.PREFIX_DIRTY ≠ 0
            then [⟨IROp.SetCtrlVFPU, envEnd.VFPU_CTRL_SPREFIX, kS, 0⟩] else []) ++
          (if jitDirty.js.prefixTFlag &&& envEnd.PREFIX_DIRTY ≠ 0
            then [⟨IROp.SetCtrlVFPU, envEnd.VFPU_CTRL_TPREFIX, kT, 0⟩] else []) ++
          (if jitDirty.js.prefixDFlag &&& envEnd.PREFIX_DIRTY ≠ 0
            then [⟨IROp.SetCtrlVFPU, envEnd.VFPU_CTRL_DPREFIX, kD, 0⟩] else []) ∧
        (jitDirty.js.prefixSFlag &&& envEnd.PREFIX_DIRTY ≠ 0 →
          (FlushPrefixV envEnd jitDirty).ir.constPool_.get? kS = some jitDirty.js.prefixS) ∧
        (jitDirty.js.prefixTFlag &&& envEnd.PREFIX_DIRTY ≠ 0 →
          (FlushPrefixV envEnd jitDirty).ir.constPool_.get? kT = some jitDirty.js.prefixT) ∧
        (jitDirty.js.prefixDFlag &&& envEnd.PREFIX_DIRTY ≠ 0 →
          (FlushPrefixV envEnd jitDirty).ir.constPool_.get? kD = some jitDirty.js.prefixD) ∧
        (∃ t, (FlushPrefixV envEnd jitDirty).ir.constPool_ = jitDirty.ir.constPool_ ++ t) ∧
        (FlushPrefixV envEnd jitDirty).js.prefixSFlag &&& envEnd.PREFIX_DIRTY = 0 ∧
        (FlushPrefixV envEnd jitDirty).js.prefixTFlag &&& envEnd.PREFIX_DIRTY = 0 ∧
        (FlushPrefixV envEnd jitDirty).js.prefixDFlag &&& envEnd.PREFIX_DIRTY = 0 ∧
        (∀ i, i < 32 → envEnd.PREFIX_DIRTY.testBit i = false →
          (FlushPrefixV envEnd jitDirty).js.prefixSFlag.testBit i = jitDirty.js.prefixSFlag.testBit i ∧
          (FlushPrefixV envEnd jitDirty).js.prefixTFlag.testBit i = jitDirty.js.prefixTFlag.testBit i ∧
          (FlushPrefixV envEnd jitDirty).js.prefixDFlag.testBit i = jitDirty.js.prefixDFlag.testBit i) ∧
        (FlushPrefixV envEnd jitDirty).js.prefixS = jitDirty.js.prefixS ∧
        (FlushPrefixV envEnd jitDirty).js.prefixT = jitDirty.js.prefixT ∧
        (FlushPrefixV envEnd jitDirty).js.prefixD = jitDirty.js.prefixD :=
  FlushPrefixV_flushes envEnd jitDirty (by decide)

/-- C19: let `PREFIX_DIRTY` be a 32-bit constant. For every compiler state,
a second `FlushPrefixV` (or `FlushAll`) right after a first one returns the
translator exactly as the first call left it: no IR instruction and no
constant is appended and no prefix field changes. -/
theorem FlushPrefixV_idempotent (env : Env) (j : IRJit) (hb : env.PREFIX_DIRTY < 2 ^ 32) :
    FlushPrefixV env (FlushPrefixV env j) = FlushPrefixV env j ∧
      FlushAll env (FlushAll env j) = FlushAll env j ∧
      (FlushPrefixV env (FlushPrefixV env j)).ir.insts_ = (FlushPrefixV env j).ir.insts_ ∧
      (FlushPrefixV env (FlushPrefixV env j)).ir.constPool_
        = (FlushPrefixV env j).ir.constPool_ ∧
      (FlushPrefixV env (FlushPrefixV env j)).js.prefixRegs
        = (FlushPrefixV env j).js.prefixRegs := by
  obtain ⟨cS, cT, cD⟩ := FlushPrefixV_clean env j hb
  have h := FlushPrefixV_of_clean env (FlushPrefixV env j) cS cT cD
  refine ⟨h, h, ?_, ?_, ?_⟩ <;> rw [h]

/-- Witness of `FlushPrefixV_idempotent`: `jitDirty` under `envEnd`. -/
theorem FlushPrefixV_idempotent_witness :
    FlushPrefixV envEnd (FlushPrefixV envEnd jitDirty) = FlushPrefixV envEnd jitDirty ∧
      FlushAll envEnd (FlushAll envEnd jitDirty) = FlushAll envEnd jitDirty ∧
      (FlushPrefixV envEnd (FlushPrefixV envEnd jitDirty)).ir.insts_
        = (FlushPrefixV envEnd jitDirty).ir.insts_ ∧
      (FlushPrefixV envEnd (FlushPrefixV envEnd jitDirty)).ir.constPool_
        = (FlushPrefixV envEnd jitDirty).ir.constPool_ ∧
      (FlushPrefixV envEnd (FlushPrefixV envEnd jitDirty)).js.prefixRegs
        = (FlushPrefixV envEnd jitDirty).js.prefixRegs :=
  FlushPrefixV_idempotent envEnd jitDirty (by decide)

/-! ## Sealing a block -/

/-- C13, refuted as stated: under `envDirty` the rule that ends the loop
leaves the S flag dirty (`0x11`); `DoJit` seals the block with an empty IR,
so with no `SetCtrlVFPU` in it, and returns with the S flag still dirty. -/
theorem DoJit_seals_dirty_prefix :
    firstPass envDirty 1 0x08000000 jitEmpty = .ok jitDirtySealed ∧
      jitDirtySealed.js.prefixSFlag &&& envDirty.PREFIX_DIRTY = 0x10 ∧
      jitDirtySealed.blocks_.GetBlock 0 = some ⟨0x08000000, [], []⟩ := by
  refine ⟨rfl, ?_, ?_⟩ <;> decide

/-- C13, amended: for every block sealed by `DoJit`, the seal adds no flush.
The compiler state, and so every prefix flag and value, and the IR buffer
are after `DoJit` exactly as the loop left them, and what is stored in the
block through `SetInstructions` is that IR buffer; a flag that is dirty when
the loop ends is dirty after the seal. -/
theorem DoJit_seals_without_flush (env : Env) (fuel a b : Nat) (j j1 : IRJit)
    (h : DoJit env fuel a b j = .ok j1) :
    ∃ jl, DoJitLoop env fuel (DoJitInit env j) = .ok jl ∧
      j1.js = jl.js ∧ j1.ir = jl.ir ∧
      j1.blocks_ = jl.blocks_.setInstructionsAt b jl.ir.GetInstructions jl.ir.GetConstants ∧
      j1.js.prefixSFlag &&& env.PREFIX_DIRTY = jl.js.prefixSFlag &&& env.PREFIX_DIRTY ∧
      j1.js.prefixTFlag &&& env.PREFIX_DIRTY = jl.js.prefixTFlag &&& env.PREFIX_DIRTY ∧
      j1.js.prefixDFlag &&& env.PREFIX_DIRTY = jl.js.prefixDFlag &&& env.PREFIX_DIRTY := by
  obtain ⟨jl, hloop, hseal⟩ := DoJit_ok h
  obtain ⟨hjs, hir, -, -, hb⟩ := DoJitSeal_ok hseal
  exact ⟨jl, hloop, hjs, hir, hb, by rw [hjs], by rw [hjs], by rw [hjs]⟩

/-- Witness of `DoJit_seals_without_flush`: the pass under `envDirty` into
block 0 of a one-slot cache. -/
theorem DoJit_seals_without_flush_witness :
    ∃ jl, DoJitLoop envDirty 1 (DoJitInit envDirty
        { jitEmpty with blocks_ := (jitEmpty.blocks_.AllocateBlock 0x08000000).2 }) = .ok jl ∧
      jitDirtySealed.js = jl.js ∧ jitDirtySealed.ir = jl.ir ∧
      jitDirtySealed.blocks_
        = jl.blocks_.setInstructionsAt 0 jl.ir.GetInstructions jl.ir.GetConstants ∧
      jitDirtySealed.js.prefixSFlag &&& envDirty.PREFIX_DIRTY
        = jl.js.prefixSFlag &&& envDirty.PREFIX_DIRTY ∧
      jitDirtySealed.js.prefixTFlag &&& envDirty.PREFIX_DIRTY
        = jl.js.prefixTFlag &&& envDirty.PREFIX_DIRTY ∧
      jitDirtySealed.js.prefixDFlag &&& envDirty.PREFIX_DIRTY
        = jl.js.prefixDFlag &&& envDirty.PREFIX_DIRTY :=
  DoJit_seals_without_flush envDirty 1 0x08000000 0
    { jitEmpty with blocks_ := (jitEmpty.blocks_.AllocateBlock 0x08000000).2 }
    jitDirtySealed rfl

/-! ## Forward progress of `DoJit` -/

/-- The opcode `GetOffsetInstruction(1)` reads is the one at
`js.compilerPC + 4`, modulo `2 ^ 32`. -/
theorem GetOffsetInstruction_one (env : Env) (s : IRJit) :
    GetOffsetInstruction env s 1 = env.Read_Instruction ((s.js.compilerPC + 4) % 2 ^ 32) := by
  have hx : (((s.js.compilerPC : Int) + 4 * 1) % 2 ^ 32).toNat
      = (s.js.compilerPC + 4) % 2 ^ 32 := by omega
  unfold GetOffsetInstruction GetCompilerPC
  rw [hx]

/-- When a rule entered with `js.inDelaySlot` clear returns with it clear,
so does the loop of `DoJit`. -/
theorem DoJitLoop_inDelaySlot {env : Env} (hr : RulesLeaveDelaySlotClear env)
    {fuel : Nat} {s s1 : IRJit} (hs : s.js.inDelaySlot = false)
    (h : DoJitLoop env fuel s = .ok s1) : s1.js.inDelaySlot = false := by
  refine DoJitLoop_invariant (fun t => t.js.inDelaySlot = false) ?_ fuel s s1 hs h
  intro t t1 ht hstep
  obtain ⟨t2, hrule, rfl⟩ := DoJitStep_ok hstep
  have := hr _ _ _ hrule (by simpa using ht)
  simpa using this

/-- C15: for every compiler state, `CompileDelaySlot` runs the rule of the
opcode at `js.compilerPC + 4` on the state with `js.inDelaySlot` set and
nothing else changed, and returns what the rule returned with
`js.inDelaySlot` cleared and nothing else changed: `js.compilerPC`,
`js.numInstructions` and `js.downcountAmount` are passed to the rule and
returned from it as they are. `DoJit` clears the flag before its loop, and
when every rule entered with the flag clear returns with it clear (rules set
it only through `CompileDelaySlot`), a returning `DoJit` has `js.inDelaySlot`
false. -/
theorem CompileDelaySlot_inDelaySlot (env : Env) (fuel a b : Nat) (j j1 : IRJit)
    (hr : RulesLeaveDelaySlotClear env) (h : DoJit env fuel a b j = .ok j1) :
    (∀ s, CompileDelaySlot env s =
        match env.MIPSCompileOp (env.Read_Instruction ((s.js.compilerPC + 4) % 2 ^ 32))
            { s with js := { s.js with inDelaySlot := true } } with
        | .error e => .error e
        | .ok s2 => .ok { s2 with js := { s2.js with inDelaySlot := false } }) ∧
      (∀ s r, CompileDelaySlot env s = .ok r →
        r.js.inDelaySlot = false ∧
        ∃ s2, env.MIPSCompileOp (env.Read_Instruction ((s.js.compilerPC + 4) % 2 ^ 32))
            { s with js := { s.js with inDelaySlot := true } } = .ok s2 ∧
          r.js.compilerPC = s2.js.compilerPC ∧
          r.js.numInstructions = s2.js.numInstructions ∧
          r.js.downcountAmount = s2.js.downcountAmount ∧
          r.ir = s2.ir) ∧
      (DoJitInit env j).js.inDelaySlot = false ∧
      j1.js.inDelaySlot = false := by
  have hshape : ∀ s, CompileDelaySlot env s =
      match env.MIPSCompileOp (env.Read_Instruction ((s.js.compilerPC + 4) % 2 ^ 32))
          { s with js := { s.js with inDelaySlot := true } } with
      | .error e => .error e
      | .ok s2 => .ok { s2 with js := { s2.js with inDelaySlot := false } } := by
    intro s
    unfold CompileDelaySlot
    simp only
    rw [GetOffsetInstruction_one]
  have hinit : (DoJitInit env j).js.inDelaySlot = false := by
    simp [DoJitInit, JitState.PrefixStart, JitState.withPrefixRegs]
  refine ⟨hshape, ?_, hinit, ?_⟩
  · intro s r hs
    rw [hshape s] at hs
    split at hs
    · exact absurd hs (by simp)
    · rename_i s2 hs2
      injection hs with hs
      subst hs
      exact ⟨rfl, s2, hs2, rfl, rfl, rfl, rfl⟩
  · obtain ⟨jl, hloop, hseal⟩ := DoJit_ok h
    obtain ⟨hjs, -⟩ := DoJitSeal_ok hseal
    rw [hjs]
    exact DoJitLoop_inDelaySlot hr hinit hloop

/-- The rule of `envEnd` does not write `js.inDelaySlot`. -/
theorem envEnd_leaves_delay_slot_clear : RulesLeaveDelaySlotClear envEnd := by
  intro op s s1 h hs
  simp only [envEnd, ruleEnd] at h
  injection h with h
  subst h
  exact hs

/-- Witness of `CompileDelaySlot_inDelaySlot`: under `envEnd`, the delay
slot of `jitOnce` (whose `js.compilerPC` is `0x08000004`) is compiled from
the opcode at `0x08000008`, and the pass that produced `jitOnce` ended with
the flag clear. -/
theorem CompileDelaySlot_inDelaySlot_witness :
    (CompileDelaySlot envEnd jitOnce =
        match envEnd.MIPSCompileOp (envEnd.Read_Instruction 0x08000008)
            { jitOnce with js := { jitOnce.js with inDelaySlot := true } } with
        | .error e => .error e
        | .ok s2 => .ok { s2 with js := { s2.js with inDelaySlot := false } }) ∧
      jitOnce.js.inDelaySlot = false :=
  have hw := CompileDelaySlot_inDelaySlot envEnd 1 0x08000000 0
    { jitEmpty with blocks_ := (jitEmpty.blocks_.AllocateBlock 0x08000000).2 }
    jitOnce envEnd_leaves_delay_slot_clear rfl
  ⟨hw.1 jitOnce, hw.2.2.2⟩

/-! ## Save and restore of the sticky flags -/

/-- C16: let `js.hasSetRounding` fit its one-byte field. `DoState` in write
mode appends to the stream the section version `2` and then
`js.startDefaultPrefix` and `js.hasSetRounding`, and nothing else: what is
written does not depend on the block cache. `DoState` in read mode on these
three words, run on any translator, returns with `js.startDefaultPrefix` and
`js.hasSetRounding` equal to the values at save time and has consumed exactly
the three words. -/
theorem DoState_round_trip (env env2 : Env) (j j2 : IRJit) (d rest : List Nat)
    (hu8 : j.js.hasSetRounding < 256) :
    (DoState env j ⟨.MODE_WRITE, d⟩).2.data
        = d ++ [2, (if j.js.startDefaultPrefix then 1 else 0), j.js.hasSetRounding] ∧
      (∀ c, (DoState env { j with blocks_ := c } ⟨.MODE_WRITE, d⟩).2
        = (DoState env j ⟨.MODE_WRITE, d⟩).2) ∧
      (DoState env2 j2 ⟨.MODE_READ,
          (DoState env j ⟨.MODE_WRITE, []⟩).2.data ++ rest⟩).1.js.startDefaultPrefix
        = j.js.startDefaultPrefix ∧
      (DoState env2 j2 ⟨.MODE_READ,
          (DoState env j ⟨.MODE_WRITE, []⟩).2.data ++ rest⟩).1.js.hasSetRounding
        = j.js.hasSetRounding ∧
      (DoState env2 j2 ⟨.MODE_READ,
          (DoState env j ⟨.MODE_WRITE, []⟩).2.data ++ rest⟩).2.data = rest := by
  have hw : ∀ d0, (DoState env j ⟨.MODE_WRITE, d0⟩).2.data
      = d0 ++ [2, (if j.js.startDefaultPrefix then 1 else 0), j.js.hasSetRounding] := by
    intro d0
    simp [DoState, PointerWrap.Section, PointerWrap.Do, PointerWrap.GetMode]
  have hmod : j.js.hasSetRounding % 256 = j.js.hasSetRounding := Nat.mod_eq_of_lt hu8
  refine ⟨hw d, ?_, ?_, ?_, ?_⟩
  · intro c
    simp [DoState, PointerWrap.Section, PointerWrap.Do, PointerWrap.GetMode]
  · rw [hw []]
    cases hb : j.js.startDefaultPrefix <;>
      simp [DoState, PointerWrap.Section, PointerWrap.Do, PointerWrap.GetMode]
  · rw [hw []]
    simp [DoState, PointerWrap.Section, PointerWrap.Do, PointerWrap.GetMode, hmod]
  · rw [hw []]
    simp [DoState, PointerWrap.Section, PointerWrap.Do, PointerWrap.GetMode]

/-- Witness of `DoState_round_trip`: the flags of `jitPopulated`
(`startDefaultPrefix` false, `hasSetRounding = 1`) saved and read back into
`jitDefaultPrefix`. -/
theorem DoState_round_trip_witness :
    (DoState envEnd jitPopulated ⟨.MODE_WRITE, []⟩).2.data = [2, 0, 1] ∧
      (DoState envEnd jitDefaultPrefix ⟨.MODE_READ, [2, 0, 1]⟩).1.js.startDefaultPrefix
        = false ∧
      (DoState envEnd jitDefaultPrefix ⟨.MODE_READ, [2, 0, 1]⟩).1.js.hasSetRounding = 1 ∧
      (DoState envEnd jitDefaultPrefix ⟨.MODE_READ, [2, 0, 1]⟩).2.data = [] :=
  have hw := DoState_round_trip envEnd envEnd jitPopulated jitDefaultPrefix [] []
    (by decide)
  ⟨hw.1, hw.2.2.1, hw.2.2.2.1, hw.2.2.2.2⟩

/-! ## The uneaten-prefix check of `Compile` -/

/-- C18, the code at the failing input: `Compile(0x08000100)` under
`envMayHave` on `jitDefaultPrefix`, whose cache holds the block at
`0x08000000`. After the pass `js.startDefaultPrefix` is true and
`js.MayHavePrefix()` holds. `Compile` returns within depth 1, so without a
nested invocation, with `js.startDefaultPrefix` false and with the old block
still in the cache next to the new one: no clear and no recompilation. -/
theorem Compile_uneaten_prefix_no_clean_slate :
    (firstPass envMayHave 1 0x08000100 jitDefaultPrefix).toOption.map
        (fun s => (s.js.startDefaultPrefix, s.js.MayHavePrefix envMayHave))
        = some (true, true) ∧
      Compile envMayHave 1 1 0x08000100 jitDefaultPrefix = .ok jitDefaultPrefixDone ∧
      jitDefaultPrefixDone.js.startDefaultPrefix = false ∧
      jitDefaultPrefixDone.blocks_.GetNumBlocks = 2 ∧
      jitDefaultPrefixDone.blocks_.lookup 0x08000000 = some blockAt8000000 := by
  refine ⟨?_, rfl, ?_, ?_, ?_⟩ <;> decide

/-! ## Rounding-mode operations -/

/-- C21: for every compiler state and every value of `force`,
`RestoreRoundingMode(force)` and `ApplyRoundingMode(force)` each append
exactly one IR operation of their own tag when `force` is true or
`js.hasSetRounding` is non-zero and append nothing otherwise, and
`UpdateRoundingMode` always appends exactly one `UpdateRoundingMode`
operation; none of the three changes the constant pool or the compiler
state. -/
theorem RoundingMode_gated (j : IRJit) (force : Bool) :
    (RestoreRoundingMode j force).ir.insts_ = j.ir.insts_ ++
        (if force = true ∨ j.js.hasSetRounding ≠ 0
          then [⟨IROp.RestoreRoundingMode, 0, 0, 0⟩] else []) ∧
      (ApplyRoundingMode j force).ir.insts_ = j.ir.insts_ ++
        (if force = true ∨ j.js.hasSetRounding ≠ 0
          then [⟨IROp.ApplyRoundingMode, 0, 0, 0⟩] else []) ∧
      (UpdateRoundingMode j).ir.insts_ = j.ir.insts_ ++ [⟨IROp.UpdateRoundingMode, 0, 0, 0⟩] ∧
      (RestoreRoundingMode j force).ir.constPool_ = j.ir.constPool_ ∧
      (ApplyRoundingMode j force).ir.constPool_ = j.ir.constPool_ ∧
      (UpdateRoundingMode j).ir.constPool_ = j.ir.constPool_ ∧
      (RestoreRoundingMode j force).js = j.js ∧
      (ApplyRoundingMode j force).js = j.js ∧
      (UpdateRoundingMode j).js = j.js := by
  unfold RestoreRoundingMode ApplyRoundingMode UpdateRoundingMode
  split_ifs <;> simp [IRWriter.Write]

/-! ## The IR dump of `DoJit` -/

end MIPSComp

namespace HLE

open MsgPipe

/-! ## The cleanup loop of the wait lists -/

/-- Putting `a` where `y` was and `y` in front permutes `a :: t`. -/
theorem cons_set_perm {α : Type} (a y : α) :
    ∀ (t : List α) (s : Nat), t.get? s = some y → (y :: t.set s a).Perm (a :: t) := by
  intro t
  induction t with
  | nil => intro s h; simp at h
  | cons b t ih =>
    intro s h
    cases s with
    | zero =>
      simp only [List.get?_cons_zero, Option.some.injEq] at h
      subst h
      exact List.Perm.swap a b t
    | succ s =>
      simp only [List.get?_cons_succ] at h
      have h1 := ih s h
      simp only [List.set_cons_succ]
      exact (List.Perm.swap b y _).trans (((h1.cons b)).trans (List.Perm.swap a b t))

/-- Swapping two elements of a list through two `set`s permutes it. -/
theorem set_set_perm {α : Type} :
    ∀ (v : List α) (i s : Nat) (x y : α), v.get? i = some x → v.get? s = some y →
      ((v.set i y).set s x).Perm v := by
  intro v
  induction v with
  | nil => intro i s x y h; simp at h
  | cons a t ih =>
    intro i s x y hi hs
    cases i with
    | zero =>
      simp only [List.get?_cons_zero, Option.some.injEq] at hi
      subst hi
      cases s with
      | zero =>
        simp only [List.get?_cons_zero, Option.some.injEq] at hs
        subst hs
        simp
      | succ s =>
        simp only [List.get?_cons_succ] at hs
        simp only [List.set_cons_zero, List.set_cons_succ]
        exact cons_set_perm a y t s hs
    | succ i =>
      simp only [List.get?_cons_succ] at hi
      cases s with
      | zero =>
        simp only [List.get?_cons_zero, Option.some.injEq] at hs
        subst hs
        simp only [List.set_cons_zero, List.set_cons_succ]
        exact cons_set_perm a x t i hi
      | succ s =>
        simp only [List.get?_cons_succ] at hs
        simp only [List.set_cons_succ]
        exact (ih i s x y hi hs).cons a

/-- When the entries below `size` satisfy `p` and those from `size` on do
not, the first `size` entries are the entries that satisfy `p`. -/
theorem take_eq_filter {α : Type} (p : α → Bool) (v : List α) (size : Nat)
    (hlow : ∀ j x, j < size → v.get? j = some x → p x = true)
    (hhigh : ∀ j x, size ≤ j → v.get? j = some x → p x = false) :
    v.take size = v.filter p := by
  have ht : ∀ x ∈ v.take size, p x = true := by
    intro x hx
    obtain ⟨j, hj⟩ := List.mem_iff_get?.1 hx
    rw [List.get?_eq_getElem?] at hj
    have hjs : j < size := by
      by_contra hn
      rw [List.getElem?_take_eq_none (Nat.le_of_not_lt hn)] at hj
      exact absurd hj (by simp)
    rw [List.getElem?_take_of_lt hjs] at hj
    exact hlow j x hjs (by rw [List.get?_eq_getElem?]; exact hj)
  have hd : ∀ x ∈ v.drop size, p x = false := by
    intro x hx
    obtain ⟨j, hj⟩ := List.mem_iff_get?.1 hx
    rw [List.get?_eq_getElem?, List.getElem?_drop] at hj
    exact hhigh (size + j) x (Nat.le_add_right _ _) (by rw [List.get?_eq_getElem?]; exact hj)
  have h1 : (v.take size).filter p = v.take size := List.filter_eq_self.2 ht
  have h2 : (v.drop size).filter p = [] :=
    List.filter_eq_nil_iff.2 (fun x hx => by simp [hd x hx])
  calc v.take size = (v.take size).filter p ++ (v.drop size).filter p := by rw [h1, h2]; simp
    _ = (v.take size ++ v.drop size).filter p := by rw [List.filter_append]
    _ = v.filter p := by rw [List.take_append_drop]

/-- The cleanup loop, started with enough fuel on a vector shorter than
`2 ^ 64` whose entries below `i` satisfy `p` and whose entries from `size` on
do not: it returns, without an access outside the vector, a permutation of
the vector whose first `size'` entries are exactly the entries that satisfy
`p`. -/
theorem CleanupLoop_spec (p : MsgPipeWaitingThread → Bool) :
    ∀ (fuel : Nat) (v : List MsgPipeWaitingThread) (i size : Nat),
      i ≤ size → size ≤ v.length → v.length < 2 ^ 64 → size - i ≤ fuel →
      (∀ j x, j < i → v.get? j = some x → p x = true) →
      (∀ j x, size ≤ j → v.get? j = some x → p x = false) →
      ∃ v1 size1, CleanupLoop p fuel v i size = .ok (v1, size1) ∧ v1.Perm v ∧
        v1.take size1 = v1.filter p := by
  intro fuel
  induction fuel with
  | zero =>
    intro v i size his hsl hlen hfuel hlow hhigh
    have hi : i = size := by omega
    subst hi
    refine ⟨v, i, by simp [CleanupLoop], List.Perm.refl v, take_eq_filter p v i hlow hhigh⟩
  | succ n ih =>
    intro v i size his hsl hlen hfuel hlow hhigh
    by_cases hlt : i < size
    · have hiv : i < v.length := by omega
      have hget : v.get? i = some (v.get ⟨i, hiv⟩) := List.get?_eq_get hiv
      by_cases hp : p (v.get ⟨i, hiv⟩) = true
      · have hmod : (i + 1) % 2 ^ 64 = i + 1 := Nat.mod_eq_of_lt (by omega)
        obtain ⟨v1, size1, hrun, hperm, htake⟩ := ih v (i + 1) size (by omega) hsl hlen
          (by omega)
          (by
            intro j x hj hx
            by_cases hji : j = i
            · subst hji
              rw [hget] at hx
              injection hx with hx
              exact hx ▸ hp
            · exact hlow j x (by omega) hx)
          hhigh
        refine ⟨v1, size1, ?_, hperm, htake⟩
        simp only [CleanupLoop, hlt, if_true, hget, hp, hmod]
        exact hrun
      · have hs1 : (size + 2 ^ 64 - 1) % 2 ^ 64 = size - 1 := by omega
        have hi1 : ((i + 2 ^ 64 - 1) % 2 ^ 64 + 1) % 2 ^ 64 = i := by omega
        have hsv : size - 1 < v.length := by omega
        have hgets : v.get? (size - 1) = some (v.get ⟨size - 1, hsv⟩) := List.get?_eq_get hsv
        have hpf : p (v.get ⟨i, hiv⟩) = false := by simpa using hp
        obtain ⟨v1, size1, hrun, hperm, htake⟩ :=
          ih ((v.set i (v.get ⟨size - 1, hsv⟩)).set (size - 1) (v.get ⟨i, hiv⟩)) i (size - 1)
            (by omega) (by simp; omega) (by simpa using hlen) (by omega)
            (by
              intro j x hj hx
              rw [List.get?_eq_getElem?, List.getElem?_set_ne (by omega),
                List.getElem?_set_ne (by omega)] at hx
              exact hlow j x hj (by rw [List.get?_eq_getElem?]; exact hx))
            (by
              intro j x hj hx
              by_cases hjs : j = size - 1
              · subst hjs
                rw [List.get?_eq_getElem?, List.getElem?_set_self (by simpa using hsv)] at hx
                exact (Option.some.inj hx) ▸ hpf
              · rw [List.get?_eq_getElem?, List.getElem?_set_ne (by omega),
                  List.getElem?_set_ne (by omega)] at hx
                exact hhigh j x (by omega) (by rw [List.get?_eq_getElem?]; exact hx))
        refine ⟨v1, size1, ?_, hperm.trans (set_set_perm v i (size - 1) _ _ hget hgets), htake⟩
        simp only [CleanupLoop, hlt, if_true, hget, hs1, hgets, hi1]
        simp only [hpf, Bool.false_eq_true, if_false]
        exact hrun
    · have hi : i = size := by omega
      subst hi
      refine ⟨v, i, by simp [CleanupLoop], List.Perm.refl v, take_eq_filter p v i hlow hhigh⟩

/-- The shared body of the two sort functions returns a permutation of the
entries that still wait. -/
theorem SortThreads_spec (env : HleEnv) (k : KernelState) (uid : Nat) (usePrio : Bool)
    (v : List MsgPipeWaitingThread) (hlen : v.length < 2 ^ 64) :
    ∃ r, SortThreads env k uid usePrio v = .ok r ∧
      r.Perm (v.filter (fun t => t.IsStillWaiting k uid)) := by
  obtain ⟨v1, size1, hrun, hperm, htake⟩ :=
    CleanupLoop_spec (fun t => t.IsStillWaiting k uid) v.length v 0 v.length
      (Nat.zero_le _) (le_refl _) hlen (by omega)
      (by intro j x hj; omega)
      (by
        intro j x hj hx
        rw [List.get?_eq_getElem?, List.getElem?_eq_none hj] at hx
        exact absurd hx (by simp))
  have hp2 : (v1.take size1).Perm (v.filter (fun t => t.IsStillWaiting k uid)) := by
    rw [htake]
    exact hperm.filter _
  unfold SortThreads
  rw [hrun]
  cases usePrio with
  | false => exact ⟨_, rfl, hp2⟩
  | true => exact ⟨_, rfl, (List.mergeSort_perm _ _).trans hp2⟩

/-- `SortReceiveThreads` on a list shorter than `2 ^ 64`: it returns, with
the receive list a permutation of its entries that still wait and everything
else as it was. -/
theorem SortReceiveThreads_spec (env : HleEnv) (k : KernelState) (m : MsgPipe)
    (hr : m.receiveWaitingThreads.length < 2 ^ 64) :
    ∃ v, m.SortReceiveThreads env k = .ok { m with receiveWaitingThreads := v } ∧
      v.Perm (m.receiveWaitingThreads.filter (fun t => t.IsStillWaiting k m.uid)) := by
  obtain ⟨v, hv, hperm⟩ := SortThreads_spec env k m.uid
    (decide (m.nmp.attr &&& SCE_KERNEL_MPA_THPRI_R ≠ 0)) m.receiveWaitingThreads hr
  exact ⟨v, by simp only [SortReceiveThreads, hv], hperm⟩

/-- `SortSendThreads` on a list shorter than `2 ^ 64`, as
`SortReceiveThreads_spec`. -/
theorem SortSendThreads_spec (env : HleEnv) (k : KernelState) (m : MsgPipe)
    (hs : m.sendWaitingThreads.length < 2 ^ 64) :
    ∃ v, m.SortSendThreads env k = .ok { m with sendWaitingThreads := v } ∧
      v.Perm (m.sendWaitingThreads.filter (fun t => t.IsStillWaiting k m.uid)) := by
  obtain ⟨v, hv, hperm⟩ := SortThreads_spec env k m.uid
    (decide (m.nmp.attr &&& SCE_KERNEL_MPA_THPRI_S ≠ 0)) m.sendWaitingThreads hs
  exact ⟨v, by simp only [SortSendThreads, hv], hperm⟩

/-- A returning `SortReceiveThreads` changes the receive list only. -/
theorem SortReceiveThreads_frame {env : HleEnv} {k : KernelState} {m m1 : MsgPipe}
    (h : m.SortReceiveThreads env k = .ok m1) :
    m1 = { m with receiveWaitingThreads := m1.receiveWaitingThreads } := by
  unfold SortReceiveThreads at h
  split at h
  · exact absurd h (by simp)
  · injection h with h
    subst h
    rfl

/-- A returning `SortSendThreads` changes the send list only. -/
theorem SortSendThreads_frame {env : HleEnv} {k : KernelState} {m m1 : MsgPipe}
    (h : m.SortSendThreads env k = .ok m1) :
    m1 = { m with sendWaitingThreads := m1.sendWaitingThreads } := by
  unfold SortSendThreads at h
  split at h
  · exact absurd h (by simp)
  · injection h with h
    subst h
    rfl

/-- C26: for every pair of wait lists shorter than `2 ^ 64` entries,
`SortReceiveThreads` and `SortSendThreads` return without an access outside
the vector (the wrapping `--i` at `i = 0` and `--size` included), and the
list they leave is a permutation of the entries of the original list for
which `IsStillWaiting(GetUID())` holds: each of them once and no other. The
rest of the pipe is as it was. -/
theorem SortThreads_cleanup (env : HleEnv) (k : KernelState) (m : MsgPipe)
    (hs : m.sendWaitingThreads.length < 2 ^ 64)
    (hr : m.receiveWaitingThreads.length < 2 ^ 64) :
    (∃ v, m.SortReceiveThreads env k = .ok { m with receiveWaitingThreads := v } ∧
        v.Perm (m.receiveWaitingThreads.filter (fun t => t.IsStillWaiting k m.uid))) ∧
      (∃ v, m.SortSendThreads env k = .ok { m with sendWaitingThreads := v } ∧
        v.Perm (m.sendWaitingThreads.filter (fun t => t.IsStillWaiting k m.uid))) :=
  ⟨SortReceiveThreads_spec env k m hr, SortSendThreads_spec env k m hs⟩

/-- Witness of `SortThreads_cleanup`: the send list of `pipeThreeSenders`
when thread 1 no longer waits. -/
theorem SortThreads_cleanup_witness :
    (∃ v, pipeThreeSenders.SortReceiveThreads envHle kernelOneTimedOut
          = .ok { pipeThreeSenders with receiveWaitingThreads := v } ∧
        v.Perm (pipeThreeSenders.receiveWaitingThreads.filter
          (fun t => t.IsStillWaiting kernelOneTimedOut pipeThreeSenders.uid))) ∧
      (∃ v, pipeThreeSenders.SortSendThreads envHle kernelOneTimedOut
          = .ok { pipeThreeSenders with sendWaitingThreads := v } ∧
        v.Perm (pipeThreeSenders.sendWaitingThreads.filter
          (fun t => t.IsStillWaiting kernelOneTimedOut pipeThreeSenders.uid))) :=
  SortThreads_cleanup envHle kernelOneTimedOut pipeThreeSenders (by decide) (by decide)

/-- C27, the code at the failing input: pipe 7 has the FIFO attribute
(`attr = 0`); threads 1, 2 and 4 queued to send in this order and thread 1
no longer waits. `SortSendThreads` swaps the entry of thread 1 with the last
entry and drops it: the list it leaves is thread 4, then thread 2, so the
thread that arrived last is served first. -/
theorem SortSendThreads_breaks_arrival_order :
    pipeThreeSenders.nmp.attr &&& SCE_KERNEL_MPA_THPRI_S = 0 ∧
      pipeThreeSenders.sendWaitingThreads = [senderOne, senderTwo, senderFour] ∧
      pipeThreeSenders.sendWaitingThreads.filter
        (fun t => t.IsStillWaiting kernelOneTimedOut 7) = [senderTwo, senderFour] ∧
      pipeThreeSenders.SortSendThreads envHle kernelOneTimedOut
        = .ok { pipeThreeSenders with sendWaitingThreads := [senderFour, senderTwo] } := by
  refine ⟨by decide, rfl, by decide, rfl⟩

/-! ## The buffer invariant -/

/-- The buffer invariant in unsigned terms: `freeSize <= bufSize < 2 ^ 31`. -/
theorem BufferInv_iff (m : MsgPipe) :
    m.BufferInv ↔ m.nmp.freeSize ≤ m.nmp.bufSize ∧ m.nmp.bufSize < 2 ^ 31 := by
  unfold MsgPipe.BufferInv s32
  split_ifs <;> omega

/-- The entry `WriteBuffer` leaves: `freeSize` is reduced by `len`. -/
theorem WriteBuffer_fst (env : HleEnv) (k : KernelState) (t : MsgPipeWaitingThread)
    (src len : Nat) :
    (t.WriteBuffer env k src len).1
      = { t with freeSize := (t.freeSize + 2 ^ 32 - len) % 2 ^ 32 } := by
  unfold MsgPipeWaitingThread.WriteBuffer
  split <;> rfl

/-- The loop of `CheckReceiveThreads` on a pipe within the invariant:
`nmp.freeSize` does not decrease and stays at most `bufSize`, the list does
not grow, and when the loop reports freed space the number of waiting
receivers plus the used size has strictly decreased. -/
theorem CheckReceiveLoop_spec (env : HleEnv) (m : MsgPipe) (hb : m.nmp.bufSize < 2 ^ 31) :
    ∀ (l : List MsgPipeWaitingThread) (fs : Nat) (k : KernelState), fs ≤ m.nmp.bufSize →
      fs ≤ (CheckReceiveLoop env m l fs k).2.2.2.1 ∧
      (CheckReceiveLoop env m l fs k).2.2.2.1 ≤ m.nmp.bufSize ∧
      (CheckReceiveLoop env m l fs k).2.2.1.length ≤ l.length ∧
      ((CheckReceiveLoop env m l fs k).1 = true →
        (CheckReceiveLoop env m l fs k).2.2.1.length
            + (m.nmp.bufSize - (CheckReceiveLoop env m l fs k).2.2.2.1)
          < l.length + (m.nmp.bufSize - fs)) := by
  intro l
  induction l with
  | nil => intro fs k h; simpa [CheckReceiveLoop] using h
  | cons t rest ih =>
    intro fs k h
    simp only [CheckReceiveLoop, WriteBuffer_fst]
    split_ifs with h1 h2
    · have hlt : fs < m.nmp.bufSize := by omega
      have hle : (fs + min t.freeSize ((m.nmp.bufSize + 2 ^ 32 - fs) % 2 ^ 32)) % 2 ^ 32
          ≤ m.nmp.bufSize := by omega
      have hge : fs ≤ (fs + min t.freeSize ((m.nmp.bufSize + 2 ^ 32 - fs) % 2 ^ 32)) % 2 ^ 32 := by
        omega
      simp only [List.length_cons]
      refine ⟨le_trans hge (ih _ _ hle).1, (ih _ _ hle).2.1,
        le_trans (ih _ _ hle).2.2.1 (Nat.le_succ _), fun _ => ?_⟩
      refine lt_of_le_of_lt (Nat.add_le_add (ih _ _ hle).2.2.1
        (Nat.sub_le_sub_left (le_trans hge (ih _ _ hle).1) _)) (by omega)
    · have hlt : fs < m.nmp.bufSize := by omega
      have h3 : (t.freeSize + 2 ^ 32
          - min t.freeSize ((m.nmp.bufSize + 2 ^ 32 - fs) % 2 ^ 32)) % 2 ^ 32 ≠ 0 := by
        intro h0
        exact h2 (Or.inr h0)
      simp only [List.length_cons]
      refine ⟨by omega, by omega, by omega, fun _ => by omega⟩
    · simpa using h

/-- The loop of `CheckSendThreads`: the list does not grow, and it has lost
an entry when the loop reports filled space. -/
theorem CheckSendLoop_spec (env : HleEnv) (m : MsgPipe) :
    ∀ (l : List MsgPipeWaitingThread) (k : KernelState),
      (CheckSendLoop env m l k).2.1.length ≤ l.length ∧
      ((CheckSendLoop env m l k).1 = true → (CheckSendLoop env m l k).2.1.length < l.length) := by
  intro l
  induction l with
  | nil => intro k; simp [CheckSendLoop]
  | cons t rest ih =>
    intro k
    simp only [CheckSendLoop]
    split_ifs
    all_goals first
      | (simp only [List.length_cons]
         exact ⟨le_trans (ih _).1 (Nat.le_succ _), fun _ => Nat.lt_succ_of_le (ih _).1⟩)
      | simp

/-- The buffer invariant speaks of `nmp` only. -/
theorem BufferInv_of_nmp {m m1 : MsgPipe} (h : m1.nmp = m.nmp) (hm : m.BufferInv) :
    m1.BufferInv := by
  unfold MsgPipe.BufferInv at *
  rw [h]
  exact hm

/-- `SortSendThreads` leaves `nmp` as it was. -/
theorem SortSendThreads_nmp {env : HleEnv} {k : KernelState} {m m1 : MsgPipe}
    (h : m.SortSendThreads env k = .ok m1) : m1.nmp = m.nmp := by
  rw [SortSendThreads_frame h]

/-- `SortReceiveThreads` leaves `nmp` as it was. -/
theorem SortReceiveThreads_nmp {env : HleEnv} {k : KernelState} {m m1 : MsgPipe}
    (h : m.SortReceiveThreads env k = .ok m1) : m1.nmp = m.nmp := by
  rw [SortReceiveThreads_frame h]

/-- One level of `CheckSendThreads` keeps the invariant when the call it
makes does. -/
theorem CheckSendThreads_inv_step (env : HleEnv) (fuel : Nat) (k : KernelState) (m : MsgPipe)
    (hm : m.BufferInv)
    (ih : ∀ f, fuel = f + 1 → ∀ (k1 : KernelState) (m1 : MsgPipe), m1.BufferInv →
      ∀ r, m1.CheckReceiveThreads env f k1 = .ok r → r.2.2.BufferInv) :
    ∀ r, m.CheckSendThreads env fuel k = .ok r → r.2.2.BufferInv := by
  intro r hr
  rw [CheckSendThreads] at hr
  cases hs : SortSendThreads env k m with
  | error e => rw [hs] at hr; exact absurd hr (by simp)
  | ok m1 =>
    rw [hs] at hr
    simp only at hr
    have hn : m1.nmp = m.nmp := SortSendThreads_nmp hs
    split at hr
    · cases fuel with
      | zero => exact absurd hr (by simp)
      | succ f =>
        simp only at hr
        split at hr
        · exact absurd hr (by simp)
        · rename_i r1 hr1
          injection hr with hr
          subst hr
          exact ih f rfl _ _ (show MsgPipe.BufferInv { m1 with
            sendWaitingThreads := (CheckSendLoop env m1 m1.sendWaitingThreads k).2.1 } from
              BufferInv_of_nmp hn hm)
            r1 hr1
    · injection hr with hr
      subst hr
      exact BufferInv_of_nmp hn hm

/-- The pipe `CheckReceiveThreads` hands to `CheckSendThreads` is within the
invariant. -/
theorem CheckReceiveLoop_inv (env : HleEnv) (k : KernelState) (m : MsgPipe) (hm : m.BufferInv)
    (l : List MsgPipeWaitingThread) :
    MsgPipe.BufferInv { m with
      receiveWaitingThreads := l,
      nmp := { m.nmp with
        freeSize := (CheckReceiveLoop env m m.receiveWaitingThreads m.nmp.freeSize k).2.2.2.1 } } := by
  rw [BufferInv_iff] at hm ⊢
  exact ⟨(CheckReceiveLoop_spec env m hm.2 _ _ k hm.1).2.1, hm.2⟩

/-- One level of `CheckReceiveThreads` keeps the invariant when the call it
makes does. -/
theorem CheckReceiveThreads_inv_step (env : HleEnv) (fuel : Nat) (k : KernelState)
    (m : MsgPipe) (hm : m.BufferInv)
    (ih : ∀ f, fuel = f + 1 → ∀ (k1 : KernelState) (m1 : MsgPipe), m1.BufferInv →
      ∀ r, m1.CheckSendThreads env f k1 = .ok r → r.2.2.BufferInv) :
    ∀ r, m.CheckReceiveThreads env fuel k = .ok r → r.2.2.BufferInv := by
  intro r hr
  rw [CheckReceiveThreads] at hr
  cases hs : SortReceiveThreads env k m with
  | error e => rw [hs] at hr; exact absurd hr (by simp)
  | ok m1 =>
    rw [hs] at hr
    simp only at hr
    have hm1 : m1.BufferInv := BufferInv_of_nmp (SortReceiveThreads_nmp hs) hm
    split at hr
    · cases fuel with
      | zero => exact absurd hr (by simp)
      | succ f =>
        simp only at hr
        split at hr
        · exact absurd hr (by simp)
        · rename_i r1 hr1
          injection hr with hr
          subst hr
          exact ih f rfl _ _ (CheckReceiveLoop_inv env k m1 hm1 _) r1 hr1
    · injection hr with hr
      subst hr
      exact hm1

/-- `CheckSendThreads` and `CheckReceiveThreads` keep the buffer invariant,
whatever the fuel. -/
theorem CheckThreads_inv (env : HleEnv) :
    ∀ (fuel : Nat) (k : KernelState) (m : MsgPipe), m.BufferInv →
      (∀ r, m.CheckSendThreads env fuel k = .ok r → r.2.2.BufferInv) ∧
      (∀ r, m.CheckReceiveThreads env fuel k = .ok r → r.2.2.BufferInv) := by
  intro fuel
  induction fuel with
  | zero =>
    intro k m hm
    exact ⟨CheckSendThreads_inv_step env 0 k m hm (fun f hf => absurd hf (by omega)),
      CheckReceiveThreads_inv_step env 0 k m hm (fun f hf => absurd hf (by omega))⟩
  | succ n ih =>
    intro k m hm
    refine ⟨CheckSendThreads_inv_step env (n + 1) k m hm ?_,
      CheckReceiveThreads_inv_step env (n + 1) k m hm ?_⟩
    · intro f hf k1 m1 hm1
      have hfn : f = n := by omega
      subst hfn
      exact (ih k1 m1 hm1).2
    · intro f hf k1 m1 hm1
      have hfn : f = n := by omega
      subst hfn
      exact (ih k1 m1 hm1).1

/-- `SendWait` leaves `nmp` as it was. -/
theorem SendWait_nmp (env : HleEnv) (k : KernelState) (m : MsgPipe) (a b c d e : Nat) :
    (SendWait env k m a b c d e).2.2.nmp = m.nmp := by
  simp only [SendWait]
  split <;> rfl

/-- `SendFinish` leaves the pipe as it was. -/
theorem SendFinish_pipe (env : HleEnv) (k : KernelState) (m : MsgPipe) (a b c : Nat) :
    (SendFinish env k m a b c).2.2 = m := by
  simp only [SendFinish]
  split <;> rfl

/-- `ReceiveWait` leaves `nmp` as it was. -/
theorem ReceiveWait_nmp (env : HleEnv) (k : KernelState) (m : MsgPipe) (a b c d e : Nat) :
    (ReceiveWait env k m a b c d e).2.nmp = m.nmp := by
  simp only [ReceiveWait]
  split <;> rfl

/-- `__KernelSendMsgPipe` keeps the buffer invariant. -/
theorem SendMsgPipe_inv (env : HleEnv) (fuel : Nat) (k : KernelState) (m : MsgPipe)
    (sendBufAddr sendSize waitMode resultAddr timeoutPtr : Nat) (cbEnabled poll : Bool)
    (hm : m.BufferInv) :
    ∀ r, __KernelSendMsgPipe env fuel k m sendBufAddr sendSize waitMode resultAddr timeoutPtr
        cbEnabled poll = .ok r → r.2.2.BufferInv := by
  intro r hr
  unfold __KernelSendMsgPipe at hr
  split at hr
  · injection hr with hr
    subst hr
    exact hm
  · split at hr
    · cases hs : m.SortReceiveThreads env k with
      | error e => rw [hs] at hr; exact absurd hr (by simp)
      | ok m1 =>
        rw [hs] at hr
        simp only at hr
        have hn : m1.nmp = m.nmp := SortReceiveThreads_nmp hs
        split at hr
        · exact absurd hr (by simp)
        · rename_i r1 hr1
          split at hr
          · split at hr
            · injection hr with hr
              subst hr
              exact (show MsgPipe.BufferInv { m1 with receiveWaitingThreads := r1.1 } from
                BufferInv_of_nmp hn hm)
            · injection hr with hr
              subst hr
              exact BufferInv_of_nmp ((SendWait_nmp _ _ _ _ _ _ _ _).trans hn) hm
          · injection hr with hr
            subst hr
            rw [SendFinish_pipe]
            exact (show MsgPipe.BufferInv { m1 with receiveWaitingThreads := r1.1 } from
                BufferInv_of_nmp hn hm)
    · split at hr
      · injection hr with hr
        subst hr
        exact hm
      · cases hs : m.SortSendThreads env k with
        | error e => rw [hs] at hr; exact absurd hr (by simp)
        | ok m1 =>
          rw [hs] at hr
          simp only at hr
          have hm1 : m1.BufferInv := BufferInv_of_nmp (SortSendThreads_nmp hs) hm
          generalize hb : (if m1.sendWaitingThreads.isEmpty = true then
              if sendSize ≤ m1.nmp.freeSize then sendSize
              else if waitMode = SCE_KERNEL_MPW_ASAP ∧ m1.nmp.freeSize ≠ 0 then m1.nmp.freeSize
              else 0
            else 0) = bytes at hr
          have hle : bytes ≤ m1.nmp.freeSize := by
            rw [← hb]
            split_ifs <;> omega
          split at hr
          · split at hr
            · exact absurd hr (by simp)
            · rename_i c hc
              injection hr with hr
              subst hr
              rw [SendFinish_pipe]
              refine (CheckThreads_inv env fuel _ _ ?_).2 c hc
              rw [BufferInv_iff] at hm1 ⊢
              simp only
              exact ⟨by omega, hm1.2⟩
          · split at hr
            · injection hr with hr
              subst hr
              exact hm1
            · injection hr with hr
              subst hr
              exact BufferInv_of_nmp (SendWait_nmp _ _ _ _ _ _ _ _) hm1

/-- `__KernelReceiveMsgPipe` keeps the buffer invariant. -/
theorem ReceiveMsgPipe_inv (env : HleEnv) (fuel : Nat) (k : KernelState) (m : MsgPipe)
    (receiveBufAddr receiveSize waitMode resultAddr timeoutPtr : Nat) (cbEnabled poll : Bool)
    (hm : m.BufferInv) :
    ∀ r, __KernelReceiveMsgPipe env fuel k m receiveBufAddr receiveSize waitMode resultAddr
        timeoutPtr cbEnabled poll = .ok r → r.2.BufferInv := by
  intro r hr
  have hm2 := (BufferInv_iff m).1 hm
  unfold __KernelReceiveMsgPipe at hr
  split at hr
  · simp only at hr
    split at hr
    · split at hr
      · injection hr with hr
        subst hr
        exact hm
      · injection hr with hr
        subst hr
        exact BufferInv_of_nmp (ReceiveWait_nmp _ _ _ _ _ _ _ _) hm
    · injection hr with hr
      subst hr
      exact hm
  · split at hr
    · rename_i hused
      have hnew : MsgPipe.BufferInv { m with
          nmp := { m.nmp with freeSize := (m.nmp.freeSize + receiveSize) % 2 ^ 32 } } := by
        rw [BufferInv_iff]
        unfold GetUsedSize at hused
        simp only
        exact ⟨by omega, hm2.2⟩
      simp only at hr
      split at hr
      · split at hr
        · exact absurd hr (by simp)
        · rename_i c hc
          injection hr with hr
          subst hr
          exact (CheckThreads_inv env fuel _ _ hnew).1 c hc
      · injection hr with hr
        subst hr
        exact hnew
    · split at hr
      · have hnew : MsgPipe.BufferInv { m with
            nmp := { m.nmp with freeSize := m.nmp.bufSize } } := by
          rw [BufferInv_iff]
          exact ⟨le_refl _, hm2.2⟩
        simp only at hr
        split at hr
        · split at hr
          · exact absurd hr (by simp)
          · rename_i c hc
            injection hr with hr
            subst hr
            exact (CheckThreads_inv env fuel _ _ hnew).1 c hc
        · injection hr with hr
          subst hr
          exact hnew
      · split at hr
        · injection hr with hr
          subst hr
          exact hm
        · injection hr with hr
          subst hr
          exact BufferInv_of_nmp (ReceiveWait_nmp _ _ _ _ _ _ _ _) hm

/-- A pipe `sceKernelCreateMsgPipe` creates has `bufSize = freeSize = size`
and empty wait lists. -/
theorem sceKernelCreateMsgPipe_some (env : HleEnv) (k : KernelState) (name : Option String)
    (partition : Int) (attr size optionsPtr : Nat) (p : MsgPipe)
    (hp : (sceKernelCreateMsgPipe env k name partition attr size optionsPtr).2.2 = some p) :
    p.nmp.bufSize = size ∧ p.nmp.freeSize = size ∧ p.sendWaitingThreads = [] ∧
      p.receiveWaitingThreads = [] := by
  unfold sceKernelCreateMsgPipe at hp
  simp only at hp
  split at hp
  · exact absurd hp (by simp)
  · split_ifs at hp
    all_goals
      simp only [Option.some.injEq] at hp
      subst hp
      exact ⟨rfl, rfl, rfl, rfl⟩

/-- C22: the buffer invariant `0 <= nmp.freeSize <= nmp.bufSize` (signed
32-bit readings). A pipe `sceKernelCreateMsgPipe` creates with
`size < 2 ^ 31` satisfies it, and from a pipe `m` that satisfies it every
returning `__KernelSendMsgPipe`, `__KernelReceiveMsgPipe`,
`CheckSendThreads` and `CheckReceiveThreads` leaves a pipe that satisfies
it, as does `sceKernelCancelMsgPipe`, which also leaves
`freeSize = bufSize`. -/
theorem MsgPipe_buffer_invariant (env : HleEnv) (k : KernelState) (m : MsgPipe)
    (hm : m.BufferInv) :
    (∀ (name : Option String) (partition : Int) (attr size optionsPtr : Nat) (p : MsgPipe),
        size < 2 ^ 31 →
        (sceKernelCreateMsgPipe env k name partition attr size optionsPtr).2.2 = some p →
        p.BufferInv) ∧
      (∀ (fuel a b c d e : Nat) (cb poll : Bool) r,
        __KernelSendMsgPipe env fuel k m a b c d e cb poll = .ok r → r.2.2.BufferInv) ∧
      (∀ (fuel a b c d e : Nat) (cb poll : Bool) r,
        __KernelReceiveMsgPipe env fuel k m a b c d e cb poll = .ok r → r.2.BufferInv) ∧
      (∀ (fuel : Nat) r, m.CheckSendThreads env fuel k = .ok r → r.2.2.BufferInv) ∧
      (∀ (fuel : Nat) r, m.CheckReceiveThreads env fuel k = .ok r → r.2.2.BufferInv) ∧
      (∀ (uid a b : Nat), ∃ p,
        (sceKernelCancelMsgPipe env k (.ok m) uid a b).2.2 = some p ∧ p.BufferInv ∧
          p.nmp.freeSize = p.nmp.bufSize) := by
  refine ⟨?_, ?_, ?_, ?_, ?_, ?_⟩
  · intro name partition attr size optionsPtr p hsize hp
    obtain ⟨hb, hf, -, -⟩ := sceKernelCreateMsgPipe_some env k name partition attr size
      optionsPtr p hp
    rw [BufferInv_iff, hb, hf]
    exact ⟨le_refl _, hsize⟩
  · intro fuel a b c d e cb poll
    exact SendMsgPipe_inv env fuel k m a b c d e cb poll hm
  · intro fuel a b c d e cb poll
    exact ReceiveMsgPipe_inv env fuel k m a b c d e cb poll hm
  · intro fuel
    exact (CheckThreads_inv env fuel k m hm).1
  · intro fuel
    exact (CheckThreads_inv env fuel k m hm).2
  · intro uid a b
    refine ⟨_, rfl, ?_, rfl⟩
    rw [BufferInv_iff] at hm ⊢
    exact ⟨le_refl _, hm.2⟩

/-- Witness of `MsgPipe_buffer_invariant`: the pipe `pipeTwoSenders` with
8 bytes of buffer, all free. -/
theorem MsgPipe_buffer_invariant_witness :
    pipeTwoSenders.BufferInv ∧
      ((∀ (name : Option String) (partition : Int) (attr size optionsPtr : Nat) (p : MsgPipe),
        size < 2 ^ 31 →
        (sceKernelCreateMsgPipe envHle kernelTwoSenders name partition attr size optionsPtr).2.2
          = some p →
        p.BufferInv) ∧
      (∀ (fuel a b c d e : Nat) (cb poll : Bool) r,
        __KernelSendMsgPipe envHle fuel kernelTwoSenders pipeTwoSenders a b c d e cb poll
          = .ok r → r.2.2.BufferInv) ∧
      (∀ (fuel a b c d e : Nat) (cb poll : Bool) r,
        __KernelReceiveMsgPipe envHle fuel kernelTwoSenders pipeTwoSenders a b c d e cb poll
          = .ok r → r.2.BufferInv) ∧
      (∀ (fuel : Nat) r,
        pipeTwoSenders.CheckSendThreads envHle fuel kernelTwoSenders = .ok r →
          r.2.2.BufferInv) ∧
      (∀ (fuel : Nat) r,
        pipeTwoSenders.CheckReceiveThreads envHle fuel kernelTwoSenders = .ok r →
          r.2.2.BufferInv) ∧
      (∀ (uid a b : Nat), ∃ p,
        (sceKernelCancelMsgPipe envHle kernelTwoSenders (.ok pipeTwoSenders) uid a b).2.2
          = some p ∧ p.BufferInv ∧ p.nmp.freeSize = p.nmp.bufSize)) :=
  ⟨by unfold MsgPipe.BufferInv s32; decide,
    MsgPipe_buffer_invariant envHle kernelTwoSenders pipeTwoSenders
      (by unfold MsgPipe.BufferInv s32; decide)⟩

/-! ## Termination of the two checks -/

/-- One level of `CheckSendThreads` returns when the call it makes does. -/
theorem CheckSendThreads_returns_step (env : HleEnv) (fuel : Nat) (k : KernelState)
    (m : MsgPipe) (hm : m.BufferInv)
    (hs : m.sendWaitingThreads.length < 2 ^ 64) (hr : m.receiveWaitingThreads.length < 2 ^ 64)
    (hfuel : m.checkMeasure ≤ fuel)
    (ih : ∀ f, fuel = f + 1 → ∀ (k1 : KernelState) (m1 : MsgPipe), m1.BufferInv →
      m1.sendWaitingThreads.length < 2 ^ 64 → m1.receiveWaitingThreads.length < 2 ^ 64 →
      m1.checkMeasure ≤ f → ∃ r, m1.CheckReceiveThreads env f k1 = .ok r) :
    ∃ r, m.CheckSendThreads env fuel k = .ok r := by
  obtain ⟨v, hv, hperm⟩ := SortSendThreads_spec env k m hs
  have hvlen : v.length ≤ m.sendWaitingThreads.length := by
    rw [hperm.length_eq]
    exact List.length_filter_le _ _
  have hloop := CheckSendLoop_spec env { m with sendWaitingThreads := v } v k
  rw [CheckSendThreads, hv]
  simp only
  split
  · rename_i hfilled
    have hlt := hloop.2 hfilled
    have hmeas : MsgPipe.checkMeasure { m with
        sendWaitingThreads :=
          (CheckSendLoop env { m with sendWaitingThreads := v } v k).2.1 } < m.checkMeasure := by
      simp only [MsgPipe.checkMeasure, GetUsedSize]
      omega
    cases fuel with
    | zero => omega
    | succ f =>
      simp only
      obtain ⟨r, hr1⟩ := ih f rfl
        (CheckSendLoop env { m with sendWaitingThreads := v } v k).2.2
        { m with
          sendWaitingThreads := (CheckSendLoop env { m with sendWaitingThreads := v } v k).2.1 }
        (BufferInv_of_nmp rfl hm) (by simp only; omega) hr (by omega)
      rw [hr1]
      exact ⟨_, rfl⟩
  · exact ⟨_, rfl⟩

/-- One level of `CheckReceiveThreads` returns when the call it makes
does. -/
theorem CheckReceiveThreads_returns_step (env : HleEnv) (fuel : Nat) (k : KernelState)
    (m : MsgPipe) (hm : m.BufferInv)
    (hs : m.sendWaitingThreads.length < 2 ^ 64) (hr : m.receiveWaitingThreads.length < 2 ^ 64)
    (hfuel : m.checkMeasure ≤ fuel)
    (ih : ∀ f, fuel = f + 1 → ∀ (k1 : KernelState) (m1 : MsgPipe), m1.BufferInv →
      m1.sendWaitingThreads.length < 2 ^ 64 → m1.receiveWaitingThreads.length < 2 ^ 64 →
      m1.checkMeasure ≤ f → ∃ r, m1.CheckSendThreads env f k1 = .ok r) :
    ∃ r, m.CheckReceiveThreads env fuel k = .ok r := by
  obtain ⟨v, hv, hperm⟩ := SortReceiveThreads_spec env k m hr
  have hvlen : v.length ≤ m.receiveWaitingThreads.length := by
    rw [hperm.length_eq]
    exact List.length_filter_le _ _
  have hm2 := (BufferInv_iff m).1 hm
  have hloop := CheckReceiveLoop_spec env { m with receiveWaitingThreads := v } hm2.2 v
    m.nmp.freeSize k hm2.1
  rw [CheckReceiveThreads, hv]
  simp only
  split
  · rename_i hfreed
    have hlt := hloop.2.2.2 hfreed
    have hmeas : MsgPipe.checkMeasure { m with
        receiveWaitingThreads :=
          (CheckReceiveLoop env { m with receiveWaitingThreads := v } v m.nmp.freeSize k).2.2.1,
        nmp := { m.nmp with
          freeSize :=
            (CheckReceiveLoop env { m with receiveWaitingThreads := v } v
              m.nmp.freeSize k).2.2.2.1 } } < m.checkMeasure := by
      have h1 := hloop.1
      have h2 := hloop.2.1
      simp only [MsgPipe.checkMeasure, GetUsedSize] at hlt h1 h2 ⊢
      omega
    cases fuel with
    | zero => omega
    | succ f =>
      simp only
      obtain ⟨r, hr1⟩ := ih f rfl
        (CheckReceiveLoop env { m with receiveWaitingThreads := v } v m.nmp.freeSize k).2.2.2.2
        { m with
          receiveWaitingThreads :=
            (CheckReceiveLoop env { m with receiveWaitingThreads := v } v m.nmp.freeSize k).2.2.1,
          nmp := { m.nmp with
            freeSize :=
              (CheckReceiveLoop env { m with receiveWaitingThreads := v } v
                m.nmp.freeSize k).2.2.2.1 } }
        (CheckReceiveLoop_inv env k { m with receiveWaitingThreads := v }
          (BufferInv_of_nmp rfl hm) _)
        hs (by have := hloop.2.2.1; simp only; omega) (by omega)
      rw [hr1]
      exact ⟨_, rfl⟩
  · exact ⟨_, rfl⟩

/-- With fuel at least the measure of the pipe, `CheckSendThreads` and
`CheckReceiveThreads` return. -/
theorem CheckThreads_return (env : HleEnv) :
    ∀ (fuel : Nat) (k : KernelState) (m : MsgPipe), m.BufferInv →
      m.sendWaitingThreads.length < 2 ^ 64 → m.receiveWaitingThreads.length < 2 ^ 64 →
      m.checkMeasure ≤ fuel →
      (∃ r, m.CheckSendThreads env fuel k = .ok r) ∧
      (∃ r, m.CheckReceiveThreads env fuel k = .ok r) := by
  intro fuel
  induction fuel with
  | zero =>
    intro k m hm hs hr hf
    exact ⟨CheckSendThreads_returns_step env 0 k m hm hs hr hf
        (fun f hf0 => absurd hf0 (by omega)),
      CheckReceiveThreads_returns_step env 0 k m hm hs hr hf
        (fun f hf0 => absurd hf0 (by omega))⟩
  | succ n ih =>
    intro k m hm hs hr hf
    refine ⟨CheckSendThreads_returns_step env (n + 1) k m hm hs hr hf ?_,
      CheckReceiveThreads_returns_step env (n + 1) k m hm hs hr hf ?_⟩
    · intro f hfn k1 m1 hm1 hs1 hr1 hf1
      have hfn2 : f = n := by omega
      subst hfn2
      exact (ih k1 m1 hm1 hs1 hr1 hf1).2
    · intro f hfn k1 m1 hm1 hs1 hr1 hf1
      have hfn2 : f = n := by omega
      subst hfn2
      exact (ih k1 m1 hm1 hs1 hr1 hf1).1

/-- C25: for every pipe within `0 <= freeSize <= bufSize` whose wait lists
hold fewer than `2 ^ 64` entries, `CheckSendThreads` and
`CheckReceiveThreads` return once the fuel (the number of calls allowed
between the two) is at least the number of waiting threads plus the used
size. `CheckSendThreads` calls `CheckReceiveThreads` only after its loop
removed a waiting sender, and `CheckReceiveThreads` calls `CheckSendThreads`
only after its loop removed a waiting receiver or strictly decreased the
used size. -/
theorem CheckThreads_terminate (env : HleEnv) (k : KernelState) (m : MsgPipe) (fuel : Nat)
    (hm : m.BufferInv)
    (hs : m.sendWaitingThreads.length < 2 ^ 64) (hr : m.receiveWaitingThreads.length < 2 ^ 64)
    (hfuel : m.checkMeasure ≤ fuel) :
    (∃ r, m.CheckSendThreads env fuel k = .ok r) ∧
      (∃ r, m.CheckReceiveThreads env fuel k = .ok r) ∧
      (∀ m1, m.SortSendThreads env k = .ok m1 →
        (CheckSendLoop env m1 m1.sendWaitingThreads k).1 = true →
        (CheckSendLoop env m1 m1.sendWaitingThreads k).2.1.length
          < m1.sendWaitingThreads.length) ∧
      (∀ m1, m.SortReceiveThreads env k = .ok m1 →
        (CheckReceiveLoop env m1 m1.receiveWaitingThreads m1.nmp.freeSize k).1 = true →
        (CheckReceiveLoop env m1 m1.receiveWaitingThreads m1.nmp.freeSize k).2.2.1.length
            < m1.receiveWaitingThreads.length ∨
          MsgPipe.GetUsedSize { m1 with
              nmp := { m1.nmp with
                freeSize :=
                  (CheckReceiveLoop env m1 m1.receiveWaitingThreads
                    m1.nmp.freeSize k).2.2.2.1 } }
            < m1.GetUsedSize) := by
  refine ⟨(CheckThreads_return env fuel k m hm hs hr hfuel).1,
    (CheckThreads_return env fuel k m hm hs hr hfuel).2, ?_, ?_⟩
  · intro m1 _ hfilled
    exact (CheckSendLoop_spec env m1 m1.sendWaitingThreads k).2 hfilled
  · intro m1 hsort hfreed
    have hm1 := (BufferInv_iff m1).1 (BufferInv_of_nmp (SortReceiveThreads_nmp hsort) hm)
    have hloop := CheckReceiveLoop_spec env m1 hm1.2 m1.receiveWaitingThreads m1.nmp.freeSize k
      hm1.1
    have h1 := hloop.1
    have h2 := hloop.2.1
    have h3 := hloop.2.2.1
    have h4 := hloop.2.2.2 hfreed
    simp only [GetUsedSize]
    omega

/-- Witness of `CheckThreads_terminate`: `pipeTwoSenders`, two waiting
senders and nothing used, with fuel 2. -/
theorem CheckThreads_terminate_witness :
    pipeTwoSenders.checkMeasure ≤ 2 ∧
      (∃ r, pipeTwoSenders.CheckSendThreads envHle 2 kernelTwoSenders = .ok r) ∧
      (∃ r, pipeTwoSenders.CheckReceiveThreads envHle 2 kernelTwoSenders = .ok r) :=
  ⟨by decide,
    (CheckThreads_terminate envHle kernelTwoSenders pipeTwoSenders 2
      (by unfold MsgPipe.BufferInv s32; decide) (by decide) (by decide) (by decide)).1,
    (CheckThreads_terminate envHle kernelTwoSenders pipeTwoSenders 2
      (by unfold MsgPipe.BufferInv s32; decide) (by decide) (by decide) (by decide)).2.1⟩

/-! ## Byte accounting of queued senders -/

/-- C23, the code at the failing input: pipe 7 has a buffer of 8 bytes;
threads 1 and 2 wait to send 4 bytes each (`0x11` four times, `0x22` four
times). With the buffer empty (used size 0), `CheckSendThreads` wakes both
senders with 4 bytes counted as transferred each and empties the send list,
but the used size is still 0 afterwards and the first 4 bytes of the buffer
hold the bytes of thread 2: the bytes of thread 1 were overwritten. The same
happens when the state is reached through `__KernelReceiveMsgPipe`: with the
buffer full and both senders queued, a receive of 8 bytes frees the buffer
and runs `CheckSendThreads`. -/
theorem CheckSendThreads_keeps_used_size :
    pipeTwoSenders.GetUsedSize = 0 ∧
      (pipeTwoSenders.CheckSendThreads envHle 1 kernelTwoSenders).toOption.map
          (fun r => (r.1, r.2.2.sendWaitingThreads, r.2.2.GetUsedSize,
            (List.range 8).map (fun i => r.2.1.mem (0x08800000 + i)),
            Read_U32 r.2.1.mem 0x08900100, Read_U32 r.2.1.mem 0x08900110,
            r.2.1.waitID 1, r.2.1.waitID 2))
        = some (true, [], 0, [0x22, 0x22, 0x22, 0x22, 0, 0, 0, 0], 4, 4, 0, 0) ∧
      pipeFullTwoSenders.GetUsedSize = 8 ∧
      (__KernelReceiveMsgPipe envHle 1 kernelTwoSenders pipeFullTwoSenders 0x08A00000 8
          SCE_KERNEL_MPW_FULL 0x08A00100 0 false false).toOption.map
          (fun r => (r.2.sendWaitingThreads, r.2.GetUsedSize,
            (List.range 8).map (fun i => r.1.mem (0x08800000 + i)),
            Read_U32 r.1.mem 0x08A00100,
            Read_U32 r.1.mem 0x08900100, Read_U32 r.1.mem 0x08900110,
            r.1.waitID 1, r.1.waitID 2))
        = some ([], 0, [0x22, 0x22, 0x22, 0x22, 0, 0, 0, 0], 8, 4, 4, 0, 0) := by
  refine ⟨by decide, rfl, by decide, rfl⟩

/-! ## Hand-over on a pipe without buffer -/

/-- C24, the code at the failing input: pipe 7 has `bufSize = 0`. Thread 1
sends 4 bytes (`0x11` four times) in mode `SCE_KERNEL_MPW_FULL` and is
queued by `__KernelSendMsgPipe`, its entry having `bufSize = freeSize = 4`.
Thread 2 then asks `__KernelReceiveMsgPipe` for 4 bytes. The sender is woken
with result 0 and 4 written to its transferred count, and leaves the send
list; the receiver gets no byte (its buffer is still zero, the word at its
`resultAddr` is 0) and is queued to wait on the pipe. -/
theorem ReceiveMsgPipe_unbuffered_receives_nothing :
    pipeZero.nmp.bufSize = 0 ∧
      __KernelSendMsgPipe envHle 1 kernelSenderRuns pipeZero 0x08900000 4 SCE_KERNEL_MPW_FULL
          0x08900100 0 false false = .ok handOverSent ∧
      handOverSent.1 = 0 ∧
      handOverSent.2.2.sendWaitingThreads
        = [⟨1, 0x08900000, 4, 4, SCE_KERNEL_MPW_FULL, 0x08900100⟩] ∧
      handOverSent.2.1.waitID 1 = 7 ∧
      (List.range 4).map (fun i => handOverSent.2.1.mem (0x08900000 + i))
        = [0x11, 0x11, 0x11, 0x11] ∧
      __KernelReceiveMsgPipe envHle 1 { handOverSent.2.1 with curThread := 2 } handOverSent.2.2
          0x08A00000 4 SCE_KERNEL_MPW_FULL 0x08A00100 0 false false = .ok handOverReceived ∧
      handOverReceived.2.sendWaitingThreads = [] ∧
      handOverReceived.1.waitID 1 = 0 ∧
      handOverReceived.1.waitResult 1 = 0 ∧
      Read_U32 handOverReceived.1.mem 0x08900100 = 4 ∧
      (List.range 4).map (fun i => handOverReceived.1.mem (0x08A00000 + i)) = [0, 0, 0, 0] ∧
      Read_U32 handOverReceived.1.mem 0x08A00100 = 0 ∧
      handOverReceived.2.receiveWaitingThreads
        = [⟨2, 0x08A00000, 4, 4, SCE_KERNEL_MPW_FULL, 0x08A00100⟩] ∧
      handOverReceived.1.waitID 2 = 7 := by
  refine ⟨rfl, rfl, by decide, by decide, by decide, by decide, rfl, by decide, by decide,
    by decide, by decide, by decide, by decide, by decide, by decide⟩

/-! ## Creation of a pipe -/

/-- C28: `sceKernelCreateMsgPipe` checks its arguments in this order and
returns on the first failure with the state as it was (no block allocated,
no kernel object) and no pipe: a null `name` gives
`SCE_KERNEL_ERROR_NO_MEMORY`; else `partition < 1`, `partition > 9` or
`partition = 7` gives `SCE_KERNEL_ERROR_ILLEGAL_ARGUMENT`; else a partition
other than 2 and 6 gives `SCE_KERNEL_ERROR_ILLEGAL_PERM`; else
`(attr & ~0x5100) >= 0x100` gives `SCE_KERNEL_ERROR_ILLEGAL_ATTR`.
Otherwise, when `size` is 0 or the allocation succeeds, a pipe is created
and its id returned; every pipe created has `bufSize = freeSize = size` and
empty wait lists. -/
theorem sceKernelCreateMsgPipe_validation (env : HleEnv) (k : KernelState)
    (name : Option String) (partition : Int) (attr size optionsPtr : Nat) :
    SCE_KERNEL_MPA_KNOWN = 0x5100 ∧
      (name = none →
        sceKernelCreateMsgPipe env k name partition attr size optionsPtr
          = (env.SCE_KERNEL_ERROR_NO_MEMORY, k, none)) ∧
      (name ≠ none → (partition < 1 ∨ partition > 9 ∨ partition = 7) →
        sceKernelCreateMsgPipe env k name partition attr size optionsPtr
          = (env.SCE_KERNEL_ERROR_ILLEGAL_ARGUMENT, k, none)) ∧
      (name ≠ none → ¬(partition < 1 ∨ partition > 9 ∨ partition = 7) →
        (partition ≠ 2 ∧ partition ≠ 6) →
        sceKernelCreateMsgPipe env k name partition attr size optionsPtr
          = (env.SCE_KERNEL_ERROR_ILLEGAL_PERM, k, none)) ∧
      (name ≠ none → (partition = 2 ∨ partition = 6) →
        0x100 ≤ attr &&& (0xFFFFFFFF ^^^ 0x5100) →
        sceKernelCreateMsgPipe env k name partition attr size optionsPtr
          = (env.SCE_KERNEL_ERROR_ILLEGAL_ATTR, k, none)) ∧
      (name ≠ none → (partition = 2 ∨ partition = 6) →
        attr &&& (0xFFFFFFFF ^^^ 0x5100) < 0x100 →
        (size = 0 ∨ env.userMemoryAlloc k.userBlocks size
            (decide (attr &&& SCE_KERNEL_MPA_HIGHMEM ≠ 0)) ≠ U32_MINUS_ONE) →
        (sceKernelCreateMsgPipe env k name partition attr size optionsPtr).1
            = env.kernelObjectsCreate k.objects ∧
          ∃ p, (sceKernelCreateMsgPipe env k name partition attr size optionsPtr).2.2
            = some p) ∧
      (∀ p, (sceKernelCreateMsgPipe env k name partition attr size optionsPtr).2.2 = some p →
        p.nmp.bufSize = size ∧ p.nmp.freeSize = size ∧ p.sendWaitingThreads = [] ∧
          p.receiveWaitingThreads = []) := by
  have hk : SCE_KERNEL_MPA_KNOWN = 0x5100 := by decide
  refine ⟨hk, ?_, ?_, ?_, ?_, ?_, ?_⟩
  · intro hn
    subst hn
    rfl
  · intro hn hp
    cases name with
    | none => exact absurd rfl hn
    | some nm =>
      simp only [sceKernelCreateMsgPipe]
      rw [if_pos hp]
  · intro hn hp1 hp2
    cases name with
    | none => exact absurd rfl hn
    | some nm =>
      simp only [sceKernelCreateMsgPipe]
      rw [if_neg hp1, if_pos hp2]
  · intro hn hp ha
    cases name with
    | none => exact absurd rfl hn
    | some nm =>
      have hp1 : ¬(partition < 1 ∨ partition > 9 ∨ partition = 7) := by omega
      have hp2 : ¬(partition ≠ 2 ∧ partition ≠ 6) := by omega
      simp only [sceKernelCreateMsgPipe]
      rw [if_neg hp1, if_neg hp2, hk, if_pos ha]
  · intro hn hp ha halloc
    cases name with
    | none => exact absurd rfl hn
    | some nm =>
      have hp1 : ¬(partition < 1 ∨ partition > 9 ∨ partition = 7) := by omega
      have hp2 : ¬(partition ≠ 2 ∧ partition ≠ 6) := by omega
      have ha2 : ¬(0x100 ≤ attr &&& (0xFFFFFFFF ^^^ 0x5100)) := by omega
      simp only [sceKernelCreateMsgPipe]
      rw [if_neg hp1, if_neg hp2, hk, if_neg ha2]
      by_cases hz : size = 0
      · rw [if_neg (fun h => h.1 hz)]
        exact ⟨rfl, _, rfl⟩
      · have hne := halloc.resolve_left hz
        rw [if_neg (fun h => hne (by rw [← h.2, if_pos hz]))]
        exact ⟨rfl, _, rfl⟩
  · intro p hp
    exact sceKernelCreateMsgPipe_some env k name partition attr size optionsPtr p hp

end HLE
